import Mathlib

/-!
# librosie: the engine facade of the Rosie Pattern Language

A shallow embedding of `src/librosie/librosie.c`.

The C code drives an embedded Lua runtime through the Lua C API.  The embedding
keeps, as explicit state, everything the C code itself owns:

* the engine lock (a held/free flag plus counters of acquisitions and releases),
* the registry slots the C code reads and writes (the pattern table, the two
  allocation-limit slots, the cached string result),
* an event log of the capability calls and forced collections it performs.

Everything behind a `lua_pcall` (the compiler, the matcher, the JSON encoder,
the message sanitizer, ...) and the garbage collector are capabilities of the
runtime; they are parameters of the model (`Runtime`), so every theorem holds
for every behaviour of those capabilities.

Stack indices of the C code are resolved by hand: every exported function
leaves the Lua stack empty (`lua_settop(L, 0)` on every return path), so
absolute index 1 is the first value pushed by the current call.
-/

namespace Rosie

/-! ## Lua values -/

/-- Values of the Lua runtime as seen through the C API.  Tables and functions
are references (their contents live in the runtime); a full userdata is an
`rBuffer` and carries its `data` and `n` fields.  A `number` is a number of the
integer subtype; a `float` carries what the C API can observe of it: its
exact integer value, if it has one, and its string form. -/
inductive LuaValue where
  | nil
  | boolean (b : Bool)
  | number (n : Int)
  | float (asInteger : Option Int) (text : String)
  | string (s : String)
  | table (id : Nat)
  | function (id : Nat)
  | userdata (data : String) (n : Int)
  | lightuserdata (addr : Nat)
  deriving DecidableEq, Repr

namespace LuaValue

/-- The test `lua_type(L, i) == LUA_TTABLE` (also `lua_istable`). -/
def istable : LuaValue → Bool
  | table _ => true
  | _ => false

/-- The C API function `lua_isnil`. -/
def isnil : LuaValue → Bool
  | nil => true
  | _ => false

/-- The C API function `lua_isboolean`. -/
def isboolean : LuaValue → Bool
  | boolean _ => true
  | _ => false

/-- The C API function `lua_isstring`: true for strings and for numbers. -/
def isstring : LuaValue → Bool
  | string _ => true
  | number _ => true
  | float _ _ => true
  | _ => false

/-- The C API function `lua_isuserdata`: true for full and light userdata. -/
def isuserdata : LuaValue → Bool
  | userdata _ _ => true
  | lightuserdata _ => true
  | _ => false

/-- The C API function `lua_toboolean`: false for `nil` and `false` only. -/
def toboolean : LuaValue → Bool
  | nil => false
  | boolean b => b
  | _ => true

/-- The C API function `lua_tolstring`: the string, the decimal form of a
number, or `NULL` (with length 0) for anything else. -/
def tolstring : LuaValue → Option String
  | string s => some s
  | number n => some (toString n)
  | float _ text => some text
  | _ => none

end LuaValue

/-! ## C-side data -/

/-- Conversion of a `lua_Integer` (or of an `int` sum) to a 32-bit C `int`:
values out of range wrap around. -/
def toInt32 (x : Int) : Int := (x + 2147483648) % 4294967296 - 2147483648

/-- Range of the C type `int`. -/
def isInt32 (x : Int) : Prop := -2147483648 ≤ x ∧ x < 2147483648

instance (x : Int) : Decidable (isInt32 x) := by unfold isInt32; infer_instance

/-- The librosie string `str`: a pointer (`none` is `NULL`, otherwise the bytes
it points to) and a length field, which doubles as an error code when the
pointer is `NULL`.  Here and for C strings, a `String` stands for an array of C
`char`s, one `Char` per byte. -/
structure str where
  ptr : Option String
  len : Int
  deriving DecidableEq, Repr

/-- The function `rosie_string_from(ptr, len)`: wraps without copying. -/
def rosie_string_from (ptr : Option String) (len : Int) : str := ⟨ptr, len⟩

/-- The function `rosie_new_string(msg, len)` of rosiestring.c (outside
librosie.c): a freshly allocated copy of `len` bytes.  `lua_tolstring` hands it
`NULL` with length 0 for a value that is not a string; the copy is then the
empty string.  Allocation failure is not modelled. -/
def rosie_new_string (msg : Option String) : str :=
  ⟨some (msg.getD ""), ((msg.getD "").length : Int)⟩

/-- The function `rosie_new_string_from_const(msg)`: a copy of a literal. -/
def rosie_new_string_from_const (msg : String) : str := ⟨some msg, (msg.length : Int)⟩

/-- Status codes returned by the exported functions.  `SUCCESS` and `LUA_OK`
are both 0; the error codes are distinct non-zero macros of librosie.h. -/
inductive Status where
  | SUCCESS
  | ERR_ENGINE_CALL_FAILED
  | ERR_SYSCALL_FAILED
  deriving DecidableEq, Repr

/-- Constants of headers outside librosie.c (librosie.h and the matcher's
headers).  They are parameters of the model. -/
structure Consts where
  ERR_NO_PATTERN : Int
  ERR_NO_ENCODER : Int
  MIN_ALLOC_LIMIT_MB : Int
  MAX_ENCODER_NAME_LENGTH : Nat
  r_encoders : List (String × Int)

/-! ## C strings and heap blocks -/

/-- The terminator of a C string. -/
def NUL : Char := Char.ofNat 0

/-- The C string that starts at the first char of `s`: the chars before the
first `NUL`, or all of `s`, which a terminator then follows in memory. -/
def cstring (s : String) : List Char := s.data.takeWhile (fun c => c ≠ NUL)

/-- The C library function `strlen`. -/
def strlen (s : String) : Nat := (cstring s).length

/-- The C library function `strnlen`. -/
def strnlen (s : String) (maxlen : Nat) : Nat := min (strlen s) maxlen

/-- A block of `size` bytes returned by `malloc`, with a record of what has
been stored through pointers into it: `cells` lists the byte at each offset
from the start of the block up to the last offset written (`none` for an
offset skipped by the writes), offsets past the end of the block included. -/
structure Block where
  size : Nat
  cells : List (Option Char)
  deriving DecidableEq, Repr

/-- The C library function `malloc`, taken to succeed. -/
def malloc (size : Nat) : Block := ⟨size, []⟩

/-- The bytes `data` stored at offsets `dst`, `dst + 1`, ... of a block. -/
def Block.store (b : Block) (dst : Nat) (data : List Char) : Block :=
  let cells := b.cells ++ List.replicate (dst + data.length - b.cells.length) none
  { b with cells := cells.take dst ++ data.map some ++ cells.drop (dst + data.length) }

/-- Whether every store stayed inside the block. -/
def Block.in_bounds (b : Block) : Prop := b.cells.length ≤ b.size

instance (b : Block) : Decidable b.in_bounds := by unfold Block.in_bounds; infer_instance

/-- The C string at the start of a block: the bytes stored before the first
`NUL` or unwritten offset. -/
def Block.cstring (b : Block) : List Char :=
  (b.cells.takeWhile (fun c => c.isSome && c != some NUL)).filterMap id

/-- The C library function `stpcpy(dst, src)`, `dst` an offset into a block:
the C string `src` is copied with its terminator; the result is the offset of
the terminator. -/
def stpcpy (b : Block) (dst : Nat) (src : String) : Block × Nat :=
  (b.store dst (cstring src ++ [NUL]), dst + strlen src)

/-- The C library function `stpncpy(dst, src, n)`: exactly `n` bytes are
written, the first `n` chars of the C string `src` and then `NUL`s if it is
shorter; the result is the offset after the last char copied. -/
def stpncpy (b : Block) (dst : Nat) (src : String) (n : Nat) : Block × Nat :=
  (b.store dst ((cstring src).take n ++ List.replicate (n - strlen src) NUL),
    dst + strnlen src n)

/-! ## The pattern table and `luaL_ref` / `luaL_unref` -/

/-- The integer-keyed part of a Lua table: an association list, newest binding
first; an absent key reads as `nil`. -/
abbrev Tbl := List (Int × LuaValue)

/-- The C API function `lua_rawgeti`. -/
def Tbl.get : Tbl → Int → LuaValue
  | [], _ => LuaValue.nil
  | (k, v) :: rest, i => if k = i then v else Tbl.get rest i

/-- The C API function `lua_rawseti`. -/
def Tbl.set (t : Tbl) (i : Int) (v : LuaValue) : Tbl := (i, v) :: t

/-- The constant `LUA_REFNIL` of lauxlib.h. -/
def LUA_REFNIL : Int := -1

/-! ## The runtime behind the C API -/

/-- Result of a `lua_pcall`: the callee raised an error, or returned values.
Either way the runtime may have changed. -/
inductive Outcome (W : Type) where
  | error (w : W) (msg : LuaValue)
  | ok (w : W) (results : List LuaValue)

/-- Value number `i` (from 0) among the results of a `lua_pcall` that asked for
a fixed number of results: missing results are `nil`, extra ones are dropped. -/
def nth (rs : List LuaValue) (i : Nat) : LuaValue := rs.getD i LuaValue.nil

/-- The capabilities of the embedded runtime, over an abstract runtime state
`W`.  A capability that the C code fetches with `lua_getfield` and then calls
with `lua_pcall` is one field: fetching a missing capability makes the call
raise an error.  A lookup whose result the C code goes on to use itself goes
through `getfield`.  `CHECK_TYPE` (a macro of librosie.h) is taken to log a
mismatch and continue. -/
structure Runtime (W : Type) where
  /-- Heap usage in kilobytes: `lua_gc(L, LUA_GCCOUNT, 0)`. -/
  gccount : W → Int
  /-- A full collection: `lua_gc(L, LUA_GCCOLLECT, 0)`. -/
  gccollect : W → W
  /-- String to integer coercion performed by `lua_tointeger`. -/
  str2int : String → Option Int
  /-- The C API function `lua_rawlen` on a table. -/
  rawlen : Tbl → Nat
  /-- Whether `lua_next` from the `nil` key finds an entry in table `id`. -/
  next : W → Nat → Bool
  /-- The C API function `lua_getfield` on a value and a key, where the C code
  goes on to use the value found: `none` when the lookup raises an error, as
  for a value that cannot be indexed. -/
  getfield : W → LuaValue → String → Option LuaValue
  engine_new : W → Outcome W
  config : W → Outcome W
  get_libpath : W → Outcome W
  set_libpath : W → String → Outcome W
  compile : W → String → Outcome W
  Cmatch : W → LuaValue → str → Int → Option String → Outcome W
  r_match_C : W → LuaValue → str → Int → Int → Outcome W
  trace : W → LuaValue → str → Int → String → Outcome W
  load : W → String → Outcome W
  loadfile : W → String → Outcome W
  importpkg : W → String → Option String → Outcome W
  matchfile : W → LuaValue → Option String → Option String → Option String →
    String → Bool → Outcome W
  read_rcfile : W → Option String → Outcome W
  execute_rcfile : W → Option String → Bool → Outcome W
  json_encode : W → LuaValue → Outcome W
  strip_each : W → LuaValue → Outcome W

/-- Names of the capabilities, for the event log. -/
inductive Cap where
  | engine_new | config | get_libpath | set_libpath | compile | Cmatch | r_match_C
  | trace | load | loadfile | importpkg | matchfile | read_rcfile | execute_rcfile
  | json_encode | strip_each
  deriving DecidableEq, Repr

/-- Observable actions of the C code on the runtime and on the C heap. -/
inductive Event where
  | call (c : Cap)
  | collect
  | str_alloc (addr : Nat)
  | str_free (addr : Nat)
  deriving DecidableEq, Repr

/-- The function `lua_tointeger`: `nil`, other non-numbers and floats without
an exact integer value convert to 0. -/
def lua_tointeger {W : Type} (R : Runtime W) : LuaValue → Int
  | LuaValue.number n => n
  | LuaValue.float asInteger _ => asInteger.getD 0
  | LuaValue.string s => (R.str2int s).getD 0
  | _ => 0

/-- The function `luaL_ref(L, t)` of the Lua 5.3 auxiliary library, for the
value `v` on top of the stack: slot 0 of the table heads a free list of slots;
a free slot is reused if there is one, otherwise the slot after the table
length is taken. -/
def luaL_ref {W : Type} (R : Runtime W) (t : Tbl) (v : LuaValue) : Tbl × Int :=
  if v = LuaValue.nil then (t, LUA_REFNIL)
  else
    let ref := lua_tointeger R (t.get 0)
    if ref ≠ 0 then
      let t := t.set 0 (t.get ref)
      (t.set ref v, ref)
    else
      let ref := (R.rawlen t : Int) + 1
      (t.set ref v, ref)

/-- The function `luaL_unref(L, t, ref)` of the Lua 5.3 auxiliary library:
pushes slot `ref` on the free list headed by slot 0. -/
def luaL_unref (t : Tbl) (ref : Int) : Tbl :=
  if ref ≥ 0 then
    let t := t.set ref (t.get 0)
    t.set 0 (LuaValue.number ref)
  else t

/-! ## The engine -/

/-- State of one `Engine`: the runtime, the lock, and the registry slots owned
by the C code.  `acquires`, `releases`, `unguarded` and `events` record what the
code does: `unguarded` counts C API calls made while the lock was not held;
`events` is the log of capability calls, forced collections and string
allocations, newest first. -/
structure Engine (W : Type) where
  L : W
  lock : Bool
  acquires : Nat
  releases : Nat
  unguarded : Nat
  rplx_table : Tbl
  alloc_set_limit : LuaValue
  alloc_actual_limit : LuaValue
  prev_string_result : LuaValue
  heap : List (Nat × str)
  next_addr : Nat
  events : List Event
  closed : Bool
  deriving DecidableEq

section Primitives
variable {W : Type}

/-- The lock acquisition `ACQUIRE_ENGINE_LOCK(e)`.  Waiting for another holder
is not modelled: the embedding is sequential. -/
def ACQUIRE_ENGINE_LOCK (e : Engine W) : Engine W :=
  { e with lock := true, acquires := e.acquires + 1 }

/-- The lock release `RELEASE_ENGINE_LOCK(e)`. -/
def RELEASE_ENGINE_LOCK (e : Engine W) : Engine W :=
  { e with lock := false, releases := e.releases + 1 }

/-- Bookkeeping done by every modelled C API call: an access to the runtime
while the lock is not held is counted. -/
def Engine.api (e : Engine W) : Engine W :=
  { e with unguarded := if e.lock then e.unguarded else e.unguarded + 1 }

/-- The registry access `get_registry(key)` (registry.c): a read of the runtime. -/
def get_registry (e : Engine W) : Engine W := e.api

/-- The call `lua_settop(L, 0)`. -/
def lua_settop0 (e : Engine W) : Engine W := e.api

/-- The call `lua_gc(L, LUA_GCCOLLECT, 0)`. -/
def lua_gc_collect (R : Runtime W) (e : Engine W) : Engine W :=
  { e.api with L := R.gccollect e.L, events := Event.collect :: e.events }

/-- The call `lua_gc(L, LUA_GCCOUNT, 0)`: the value it returns. -/
def lua_gc_count (R : Runtime W) (e : Engine W) : Int := R.gccount e.L

/-- The results of a `lua_pcall`: `none` when the callee raised an error
(`t != LUA_OK`). -/
def Outcome.results : Outcome W → Option (List LuaValue)
  | Outcome.error _ _ => none
  | Outcome.ok _ rs => some rs

/-- The runtime after a `lua_pcall`. -/
def Outcome.state : Outcome W → W
  | Outcome.error w _ => w
  | Outcome.ok w _ => w

/-- The effect on the engine of a `lua_pcall` of capability `c` that behaves as
`o`: the call is logged and the runtime updated. -/
def pcall (c : Cap) (o : Outcome W) (e : Engine W) : Engine W :=
  { e.api with L := o.state, events := Event.call c :: e.events }

/-- The function `to_json_string(L, pos, json_string)` applied to the value `v`
at `pos`: the engine, the status and `*json_string`.  The string starts as
`{NULL, 0}`; it stays so unless the encoder returns at most one value. -/
def to_json_string (R : Runtime W) (e : Engine W) (v : LuaValue) : Engine W × Status × str :=
  let e := get_registry e
  let json_string := rosie_string_from none 0
  match v with
  | LuaValue.table id =>
    if !R.next e.L id then (e, Status.SUCCESS, json_string)
    else
      let o := R.json_encode e.L v
      let e := pcall Cap.json_encode o e
      match o.results with
      | none => (e, Status.ERR_SYSCALL_FAILED, json_string)
      | some rs =>
        if rs.length > 1 then (e, Status.ERR_SYSCALL_FAILED, json_string)
        else (e, Status.SUCCESS, rosie_new_string (rs.headD v).tolstring)
  | _ => (e, Status.ERR_SYSCALL_FAILED, json_string)

/-- The function `strip_violation_messages(L)` applied to the messages value
`v` on top of the stack: the engine, the status, and the new top of the stack
(the sanitizer's result on success). -/
def strip_violation_messages (R : Runtime W) (e : Engine W) (v : LuaValue) :
    Engine W × Status × LuaValue :=
  let e := get_registry e
  let o := R.strip_each e.L v
  let e := pcall Cap.strip_each o e
  match o.results with
  | none => (e, Status.ERR_ENGINE_CALL_FAILED, v)
  | some rs => (e, Status.SUCCESS, nth rs 0)

/-- Whether `v` is a table that has no entries in the runtime state `w`. -/
def is_empty_table (R : Runtime W) (w : W) : LuaValue → Bool
  | LuaValue.table id => !R.next w id
  | _ => false

end Primitives

/-! ## Exported functions -/

section Exported
variable {W : Type}

/-- The bytes `ptr[0 .. len)` a borrowed `str` denotes (`lua_pushlstring`). -/
def str.bytes (s : str) : String := (s.ptr.getD "").take s.len.toNat

/-- Out-parameters and status of `rosie_alloc_limit`.  An out-parameter is
`none` when the caller passed a null pointer. -/
structure AllocLimitResult where
  status : Status
  newlimit : Option Int
  usage : Option Int
  deriving DecidableEq, Repr

/-- The function `rosie_alloc_limit(e, newlimit, usage)`.  `newlimit` and
`usage` are the pointed-to values, `none` for a null pointer. -/
def rosie_alloc_limit (K : Consts) (R : Runtime W) (e : Engine W)
    (newlimit usage : Option Int) : Engine W × AllocLimitResult :=
  let e := ACQUIRE_ENGINE_LOCK e
  let e := lua_gc_collect R e
  let e := lua_gc_collect R e
  let memusg := lua_gc_count R e
  let e := e.api
  let usage := usage.map (fun _ => memusg)
  match newlimit with
  | none =>
    let e := lua_settop0 e
    (RELEASE_ENGINE_LOCK e, ⟨Status.SUCCESS, none, usage⟩)
  | some limit =>
    if limit ≠ -1 ∧ limit ≠ 0 ∧ limit < K.MIN_ALLOC_LIMIT_MB then
      (RELEASE_ENGINE_LOCK e, ⟨Status.ERR_ENGINE_CALL_FAILED, some limit, usage⟩)
    else if limit = -1 then
      let e := get_registry e
      let queried := toInt32 (lua_tointeger R e.alloc_set_limit)
      let e := lua_settop0 e
      (RELEASE_ENGINE_LOCK e, ⟨Status.SUCCESS, some queried, usage⟩)
    else
      let e := { e.api with alloc_set_limit := LuaValue.number limit }
      let actual_limit := toInt32 (memusg + limit)
      let e := { e.api with
        alloc_actual_limit := LuaValue.number (if limit = 0 then 0 else actual_limit) }
      let e := lua_settop0 e
      (RELEASE_ENGINE_LOCK e, ⟨Status.SUCCESS, some limit, usage⟩)

/-- The function `rosie_config(e, retval)`; returns the status and `*retval`,
which every path writes. -/
def rosie_config (R : Runtime W) (e : Engine W) : Engine W × Status × str :=
  let e := ACQUIRE_ENGINE_LOCK e
  let e := get_registry e
  let e := get_registry e
  let o := R.config e.L
  let e := pcall Cap.config o e
  match o.results with
  | none =>
    let e := lua_settop0 e
    (RELEASE_ENGINE_LOCK e, Status.ERR_ENGINE_CALL_FAILED,
      rosie_new_string_from_const "rosie.config() failed")
  | some rs =>
    let j := to_json_string R e (nth rs 0)
    let e := j.1
    if j.2.1 ≠ Status.SUCCESS then
      let e := lua_settop0 e
      (RELEASE_ENGINE_LOCK e, Status.ERR_ENGINE_CALL_FAILED,
        rosie_new_string_from_const "in config(), could not convert config information to json")
    else
      let e := lua_settop0 e
      (RELEASE_ENGINE_LOCK e, Status.SUCCESS, (⟨j.2.2.ptr, j.2.2.len⟩ : str))

/-- The function `rosie_libpath(e, newpath)`; returns the status and `*newpath`.
A non-null `newpath->ptr` sets the path, a null one queries it. -/
def rosie_libpath (R : Runtime W) (e : Engine W) (newpath : str) : Engine W × Status × str :=
  let e := ACQUIRE_ENGINE_LOCK e
  let e := get_registry e
  let o := if newpath.ptr.isSome then R.set_libpath e.L newpath.bytes else R.get_libpath e.L
  let e := pcall (if newpath.ptr.isSome then Cap.set_libpath else Cap.get_libpath) o e
  match o.results with
  | none =>
    let e := lua_settop0 e
    (RELEASE_ENGINE_LOCK e, Status.ERR_ENGINE_CALL_FAILED, newpath)
  | some rs =>
    let newpath := if newpath.ptr.isSome then newpath
      else rosie_new_string (nth rs 0).tolstring
    let e := lua_settop0 e
    (RELEASE_ENGINE_LOCK e, Status.SUCCESS, newpath)

/-- The function `rosie_free_rplx(e, pat)`. -/
def rosie_free_rplx (e : Engine W) (pat : Int) : Engine W × Status :=
  let e := ACQUIRE_ENGINE_LOCK e
  let e := get_registry e
  let e := { e.api with rplx_table := luaL_unref e.rplx_table pat }
  let e := lua_settop0 e
  (RELEASE_ENGINE_LOCK e, Status.SUCCESS)

/-- Out-parameters and status of `rosie_compile`.  `pat` is `none` when the
caller passed a null pointer. -/
structure CompileResult where
  status : Status
  pat : Option Int
  messages : str
  deriving DecidableEq, Repr

/-- The function `rosie_compile(e, expression, pat, messages)`.  `expression`
is `none` for a null pointer; `pat` and `messages` are the values the
out-parameters hold before the call. -/
def rosie_compile (R : Runtime W) (e : Engine W) (expression : Option str)
    (pat : Option Int) (messages : str) : Engine W × CompileResult :=
  let e := ACQUIRE_ENGINE_LOCK e
  match pat with
  | none =>
    let e := lua_settop0 e
    (RELEASE_ENGINE_LOCK e, ⟨Status.ERR_ENGINE_CALL_FAILED, none, messages⟩)
  | some _ =>
    match expression with
    | none =>
      let e := lua_settop0 e
      (RELEASE_ENGINE_LOCK e, ⟨Status.ERR_ENGINE_CALL_FAILED, some 0, messages⟩)
    | some expression =>
      let e := get_registry e
      let e := get_registry e
      let e := get_registry e
      let o := R.compile e.L expression.bytes
      let e := pcall Cap.compile o e
      match o.results with
      | none =>
        let e := lua_settop0 e
        (RELEASE_ENGINE_LOCK e, ⟨Status.ERR_ENGINE_CALL_FAILED, some 0, messages⟩)
      | some rs =>
        if !(nth rs 0).toboolean then
          let j := to_json_string R e (nth rs 1)
          let e := j.1
          if j.2.1 ≠ Status.SUCCESS then
            let e := lua_settop0 e
            (RELEASE_ENGINE_LOCK e, ⟨Status.ERR_ENGINE_CALL_FAILED, some 0,
              rosie_new_string_from_const "could not convert compile messages to json"⟩)
          else
            let e := lua_settop0 e
            (RELEASE_ENGINE_LOCK e, ⟨Status.SUCCESS, some 0, ⟨j.2.2.ptr, j.2.2.len⟩⟩)
        else
          let stored := luaL_ref R e.rplx_table (nth rs 0)
          let e := { e.api with rplx_table := stored.1 }
          if stored.2 = LUA_REFNIL then
            let e := lua_settop0 e
            (RELEASE_ENGINE_LOCK e, ⟨Status.ERR_ENGINE_CALL_FAILED, some stored.2, messages⟩)
          else
            let j := to_json_string R e (nth rs 1)
            let e := j.1
            if j.2.1 ≠ Status.SUCCESS then
              let e := lua_settop0 e
              (RELEASE_ENGINE_LOCK e, ⟨Status.ERR_ENGINE_CALL_FAILED, some stored.2, messages⟩)
            else
              let e := lua_settop0 e
              (RELEASE_ENGINE_LOCK e, ⟨Status.SUCCESS, some stored.2,
                ⟨j.2.2.ptr, j.2.2.len⟩⟩)

/-- The function `collect_if_needed(L)`: an unset limit slot reads as 0. -/
def collect_if_needed (R : Runtime W) (e : Engine W) : Engine W :=
  let e := get_registry e
  let limit := toInt32 (lua_tointeger R e.alloc_actual_limit)
  if limit ≠ 0 then
    let memusg := lua_gc_count R e
    let e := e.api
    if memusg > limit then lua_gc_collect R e else e
  else e

/-- The comparison `!strncmp(a, b, n)` on C strings: the first `n` chars of
the two strings agree, the terminating NUL counting as a char and nothing
after it being read. -/
def strncmp_eq (a b : String) (n : Nat) : Bool :=
  (cstring a ++ [NUL]).take n == (cstring b ++ [NUL]).take n

/-- The loop of `encoder_name_to_code` over the entries of `r_encoders` that
precede the terminating null-name entry. -/
def encoder_lookup (n : Nat) (name : String) : List (String × Int) → Int
  | [] => 0
  | (entry_name, code) :: rest =>
    if strncmp_eq name entry_name n then code else encoder_lookup n name rest

/-- The function `encoder_name_to_code(name)`.  With a null `name` the first
`strncmp` reads through a null pointer: no result, unless the table is empty. -/
def encoder_name_to_code (K : Consts) (name : Option String) : Option Int :=
  match name, K.r_encoders with
  | some name, encoders => some (encoder_lookup K.MAX_ENCODER_NAME_LENGTH name encoders)
  | none, [] => some 0
  | none, _ :: _ => none

/-- The struct `match` of librosie.h. -/
structure Match where
  data : str
  leftover : Int
  abend : Bool
  ttotal : Int
  tmatch : Int
  deriving DecidableEq, Repr

/-- The statement `set_match_error(match, errno)`. -/
def set_match_error (m : Match) (errno : Int) : Match := { m with data := ⟨none, errno⟩ }

/-- The function `rosie_free_string_ptr(rs)` on the `str` allocated at `addr`. -/
def rosie_free_string_ptr (addr : Nat) (e : Engine W) : Engine W :=
  { e with heap := e.heap.filter (fun p => p.1 ≠ addr),
           events := Event.str_free addr :: e.events }

/-- The function `rosie_new_string_ptr(msg, len)`: a fresh `str` on the C heap,
at a new non-null address `next_addr + 1`. -/
def rosie_new_string_ptr (msg : Option String) (e : Engine W) : Engine W :=
  { e with heap := (e.next_addr + 1, rosie_new_string msg) :: e.heap,
           next_addr := e.next_addr + 1,
           events := Event.str_alloc (e.next_addr + 1) :: e.events }

/-- The release of the previously cached string in `rosie_match`:
`rs = lua_touserdata(L, -1); if (rs) rosie_free_string_ptr(rs)`.  The slot only
ever holds a light userdata or nothing. -/
def free_prev_string_result (e : Engine W) : Engine W :=
  match e.prev_string_result with
  | LuaValue.lightuserdata addr => if addr ≠ 0 then rosie_free_string_ptr addr e else e
  | _ => e

/-- The part of `rosie_match` after the `lua_pcall` has returned the five
results `rs`: the engine, the status, and `*match`. -/
def match_results (R : Runtime W) (e : Engine W) (encoder : Int) (rs : List LuaValue)
    (m : Match) : Engine W × Status × Match :=
  let m := { m with tmatch := toInt32 (lua_tointeger R (nth rs 4)) }
  let m := { m with ttotal := toInt32 (lua_tointeger R (nth rs 3)) }
  let m := { m with abend := (nth rs 2).toboolean }
  let m := { m with leftover := toInt32 (lua_tointeger R (nth rs 1)) }
  match nth rs 0 with
  | LuaValue.userdata data n =>
    let m := { m with data := ⟨some data, n⟩ }
    let e := lua_settop0 e
    (RELEASE_ENGINE_LOCK e, Status.SUCCESS, m)
  | LuaValue.number code =>
    let m := set_match_error m (toInt32 code)
    let e := lua_settop0 e
    (RELEASE_ENGINE_LOCK e, Status.SUCCESS, m)
  | LuaValue.float asInteger _ =>
    let m := set_match_error m (toInt32 (asInteger.getD 0))
    let e := lua_settop0 e
    (RELEASE_ENGINE_LOCK e, Status.SUCCESS, m)
  | LuaValue.string result =>
    if encoder ≠ 0 then
      let e := lua_settop0 e
      (RELEASE_ENGINE_LOCK e, Status.ERR_ENGINE_CALL_FAILED, m)
    else
      let e := get_registry e
      let e := free_prev_string_result e
      let e := rosie_new_string_ptr (some result) e
      let e := { e.api with prev_string_result := LuaValue.lightuserdata e.next_addr }
      let rs := rosie_new_string (some result)
      let m := { m with data := ⟨rs.ptr, rs.len⟩ }
      let e := lua_settop0 e
      (RELEASE_ENGINE_LOCK e, Status.SUCCESS, m)
  | _ =>
    let e := lua_settop0 e
    (RELEASE_ENGINE_LOCK e, Status.ERR_ENGINE_CALL_FAILED, m)

/-- The call that `rosie_match` sets up on the pattern object `rplx` for the
encoder code `encoder`: `rplx.Cmatch` for code 0 (the path through Lua),
otherwise the C function `r_match_C` on the peg that the two lookups
`lua_getfield(L, -1, "pattern")` and `lua_getfield(L, -1, "peg")` find.
`CHECK_TYPE` does not stop the call, so the second lookup is made on whatever
the first one found.  A lookup that raises an error is not inside a
`lua_pcall` and ends the process: `none`. -/
def match_call (R : Runtime W) (w : W) (rplx : LuaValue) (input : str) (start : Int)
    (encoder_name : Option String) (encoder : Int) : Option (Outcome W) :=
  if encoder = 0 then some (R.Cmatch w rplx input start encoder_name)
  else
    match R.getfield w rplx "pattern" with
    | none => none
    | some pattern =>
      match R.getfield w pattern "peg" with
      | none => none
      | some peg => some (R.r_match_C w peg input start encoder)

/-- The function `rosie_match(e, pat, start, encoder_name, input, match)`;
`m` is what `*match` holds before the call.  The result is `none` when the
call does not return (a null encoder name read by `strncmp`, or an error raised
by a lookup on the path through C). -/
def rosie_match (K : Consts) (R : Runtime W) (e : Engine W) (pat start : Int)
    (encoder_name : Option String) (input : str) (m : Match) :
    Option (Engine W × Status × Match) :=
  let e := ACQUIRE_ENGINE_LOCK e
  let e := collect_if_needed R e
  let e := if pat = 0 then e else (get_registry e).api
  if pat = 0 ∨ !(e.rplx_table.get pat).istable then
    let m := set_match_error m K.ERR_NO_PATTERN
    let e := lua_settop0 e
    some (RELEASE_ENGINE_LOCK e, Status.SUCCESS, m)
  else
    let rplx := e.rplx_table.get pat
    match encoder_name_to_code K encoder_name with
    | none => none
    | some encoder =>
      match match_call R e.L rplx input start encoder_name encoder with
      | none => none
      | some o =>
        let e := pcall (if encoder = 0 then Cap.Cmatch else Cap.r_match_C) o e
        match o.results with
        | none =>
          let e := lua_settop0 e
          some (RELEASE_ENGINE_LOCK e, Status.ERR_ENGINE_CALL_FAILED, m)
        | some rs => some (match_results R e encoder rs m)

/-- Out-parameters and status of `rosie_trace`. -/
structure TraceResult where
  status : Status
  matched : Int
  trace : str
  deriving DecidableEq, Repr

/-- The function `rosie_trace(e, pat, start, trace_style, input, matched, trace)`;
`matched` and `trace` are what the out-parameters hold before the call.  The
result is `none` when an `assert` on the engine's results stops the process. -/
def rosie_trace (K : Consts) (R : Runtime W) (e : Engine W) (pat start : Int)
    (trace_style : Option String) (input : str) (matched : Int) (trace : str) :
    Option (Engine W × TraceResult) :=
  let e := ACQUIRE_ENGINE_LOCK e
  let e := collect_if_needed R e
  let e := get_registry e
  let e := get_registry e
  let e := if pat = 0 then e else (get_registry e).api
  if pat = 0 ∨ !(e.rplx_table.get pat).istable then
    let e := lua_settop0 e
    some (RELEASE_ENGINE_LOCK e, ⟨Status.SUCCESS, matched, ⟨none, K.ERR_NO_PATTERN⟩⟩)
  else
    let rplx := e.rplx_table.get pat
    match trace_style with
    | none =>
      let e := lua_settop0 e
      some (RELEASE_ENGINE_LOCK e, ⟨Status.SUCCESS, matched, ⟨none, K.ERR_NO_ENCODER⟩⟩)
    | some style =>
      let o := R.trace e.L rplx input start style
      let e := pcall Cap.trace o e
      match o.results with
      | none =>
        let e := lua_settop0 e
        some (RELEASE_ENGINE_LOCK e, ⟨Status.ERR_ENGINE_CALL_FAILED, matched, trace⟩)
      | some rs =>
        if !((nth rs 0).isboolean && (nth rs 1).isboolean) then none
        else
          let matched := if (nth rs 1).toboolean then 1 else 0
          if (nth rs 2).istable then
            let j := to_json_string R e (nth rs 2)
            let e := j.1
            let out := if j.2.1 ≠ Status.SUCCESS
              then rosie_new_string_from_const "error: could not convert trace data to json"
              else j.2.2
            let e := lua_settop0 e
            some (RELEASE_ENGINE_LOCK e, ⟨Status.SUCCESS, matched, ⟨out.ptr, out.len⟩⟩)
          else if (nth rs 2).isstring then
            let out := rosie_new_string (nth rs 2).tolstring
            let e := lua_settop0 e
            some (RELEASE_ENGINE_LOCK e, ⟨Status.SUCCESS, matched, ⟨out.ptr, out.len⟩⟩)
          else
            let e := lua_settop0 e
            some (RELEASE_ENGINE_LOCK e, ⟨Status.ERR_ENGINE_CALL_FAILED, matched, trace⟩)

/-- Out-parameters and status of `rosie_load`, `rosie_loadfile` and
`rosie_import`. -/
structure LoadResult where
  status : Status
  ok : Int
  pkgname : str
  messages : str
  deriving DecidableEq, Repr

/-- The package name reported by the engine: a fresh string when the second
result is a string, `{NULL, 0}` otherwise. -/
def pkgname_of (v : LuaValue) : str :=
  if v.isstring then rosie_new_string v.tolstring else ⟨none, 0⟩

/-- The function `rosie_load(e, ok, src, pkgname, messages)`; `ok` and
`pkgname` are what the out-parameters hold before the call (`messages` is
written on every path). -/
def rosie_load (R : Runtime W) (e : Engine W) (ok : Int) (src : str) (pkgname : str) :
    Engine W × LoadResult :=
  let e := ACQUIRE_ENGINE_LOCK e
  let e := get_registry e
  let o := R.load e.L src.bytes
  let e := pcall Cap.load o e
  match o.results with
  | none =>
    let e := lua_settop0 e
    (RELEASE_ENGINE_LOCK e, ⟨Status.ERR_ENGINE_CALL_FAILED, ok, pkgname,
      rosie_new_string_from_const "engine.load() failed"⟩)
  | some rs =>
    let ok := if (nth rs 0).toboolean then 1 else 0
    let pkgname := pkgname_of (nth rs 1)
    let j := to_json_string R e (nth rs 2)
    let e := j.1
    let temp_rs := if j.2.1 ≠ Status.SUCCESS
      then rosie_new_string_from_const "in load(), could not convert error information to json"
      else j.2.2
    let e := lua_settop0 e
    (RELEASE_ENGINE_LOCK e, ⟨Status.SUCCESS, ok, pkgname, ⟨temp_rs.ptr, temp_rs.len⟩⟩)

/-- The common tail of `rosie_loadfile` and `rosie_import` after a completed
engine call with results `rs`: sanitize the messages, then encode them. -/
def sanitize_and_encode (R : Runtime W) (e : Engine W) (rs : List LuaValue) (messages : str) :
    Engine W × LoadResult :=
  let ok := if (nth rs 0).toboolean then 1 else 0
  let pkgname := pkgname_of (nth rs 1)
  let s := strip_violation_messages R e (nth rs 2)
  let e := s.1
  if s.2.1 ≠ Status.SUCCESS then
    let e := lua_settop0 e
    (RELEASE_ENGINE_LOCK e, ⟨Status.ERR_ENGINE_CALL_FAILED, ok, pkgname, messages⟩)
  else
    let j := to_json_string R e s.2.2
    let e := j.1
    if j.2.1 ≠ Status.SUCCESS then
      let e := lua_settop0 e
      (RELEASE_ENGINE_LOCK e, ⟨Status.ERR_ENGINE_CALL_FAILED, ok, pkgname, messages⟩)
    else
      let e := lua_settop0 e
      (RELEASE_ENGINE_LOCK e, ⟨Status.SUCCESS, ok, pkgname, ⟨j.2.2.ptr, j.2.2.len⟩⟩)

/-- The function `rosie_loadfile(e, ok, fn, pkgname, messages)`. -/
def rosie_loadfile (R : Runtime W) (e : Engine W) (ok : Int) (fn : str)
    (pkgname messages : str) : Engine W × LoadResult :=
  let e := ACQUIRE_ENGINE_LOCK e
  let e := get_registry e
  let o := R.loadfile e.L fn.bytes
  let e := pcall Cap.loadfile o e
  match o.results with
  | none =>
    let e := lua_settop0 e
    (RELEASE_ENGINE_LOCK e, ⟨Status.ERR_ENGINE_CALL_FAILED, ok, pkgname, messages⟩)
  | some rs => sanitize_and_encode R e rs messages

/-- The function `rosie_import(e, ok, pkgname, as, actual_pkgname, messages)`;
`as` is `none` for a null pointer. -/
def rosie_import (R : Runtime W) (e : Engine W) (ok : Int) (pkgname : str) (as : Option str)
    (actual_pkgname messages : str) : Engine W × LoadResult :=
  let e := ACQUIRE_ENGINE_LOCK e
  let e := get_registry e
  let o := R.importpkg e.L pkgname.bytes (as.map str.bytes)
  let e := pcall Cap.importpkg o e
  match o.results with
  | none =>
    let e := lua_settop0 e
    (RELEASE_ENGINE_LOCK e, ⟨Status.ERR_ENGINE_CALL_FAILED, ok, actual_pkgname, messages⟩)
  | some rs => sanitize_and_encode R e rs messages

/-- Out-parameters and status of `rosie_matchfile`. -/
structure MatchfileResult where
  status : Status
  cin : Int
  cout : Int
  cerr : Int
  err : str
  deriving DecidableEq, Repr

/-- The function `rosie_matchfile(e, pat, encoder, wholefileflag, infilename,
outfilename, errfilename, cin, cout, cerr, err)`; `cin`, `cout`, `cerr` are
what the out-parameters hold before the call (`err` is reset first). -/
def rosie_matchfile (K : Consts) (R : Runtime W) (e : Engine W) (pat : Int)
    (encoder : Option String) (wholefileflag : Int)
    (infilename outfilename errfilename : Option String) (cin cout cerr : Int) :
    Engine W × MatchfileResult :=
  let err : str := ⟨none, 0⟩
  let e := ACQUIRE_ENGINE_LOCK e
  let e := collect_if_needed R e
  let e := get_registry e
  let e := get_registry e
  let e := (get_registry e).api
  if !(e.rplx_table.get pat).istable then
    let e := lua_settop0 e
    (RELEASE_ENGINE_LOCK e, ⟨Status.SUCCESS, -1, K.ERR_NO_PATTERN, cerr, err⟩)
  else
    let rplx := e.rplx_table.get pat
    match encoder with
    | none =>
      let e := lua_settop0 e
      (RELEASE_ENGINE_LOCK e, ⟨Status.SUCCESS, -1, K.ERR_NO_ENCODER, cerr, err⟩)
    | some enc =>
      let o := R.matchfile e.L rplx infilename outfilename errfilename enc
        (decide (wholefileflag ≠ 0))
      let e := pcall Cap.matchfile o e
      match o.results with
      | none =>
        let e := lua_settop0 e
        (RELEASE_ENGINE_LOCK e, ⟨Status.ERR_ENGINE_CALL_FAILED, cin, cout, cerr, err⟩)
      | some rs =>
        if (nth rs 2).isnil then
          let msg := rosie_new_string (nth rs 1).tolstring
          let e := lua_settop0 e
          (RELEASE_ENGINE_LOCK e, ⟨Status.SUCCESS, -1, 3, cerr, ⟨msg.ptr, msg.len⟩⟩)
        else
          let e := lua_settop0 e
          (RELEASE_ENGINE_LOCK e, ⟨Status.SUCCESS, toInt32 (lua_tointeger R (nth rs 0)),
            toInt32 (lua_tointeger R (nth rs 1)), toInt32 (lua_tointeger R (nth rs 2)), err⟩)

/-- Out-parameters and status of `rosie_read_rcfile`. -/
structure ReadRcfileResult where
  status : Status
  file_exists : Int
  options : str
  deriving DecidableEq, Repr

/-- The function `rosie_read_rcfile(e, filename, file_exists, options)`; a null
`filename->ptr` selects the default rc file name. -/
def rosie_read_rcfile (R : Runtime W) (e : Engine W) (filename : str) (file_exists : Int)
    (options : str) : Engine W × ReadRcfileResult :=
  let e := ACQUIRE_ENGINE_LOCK e
  let e := get_registry e
  let e := get_registry e
  let e := get_registry e
  let name := filename.ptr.map (fun _ => filename.bytes)
  let o := R.read_rcfile e.L name
  let e := pcall Cap.read_rcfile o e
  match o.results with
  | none =>
    let e := lua_settop0 e
    (RELEASE_ENGINE_LOCK e, ⟨Status.ERR_ENGINE_CALL_FAILED, file_exists,
      rosie_new_string_from_const "read_rcfile() failed"⟩)
  | some rs =>
    let file_exists := if (nth rs 0).toboolean then 1 else 0
    if (nth rs 0).toboolean && (nth rs 1).istable then
      let j := to_json_string R e (nth rs 1)
      let e := j.1
      if j.2.1 = Status.SUCCESS then
        let e := lua_settop0 e
        (RELEASE_ENGINE_LOCK e, ⟨Status.SUCCESS, file_exists, ⟨j.2.2.ptr, j.2.2.len⟩⟩)
      else
        let e := lua_settop0 e
        (RELEASE_ENGINE_LOCK e, ⟨Status.ERR_ENGINE_CALL_FAILED, file_exists,
          rosie_new_string_from_const "in read_rcfile(), could not convert options to json"⟩)
    else
      let e := lua_settop0 e
      (RELEASE_ENGINE_LOCK e, ⟨Status.SUCCESS, file_exists, options⟩)

/-- Out-parameters and status of `rosie_execute_rcfile`. -/
structure ExecuteRcfileResult where
  status : Status
  file_exists : Int
  no_errors : Int
  deriving DecidableEq, Repr

/-- The function `rosie_execute_rcfile(e, filename, file_exists, no_errors)`. -/
def rosie_execute_rcfile (R : Runtime W) (e : Engine W) (filename : str)
    (file_exists no_errors : Int) : Engine W × ExecuteRcfileResult :=
  let is_default_rcfile := filename.ptr.isNone
  let e := ACQUIRE_ENGINE_LOCK e
  let e := get_registry e
  let e := get_registry e
  let e := get_registry e
  let name := filename.ptr.map (fun _ => filename.bytes)
  let o := R.execute_rcfile e.L name is_default_rcfile
  let e := pcall Cap.execute_rcfile o e
  match o.results with
  | none =>
    let e := lua_settop0 e
    (RELEASE_ENGINE_LOCK e, ⟨Status.ERR_ENGINE_CALL_FAILED, file_exists, no_errors⟩)
  | some rs =>
    let file_exists := if (nth rs 0).toboolean then 1 else 0
    let no_errors := if (nth rs 0).toboolean && (nth rs 1).toboolean then 1 else 0
    let e := lua_settop0 e
    (RELEASE_ENGINE_LOCK e, ⟨Status.SUCCESS, file_exists, no_errors⟩)

/-- The release of the cached string in `rosie_finalize`:
`if (lua_isuserdata(L, -1)) { rs = lua_touserdata(L, -1); if (rs->ptr) ... }`. -/
def finalize_string_result (e : Engine W) : Engine W :=
  match e.prev_string_result with
  | LuaValue.lightuserdata addr =>
    match e.heap.lookup addr with
    | some rs => if rs.ptr.isSome then rosie_free_string_ptr addr e else e
    | none => e
  | _ => e

/-- The function `rosie_finalize(e)`: the cached string result is freed, the
runtime closed, and the lock is not released. -/
def rosie_finalize (e : Engine W) : Engine W :=
  let e := ACQUIRE_ENGINE_LOCK e
  let e := get_registry e
  let e := finalize_string_result e
  { e.api with closed := true }

/-- Static data of the library set up once per process (`set_bootscript`):
the installation directory and the path of the boot script. -/
structure Statics where
  rosiehome : String
  bootscript : String

/-- Start-up behaviour of a new runtime: reading the boot script
(`luaL_loadfile`), running it, and running the boot function it returns;
and `lua_checkstack`. -/
structure Startup (W : Type) where
  loadfile_ok : W → String → Bool
  run_bootscript : W → Outcome W
  run_boot_function : W → String → Outcome W
  checkstack : W → Bool

/-- The branch of `boot` taken when the boot function raises the error object
`lua_msg`: the block `msg` after the two copies, and `*messages`, which points
to the block.  With an error object that is neither a string nor a number,
`lua_tolstring` returns `NULL` and `strnlen` reads through it: no result. -/
def boot_failure_message (lua_msg : LuaValue) : Option (Block × str) :=
  match lua_msg.tolstring with
  | none => none
  | some text =>
    let len := text.length
    let intro := "execution of rosie boot loader failed:\n"
    let msg := malloc (strlen intro + strnlen text 1000 + 1)
    let last := stpcpy msg 0 intro
    let filled := stpncpy last.1 last.2 text (1000 - strlen intro)
    some (filled.1,
      rosie_string_from (some (String.mk filled.1.cstring)) ((len : Int) + strlen intro))

/-- The function `boot(L, messages)`: the new runtime state and `TRUE`/`FALSE`,
with `*messages` on failure; `none` when it does not return. -/
def boot (B : Startup W) (S : Statics) (w : W) (messages : str) : Option (W × Bool × str) :=
  if S.bootscript = "" then
    some (w, false, rosie_new_string_from_const "unable to find rosie installation files")
  else if !B.loadfile_ok w S.bootscript then
    let msg := "no rosie installation at " ++ S.rosiehome
    some (w, false, rosie_string_from (some msg) msg.length)
  else
    match B.run_bootscript w with
    | Outcome.error w _ =>
      let msg := "failed to load " ++ S.bootscript ++ " -- corrupt installation?"
      some (w, false, rosie_string_from (some msg) msg.length)
    | Outcome.ok w _ =>
      match B.run_boot_function w S.rosiehome with
      | Outcome.error w lua_msg =>
        (boot_failure_message lua_msg).map (fun r => (w, false, r.2))
      | Outcome.ok w _ => some (w, true, messages)

/-- The engine `rosie_new` hands out, around the booted runtime `w`: an empty
pattern table (`lua_createtable`), the limit slot set to 0
(`lua_pushinteger(L, 0); set_registry(alloc_set_limit_key)`), the other slots
unset, and the lock initialised. -/
def Engine.init (w : W) : Engine W :=
  { L := w, lock := false, acquires := 0, releases := 0, unguarded := 0,
    rplx_table := [], alloc_set_limit := LuaValue.number 0,
    alloc_actual_limit := LuaValue.nil, prev_string_result := LuaValue.nil,
    heap := [], next_addr := 0, events := [Event.call Cap.engine_new],
    closed := false }

/-- The function `rosie_new(messages)` once `pthread_once` has run the one-time
set-up: `newstate` is the runtime `luaL_newstate` delivers (`none` for `NULL`).
Returns the engine (`none` for `NULL`) and `*messages`; no result when `boot`
does not return.  The function `newstate()` hands the new state to
`luaL_openlibs` before `rosie_new` tests it for `NULL`, so with a `NULL` state
the call reads through a null pointer and does not return either: the branch
that sets "not enough memory to initialize" is never reached. -/
def rosie_new (R : Runtime W) (B : Startup W) (S : Statics) (newstate : Option W)
    (messages : str) : Option (Option (Engine W) × str) :=
  match newstate with
  | none => none
  | some w =>
    match boot B S w messages with
    | none => none
    | some (w, booted, messages) =>
      if !booted then some (none, messages)
      else if !B.checkstack w then
        some (none, rosie_new_string_from_const "not enough memory for stack")
      else
        match R.engine_new w with
        | Outcome.error _ _ =>
          some (none, rosie_new_string_from_const "rosie.engine.new() failed")
        | Outcome.ok w _ =>
          some (some (Engine.init w), messages)

end Exported

/-! ## Sequences of calls -/

section Sequences
variable {W : Type}

/-- Bookkeeping of one completed call that took the engine from `e` to `e'`:
the lock is free again, it was acquired once and released once, and no access
to the runtime was made without it. -/
def LockedCall (e e' : Engine W) : Prop :=
  e'.lock = false ∧ e'.acquires = e.acquires + 1 ∧ e'.releases = e.releases + 1
    ∧ e'.unguarded = e.unguarded

/-- The two allocation-limit slots are the same in `e` and `e'`. -/
def SameLimits (e e' : Engine W) : Prop :=
  e'.alloc_set_limit = e.alloc_set_limit ∧ e'.alloc_actual_limit = e.alloc_actual_limit

/-- A call of the pattern-table interface on one engine. -/
inductive Call where
  | compile (expression : str)
  | free (pat : Int)
  deriving DecidableEq, Repr

/-- An engine together with the caller's view of its handles: `live` lists the
handles written by `rosie_compile` and not freed since, each with the object
stored under it; `freed` lists the handles freed and not handed out again
since. -/
structure Session (W : Type) where
  engine : Engine W
  live : List (Int × LuaValue)
  freed : List Int
  deriving DecidableEq

/-- The free list threaded through a pattern table by `luaL_unref`: starting
from the value `v` of slot 0, each free slot holds the index of the next one;
the last holds `nil` (or 0). -/
def FreeChain (t : Tbl) : LuaValue → List Int → Prop
  | v, [] => v = LuaValue.nil ∨ v = LuaValue.number 0
  | v, r :: rest => v = LuaValue.number r ∧ 0 < r ∧ FreeChain t (t.get r) rest

/-- Consistency of a session's bookkeeping with the pattern table: the handles
on the table's free list are distinct and all recorded as freed; every live
handle is positive, not freed, and its slot holds the object stored under it. -/
def Session.Inv (s : Session W) : Prop :=
  ∃ fl : List Int,
    FreeChain s.engine.rplx_table (s.engine.rplx_table.get 0) fl ∧ fl.Nodup
    ∧ (∀ r ∈ fl, r ∈ s.freed)
    ∧ (∀ q o, (q, o) ∈ s.live →
        0 < q ∧ s.engine.rplx_table.get q = o ∧ o ≠ LuaValue.nil ∧ q ∉ s.freed)

/-- One call of a session.  A `rosie_free_rplx` of a handle that is already
free is a misuse of the interface: the session stops (`none`). -/
def Session.step (R : Runtime W) (s : Session W) : Call → Option (Session W)
  | Call.compile expression =>
    let r := rosie_compile R s.engine (some expression) (some 0) ⟨none, 0⟩
    match r.2.pat with
    | some h =>
      if h = 0 then some { s with engine := r.1 }
      else some { engine := r.1, live := (h, r.1.rplx_table.get h) :: s.live,
                  freed := s.freed.filter (fun q => q ≠ h) }
    | none => some { s with engine := r.1 }
  | Call.free pat =>
    if pat ∈ s.freed then none
    else some { engine := (rosie_free_rplx s.engine pat).1,
                live := s.live.filter (fun p => p.1 ≠ pat),
                freed := pat :: s.freed }

/-- A sequence of calls, in order. -/
def Session.run (R : Runtime W) (s : Session W) : List Call → Option (Session W)
  | [] => some s
  | c :: rest => (s.step R c).bind (fun s' => Session.run R s' rest)

/-- The exported operations on an existing engine, other than `rosie_finalize`,
with their arguments. -/
inductive Op where
  | alloc_limit (newlimit usage : Option Int)
  | config
  | libpath (newpath : str)
  | free_rplx (pat : Int)
  | compile (expression : Option str) (pat : Option Int) (messages : str)
  | rmatch (pat start : Int) (encoder_name : Option String) (input : str) (m : Match)
  | trace (pat start : Int) (trace_style : Option String) (input : str) (matched : Int)
      (trace : str)
  | load (ok : Int) (src pkgname : str)
  | loadfile (ok : Int) (fn pkgname messages : str)
  | importpkg (ok : Int) (pkgname : str) (as : Option str) (actual_pkgname messages : str)
  | matchfile (pat : Int) (encoder : Option String) (wholefileflag : Int)
      (infilename outfilename errfilename : Option String) (cin cout cerr : Int)
  | read_rcfile (filename : str) (file_exists : Int) (options : str)
  | execute_rcfile (filename : str) (file_exists no_errors : Int)

/-- The engine after an operation returns; `none` when it does not return. -/
def Op.run (K : Consts) (R : Runtime W) (e : Engine W) : Op → Option (Engine W)
  | Op.alloc_limit newlimit usage => some (rosie_alloc_limit K R e newlimit usage).1
  | Op.config => some (rosie_config R e).1
  | Op.libpath newpath => some (rosie_libpath R e newpath).1
  | Op.free_rplx pat => some (rosie_free_rplx e pat).1
  | Op.compile expression pat messages => some (rosie_compile R e expression pat messages).1
  | Op.rmatch pat start encoder_name input m =>
    (rosie_match K R e pat start encoder_name input m).map Prod.fst
  | Op.trace pat start trace_style input matched out =>
    (rosie_trace K R e pat start trace_style input matched out).map Prod.fst
  | Op.load ok src pkgname => some (rosie_load R e ok src pkgname).1
  | Op.loadfile ok fn pkgname messages => some (rosie_loadfile R e ok fn pkgname messages).1
  | Op.importpkg ok pkgname as actual_pkgname messages =>
    some (rosie_import R e ok pkgname as actual_pkgname messages).1
  | Op.matchfile pat encoder wholefileflag infilename outfilename errfilename cin cout cerr =>
    some (rosie_matchfile K R e pat encoder wholefileflag infilename outfilename errfilename
      cin cout cerr).1
  | Op.read_rcfile filename file_exists options =>
    some (rosie_read_rcfile R e filename file_exists options).1
  | Op.execute_rcfile filename file_exists no_errors =>
    some (rosie_execute_rcfile R e filename file_exists no_errors).1

/-- A sequence of operations, in order; `none` if one of them does not return. -/
def Op.runAll (K : Consts) (R : Runtime W) (e : Engine W) : List Op → Option (Engine W)
  | [] => some e
  | op :: rest => (op.run K R e).bind (fun e' => Op.runAll K R e' rest)

/-- Whether `rosie_alloc_limit` accepts `limit` as a new setting. -/
def accepted_limit (K : Consts) (limit : Int) : Bool :=
  decide (limit ≠ -1 ∧ ¬ (limit ≠ 0 ∧ limit < K.MIN_ALLOC_LIMIT_MB))

/-- The configured limit after one operation, given the limit before it: only
an accepted setting by `rosie_alloc_limit` changes it. -/
def Op.limit_after (K : Consts) (current : Int) : Op → Int
  | Op.alloc_limit (some limit) _ => if accepted_limit K limit then limit else current
  | _ => current

/-- The limit configured by a sequence of operations on a fresh engine: that of
the most recent accepted setting, 0 if there is none. -/
def configured_limit (K : Consts) (ops : List Op) : Int := ops.foldl (Op.limit_after K) 0

/-- Whether every limit passed to `rosie_alloc_limit` in a sequence of
operations is a C `int`. -/
def Op.int_limits : List Op → Prop
  | [] => True
  | Op.alloc_limit (some limit) _ :: rest => isInt32 limit ∧ Op.int_limits rest
  | _ :: rest => Op.int_limits rest

/-- The cached string result and the C heap of string copies are the same in
`e` and `e'`. -/
def SameCache (e e' : Engine W) : Prop :=
  e'.prev_string_result = e.prev_string_result ∧ e'.heap = e.heap ∧ e'.next_addr = e.next_addr

/-- Consistency of the cached string result with the C heap and the event log:
addresses are allocated at most once and never beyond `next_addr`; either
nothing is cached, the heap is empty and every allocated copy has been freed
once, or a copy at a non-null address `c` is cached, it is the only entry of
the heap and has not been freed, and every other allocated copy has been freed
once. -/
def Engine.CacheInv (e : Engine W) : Prop :=
  (∀ a, e.next_addr < a → e.events.count (Event.str_alloc a) = 0)
    ∧ (∀ a, e.events.count (Event.str_alloc a) ≤ 1)
    ∧ ((e.prev_string_result = LuaValue.nil ∧ e.heap = []
          ∧ ∀ a, e.events.count (Event.str_free a) = e.events.count (Event.str_alloc a))
      ∨ (∃ c s, e.prev_string_result = LuaValue.lightuserdata c ∧ c ≠ 0
          ∧ e.heap = [(c, s)] ∧ s.ptr.isSome = true
          ∧ e.events.count (Event.str_alloc c) = 1 ∧ e.events.count (Event.str_free c) = 0
          ∧ ∀ a, a ≠ c → e.events.count (Event.str_free a) = e.events.count (Event.str_alloc a)))

/-- One operation on a session.  `rosie_compile` and `rosie_free_rplx` update
the caller's view of the handles: a nonzero handle written by a compile becomes
live, a freed handle stops being so.  Every other operation leaves the view as
it is.  The session stops (`none`) at a `rosie_free_rplx` of a handle that is
already free, and at an operation that does not return. -/
def Session.apply (K : Consts) (R : Runtime W) (s : Session W) : Op → Option (Session W)
  | Op.compile expression pat messages =>
    let r := rosie_compile R s.engine expression pat messages
    match r.2.pat with
    | some h =>
      if h = 0 then some { s with engine := r.1 }
      else some { engine := r.1, live := (h, r.1.rplx_table.get h) :: s.live,
                  freed := s.freed.filter (fun q => q ≠ h) }
    | none => some { s with engine := r.1 }
  | Op.free_rplx pat =>
    if pat ∈ s.freed then none
    else some { engine := (rosie_free_rplx s.engine pat).1,
                live := s.live.filter (fun p => p.1 ≠ pat),
                freed := pat :: s.freed }
  | op => (op.run K R s.engine).map (fun e => { s with engine := e })

/-- A sequence of operations on a session, in order. -/
def Session.applyAll (K : Consts) (R : Runtime W) (s : Session W) : List Op → Option (Session W)
  | [] => some s
  | op :: rest => (s.apply K R op).bind (fun s' => Session.applyAll K R s' rest)

/-- What a session's bookkeeping says about released slots: the slot of every
handle recorded as freed holds no table, and no slot with a negative index is
in use. -/
def Session.Released (s : Session W) : Prop :=
  (∀ q ∈ s.freed, (s.engine.rplx_table.get q).istable = false)
    ∧ ∀ q : Int, q < 0 → s.engine.rplx_table.get q = LuaValue.nil

end Sequences

/-! ## Example instantiations

Concrete constants and runtimes on which the model can be evaluated.  The
runtime state is a natural number: the heap size in kilobytes. -/

section Examples

/-- Example values for the constants. -/
def exampleConsts : Consts :=
  { ERR_NO_PATTERN := 1, ERR_NO_ENCODER := 2, MIN_ALLOC_LIMIT_MB := 10,
    MAX_ENCODER_NAME_LENGTH := 32, r_encoders := [("json", 1), ("line", 2)] }

/-- The largest non-negative key bound in a table. -/
def Tbl.maxKey : Tbl → Nat
  | [] => 0
  | (k, _) :: rest => max k.toNat (Tbl.maxKey rest)

/-- Search for the first `n` at or after the given one whose successor slot is
empty, giving up after `fuel` steps. -/
def Tbl.borderFrom (t : Tbl) : Nat → Nat → Nat
  | 0, n => n
  | fuel + 1, n =>
    if t.get ((n : Int) + 1) = LuaValue.nil then n else Tbl.borderFrom t fuel (n + 1)

/-- The smallest border of a table: an instance of `lua_rawlen`. -/
def Tbl.border (t : Tbl) : Nat := t.borderFrom (t.maxKey + 1) 0

/-- A runtime in which every capability raises an error.  Table 0 is empty,
every other table has entries; no table has a field with a string key, and
indexing a value that is not a table raises an error; collections reclaim
nothing. -/
def inertRuntime : Runtime Nat :=
  { gccount := fun w => (w : Int)
    gccollect := fun w => w
    str2int := fun _ => none
    rawlen := Tbl.border
    next := fun _ id => decide (id ≠ 0)
    getfield := fun _ v _ => if v.istable then some LuaValue.nil else none
    engine_new := fun w => Outcome.error w LuaValue.nil
    config := fun w => Outcome.error w LuaValue.nil
    get_libpath := fun w => Outcome.error w LuaValue.nil
    set_libpath := fun w _ => Outcome.error w LuaValue.nil
    compile := fun w _ => Outcome.error w LuaValue.nil
    Cmatch := fun w _ _ _ _ => Outcome.error w LuaValue.nil
    r_match_C := fun w _ _ _ _ => Outcome.error w LuaValue.nil
    trace := fun w _ _ _ _ => Outcome.error w LuaValue.nil
    load := fun w _ => Outcome.error w LuaValue.nil
    loadfile := fun w _ => Outcome.error w LuaValue.nil
    importpkg := fun w _ _ => Outcome.error w LuaValue.nil
    matchfile := fun w _ _ _ _ _ _ => Outcome.error w LuaValue.nil
    read_rcfile := fun w _ => Outcome.error w LuaValue.nil
    execute_rcfile := fun w _ _ => Outcome.error w LuaValue.nil
    json_encode := fun w _ => Outcome.error w LuaValue.nil
    strip_each := fun w _ => Outcome.error w LuaValue.nil }

/-- A runtime whose compiler accepts every expression without warnings: each
compilation allocates one kilobyte and returns a new table and the empty
warnings table.  Every table has a field `pattern` (a table) and a field `peg`
(a userdata).  The native matcher returns a buffer holding a match, and the
JSON encoder returns a constant. -/
def exampleRuntime : Runtime Nat :=
  { inertRuntime with
    getfield := fun _ v k =>
      if v.istable then
        some (if k = "pattern" then LuaValue.table 0
          else if k = "peg" then LuaValue.userdata "peg" 0 else LuaValue.nil)
      else none
    engine_new := fun w => Outcome.ok w [LuaValue.table 0]
    compile := fun w _ => Outcome.ok (w + 1) [LuaValue.table (w + 1), LuaValue.table 0]
    r_match_C := fun w _ _ _ _ => Outcome.ok w [LuaValue.userdata "[1,2]" 5,
      LuaValue.number 0, LuaValue.boolean false, LuaValue.number 7, LuaValue.number 3]
    json_encode := fun w _ => Outcome.ok w [LuaValue.string "[]"] }

/-- A runtime whose compiler accepts every expression with one warning (table
1 holds the warnings) and whose JSON encoder raises an error. -/
def failingEncoderRuntime : Runtime Nat :=
  { inertRuntime with
    compile := fun w _ => Outcome.ok (w + 1) [LuaValue.table (w + 2), LuaValue.table 1] }

/-- A runtime whose compiler rejects every expression with one diagnostic
(table 1 holds the diagnostics) and whose JSON encoder raises an error. -/
def rejectingRuntime : Runtime Nat :=
  { inertRuntime with
    compile := fun w _ => Outcome.ok w [LuaValue.boolean false, LuaValue.table 1] }

/-- A runtime whose compiler rejects every expression with one diagnostic and
whose JSON encoder returns the encoded diagnostics. -/
def diagnosingRuntime : Runtime Nat :=
  { rejectingRuntime with
    json_encode := fun w _ => Outcome.ok w [LuaValue.string "[17]"] }

/-- A runtime whose compiler accepts every expression with one warning and
whose JSON encoder returns the encoded warnings. -/
def warningRuntime : Runtime Nat :=
  { failingEncoderRuntime with
    json_encode := fun w _ => Outcome.ok w [LuaValue.string "[23]"] }

/-- Example start-up behaviour: booting always succeeds. -/
def exampleStartup : Startup Nat :=
  { loadfile_ok := fun _ _ => true
    run_bootscript := fun w => Outcome.ok w [LuaValue.function 0]
    run_boot_function := fun w _ => Outcome.ok w []
    checkstack := fun _ => true }

/-- Example installation paths. -/
def exampleStatics : Statics :=
  { rosiehome := "/usr/local/lib/rosie", bootscript := "/usr/local/lib/rosie/lib/boot.luac" }

/-- A fresh engine over the example runtime, with 1000 KB in use. -/
def exampleEngine : Engine Nat := Engine.init 1000

/-- An expression to compile. -/
def exampleExpression : str := ⟨some "[0-9]+", 6⟩

/-- A compile call with the example expression. -/
def exampleCompile (R : Runtime Nat) (e : Engine Nat) : Engine Nat × CompileResult :=
  rosie_compile R e (some exampleExpression) (some 0) ⟨none, 0⟩

/-- The example engine after compiling a pattern (handle 1) and freeing handle
1 twice. -/
def engineAfterDoubleFree : Engine Nat :=
  (rosie_free_rplx (rosie_free_rplx (exampleCompile exampleRuntime exampleEngine).1 1).1 1).1

/-- The engine `engineAfterDoubleFree` after one more compilation. -/
def engineAfterReissue : Engine Nat := (exampleCompile exampleRuntime engineAfterDoubleFree).1

/-- The engine `engineAfterReissue` after one more compilation. -/
def engineAfterSecondReissue : Engine Nat := (exampleCompile exampleRuntime engineAfterReissue).1

/-- A well-behaved sequence of calls: two compilations, then the first handle
is freed. -/
def exampleCalls : List Call :=
  [Call.compile exampleExpression, Call.compile exampleExpression, Call.free 1]

/-- The session reached by `exampleCalls` on the example engine. -/
def exampleSession : Session Nat :=
  (Session.run exampleRuntime ⟨exampleEngine, [], []⟩ exampleCalls).getD ⟨exampleEngine, [], []⟩

/-- A sequence of operations: a limit of 25 MB is set, a pattern compiled, and
a limit of 3 MB (below the minimum of 10) is refused. -/
def exampleOps : List Op :=
  [Op.alloc_limit (some 25) none, Op.compile (some exampleExpression) (some 0) ⟨none, 0⟩,
   Op.alloc_limit (some 3) none]

/-- The example engine after `exampleOps`. -/
def engineAfterOps : Engine Nat :=
  (Op.runAll exampleConsts exampleRuntime exampleEngine exampleOps).getD exampleEngine

/-- The example engine (1000 KB in use) after a limit of 10 MB has been set. -/
def engineWithLimit : Engine Nat :=
  (rosie_alloc_limit exampleConsts exampleRuntime exampleEngine (some 10) (some 0)).1

/-- An input to match. -/
def exampleInput : str := ⟨some "x", 1⟩

/-- An arbitrary initial content for a `match` out-parameter. -/
def exampleMatch : Match := ⟨⟨none, 0⟩, 0, false, 0, 0⟩

/-- The engine `engineWithLimit` (ceiling 1010) with 2000 KB in use. -/
def engineOverCeiling : Engine Nat := { engineWithLimit with L := 2000 }

/-- A runtime whose loader reports one diagnostic (table 1), whose sanitizer
returns a stripped copy (table 2), and whose JSON encoder tells the two apart. -/
def sanitizingRuntime : Runtime Nat :=
  { inertRuntime with
    load := fun w _ => Outcome.ok w [LuaValue.boolean false, LuaValue.nil, LuaValue.table 1]
    loadfile := fun w _ => Outcome.ok w [LuaValue.boolean false, LuaValue.nil, LuaValue.table 1]
    strip_each := fun w _ => Outcome.ok w [LuaValue.table 2]
    json_encode := fun w v =>
      Outcome.ok w [LuaValue.string (if v = LuaValue.table 1 then "[17]" else "[23]")] }

/-- A source text to load. -/
def exampleSource : str := ⟨some "d = [0-9]", 9⟩

/-- The example engine after one compilation: handle 1 holds a pattern. -/
def engineWithPattern : Engine Nat := (exampleCompile exampleRuntime exampleEngine).1

/-- A runtime like `exampleRuntime` whose interpreted matcher `Cmatch` returns
its result as a string. -/
def stringMatchRuntime : Runtime Nat :=
  { exampleRuntime with
    Cmatch := fun w _ _ _ _ => Outcome.ok w [LuaValue.string "hit", LuaValue.number 0,
      LuaValue.boolean false, LuaValue.number 1, LuaValue.number 1] }

/-- A compilation followed by two matches with an encoder name that is not
built in, so that both go through `Cmatch`. -/
def exampleMatches : List Op :=
  [Op.compile (some exampleExpression) (some 0) ⟨none, 0⟩,
   Op.rmatch 1 1 (some "color") exampleInput exampleMatch,
   Op.rmatch 1 1 (some "color") exampleInput exampleMatch]

/-- The example engine after `exampleMatches` on `stringMatchRuntime`. -/
def engineAfterMatches : Engine Nat :=
  (Op.runAll exampleConsts stringMatchRuntime exampleEngine exampleMatches).getD exampleEngine

/-- Start-up behaviour in which the boot function raises the error "boom". -/
def faultingStartup : Startup Nat :=
  { exampleStartup with
    run_boot_function := fun w _ => Outcome.error w (LuaValue.string "boom") }

/-- A session with calls of several kinds: a pattern is compiled (handle 1) and
matched, a limit is set, a second pattern is compiled (handle 2), traced and
freed, and a source text is loaded. -/
def exampleSessionOps : List Op :=
  [Op.compile (some exampleExpression) (some 0) ⟨none, 0⟩,
   Op.rmatch 1 1 (some "json") exampleInput exampleMatch,
   Op.alloc_limit (some 25) none,
   Op.compile (some exampleExpression) (some 0) ⟨none, 0⟩,
   Op.trace 2 1 (some "json") exampleInput 0 ⟨none, 0⟩,
   Op.free_rplx 2,
   Op.load 0 exampleSource ⟨none, 0⟩]

/-- The session reached by `exampleSessionOps` on the example engine. -/
def exampleOpSession : Session Nat :=
  (Session.applyAll exampleConsts exampleRuntime ⟨exampleEngine, [], []⟩ exampleSessionOps).getD
    ⟨exampleEngine, [], []⟩

/-- A runtime whose file loader reports one diagnostic (table 1) and whose
sanitizer returns the empty table 0. -/
def emptyingRuntime : Runtime Nat :=
  { inertRuntime with
    loadfile := fun w _ => Outcome.ok w [LuaValue.boolean false, LuaValue.nil, LuaValue.table 1]
    strip_each := fun w _ => Outcome.ok w [LuaValue.table 0] }

end Examples

/-! ## Theorems -/

section Theorems
variable {W : Type}

/-! ### Bookkeeping of the helper functions -/

@[simp] theorem to_json_string_lock (R : Runtime W) (e : Engine W) (v : LuaValue) :
    (to_json_string R e v).1.lock = e.lock := by
  unfold to_json_string
  try dsimp only
  repeat' split
  all_goals simp [get_registry, Engine.api, pcall, lua_gc_collect, rosie_free_string_ptr]

@[simp] theorem to_json_string_acquires (R : Runtime W) (e : Engine W) (v : LuaValue) :
    (to_json_string R e v).1.acquires = e.acquires := by
  unfold to_json_string
  try dsimp only
  repeat' split
  all_goals simp [get_registry, Engine.api, pcall, lua_gc_collect, rosie_free_string_ptr]

@[simp] theorem to_json_string_releases (R : Runtime W) (e : Engine W) (v : LuaValue) :
    (to_json_string R e v).1.releases = e.releases := by
  unfold to_json_string
  try dsimp only
  repeat' split
  all_goals simp [get_registry, Engine.api, pcall, lua_gc_collect, rosie_free_string_ptr]

@[simp] theorem to_json_string_rplx_table (R : Runtime W) (e : Engine W) (v : LuaValue) :
    (to_json_string R e v).1.rplx_table = e.rplx_table := by
  unfold to_json_string
  try dsimp only
  repeat' split
  all_goals simp [get_registry, Engine.api, pcall, lua_gc_collect, rosie_free_string_ptr]

@[simp] theorem to_json_string_alloc_set_limit (R : Runtime W) (e : Engine W) (v : LuaValue) :
    (to_json_string R e v).1.alloc_set_limit = e.alloc_set_limit := by
  unfold to_json_string
  try dsimp only
  repeat' split
  all_goals simp [get_registry, Engine.api, pcall, lua_gc_collect, rosie_free_string_ptr]

@[simp] theorem to_json_string_alloc_actual_limit (R : Runtime W) (e : Engine W) (v : LuaValue) :
    (to_json_string R e v).1.alloc_actual_limit = e.alloc_actual_limit := by
  unfold to_json_string
  try dsimp only
  repeat' split
  all_goals simp [get_registry, Engine.api, pcall, lua_gc_collect, rosie_free_string_ptr]

theorem to_json_string_unguarded (R : Runtime W) (e : Engine W) (v : LuaValue) (h : e.lock = true) :
    (to_json_string R e v).1.unguarded = e.unguarded := by
  unfold to_json_string
  try dsimp only
  repeat' split
  all_goals simp [get_registry, Engine.api, pcall, lua_gc_collect, rosie_free_string_ptr, h]

@[simp] theorem strip_violation_messages_lock (R : Runtime W) (e : Engine W) (v : LuaValue) :
    (strip_violation_messages R e v).1.lock = e.lock := by
  unfold strip_violation_messages
  try dsimp only
  repeat' split
  all_goals simp [get_registry, Engine.api, pcall, lua_gc_collect, rosie_free_string_ptr]

@[simp] theorem strip_violation_messages_acquires (R : Runtime W) (e : Engine W) (v : LuaValue) :
    (strip_violation_messages R e v).1.acquires = e.acquires := by
  unfold strip_violation_messages
  try dsimp only
  repeat' split
  all_goals simp [get_registry, Engine.api, pcall, lua_gc_collect, rosie_free_string_ptr]

@[simp] theorem strip_violation_messages_releases (R : Runtime W) (e : Engine W) (v : LuaValue) :
    (strip_violation_messages R e v).1.releases = e.releases := by
  unfold strip_violation_messages
  try dsimp only
  repeat' split
  all_goals simp [get_registry, Engine.api, pcall, lua_gc_collect, rosie_free_string_ptr]

@[simp] theorem strip_violation_messages_rplx_table (R : Runtime W) (e : Engine W) (v : LuaValue) :
    (strip_violation_messages R e v).1.rplx_table = e.rplx_table := by
  unfold strip_violation_messages
  try dsimp only
  repeat' split
  all_goals simp [get_registry, Engine.api, pcall, lua_gc_collect, rosie_free_string_ptr]

@[simp] theorem strip_violation_messages_alloc_set_limit (R : Runtime W) (e : Engine W) (v : LuaValue) :
    (strip_violation_messages R e v).1.alloc_set_limit = e.alloc_set_limit := by
  unfold strip_violation_messages
  try dsimp only
  repeat' split
  all_goals simp [get_registry, Engine.api, pcall, lua_gc_collect, rosie_free_string_ptr]

@[simp] theorem strip_violation_messages_alloc_actual_limit (R : Runtime W) (e : Engine W) (v : LuaValue) :
    (strip_violation_messages R e v).1.alloc_actual_limit = e.alloc_actual_limit := by
  unfold strip_violation_messages
  try dsimp only
  repeat' split
  all_goals simp [get_registry, Engine.api, pcall, lua_gc_collect, rosie_free_string_ptr]

theorem strip_violation_messages_unguarded (R : Runtime W) (e : Engine W) (v : LuaValue) (h : e.lock = true) :
    (strip_violation_messages R e v).1.unguarded = e.unguarded := by
  unfold strip_violation_messages
  try dsimp only
  repeat' split
  all_goals simp [get_registry, Engine.api, pcall, lua_gc_collect, rosie_free_string_ptr, h]

@[simp] theorem collect_if_needed_lock (R : Runtime W) (e : Engine W) :
    (collect_if_needed R e).lock = e.lock := by
  unfold collect_if_needed
  try dsimp only
  repeat' split
  all_goals simp [get_registry, Engine.api, pcall, lua_gc_collect, rosie_free_string_ptr]

@[simp] theorem collect_if_needed_acquires (R : Runtime W) (e : Engine W) :
    (collect_if_needed R e).acquires = e.acquires := by
  unfold collect_if_needed
  try dsimp only
  repeat' split
  all_goals simp [get_registry, Engine.api, pcall, lua_gc_collect, rosie_free_string_ptr]

@[simp] theorem collect_if_needed_releases (R : Runtime W) (e : Engine W) :
    (collect_if_needed R e).releases = e.releases := by
  unfold collect_if_needed
  try dsimp only
  repeat' split
  all_goals simp [get_registry, Engine.api, pcall, lua_gc_collect, rosie_free_string_ptr]

@[simp] theorem collect_if_needed_rplx_table (R : Runtime W) (e : Engine W) :
    (collect_if_needed R e).rplx_table = e.rplx_table := by
  unfold collect_if_needed
  try dsimp only
  repeat' split
  all_goals simp [get_registry, Engine.api, pcall, lua_gc_collect, rosie_free_string_ptr]

@[simp] theorem collect_if_needed_alloc_set_limit (R : Runtime W) (e : Engine W) :
    (collect_if_needed R e).alloc_set_limit = e.alloc_set_limit := by
  unfold collect_if_needed
  try dsimp only
  repeat' split
  all_goals simp [get_registry, Engine.api, pcall, lua_gc_collect, rosie_free_string_ptr]

@[simp] theorem collect_if_needed_alloc_actual_limit (R : Runtime W) (e : Engine W) :
    (collect_if_needed R e).alloc_actual_limit = e.alloc_actual_limit := by
  unfold collect_if_needed
  try dsimp only
  repeat' split
  all_goals simp [get_registry, Engine.api, pcall, lua_gc_collect, rosie_free_string_ptr]

theorem collect_if_needed_unguarded (R : Runtime W) (e : Engine W) (h : e.lock = true) :
    (collect_if_needed R e).unguarded = e.unguarded := by
  unfold collect_if_needed
  try dsimp only
  repeat' split
  all_goals simp [get_registry, Engine.api, pcall, lua_gc_collect, rosie_free_string_ptr, h]

@[simp] theorem free_prev_string_result_lock (e : Engine W) :
    (free_prev_string_result e).lock = e.lock := by
  unfold free_prev_string_result
  try dsimp only
  repeat' split
  all_goals simp [get_registry, Engine.api, pcall, lua_gc_collect, rosie_free_string_ptr]

@[simp] theorem free_prev_string_result_acquires (e : Engine W) :
    (free_prev_string_result e).acquires = e.acquires := by
  unfold free_prev_string_result
  try dsimp only
  repeat' split
  all_goals simp [get_registry, Engine.api, pcall, lua_gc_collect, rosie_free_string_ptr]

@[simp] theorem free_prev_string_result_releases (e : Engine W) :
    (free_prev_string_result e).releases = e.releases := by
  unfold free_prev_string_result
  try dsimp only
  repeat' split
  all_goals simp [get_registry, Engine.api, pcall, lua_gc_collect, rosie_free_string_ptr]

@[simp] theorem free_prev_string_result_rplx_table (e : Engine W) :
    (free_prev_string_result e).rplx_table = e.rplx_table := by
  unfold free_prev_string_result
  try dsimp only
  repeat' split
  all_goals simp [get_registry, Engine.api, pcall, lua_gc_collect, rosie_free_string_ptr]

@[simp] theorem free_prev_string_result_alloc_set_limit (e : Engine W) :
    (free_prev_string_result e).alloc_set_limit = e.alloc_set_limit := by
  unfold free_prev_string_result
  try dsimp only
  repeat' split
  all_goals simp [get_registry, Engine.api, pcall, lua_gc_collect, rosie_free_string_ptr]

@[simp] theorem free_prev_string_result_alloc_actual_limit (e : Engine W) :
    (free_prev_string_result e).alloc_actual_limit = e.alloc_actual_limit := by
  unfold free_prev_string_result
  try dsimp only
  repeat' split
  all_goals simp [get_registry, Engine.api, pcall, lua_gc_collect, rosie_free_string_ptr]

theorem free_prev_string_result_unguarded (e : Engine W) (h : e.lock = true) :
    (free_prev_string_result e).unguarded = e.unguarded := by
  unfold free_prev_string_result
  try dsimp only
  repeat' split
  all_goals simp [get_registry, Engine.api, pcall, lua_gc_collect, rosie_free_string_ptr, h]

@[simp] theorem finalize_string_result_lock (e : Engine W) :
    (finalize_string_result e).lock = e.lock := by
  unfold finalize_string_result
  try dsimp only
  repeat' split
  all_goals simp [get_registry, Engine.api, pcall, lua_gc_collect, rosie_free_string_ptr]

@[simp] theorem finalize_string_result_acquires (e : Engine W) :
    (finalize_string_result e).acquires = e.acquires := by
  unfold finalize_string_result
  try dsimp only
  repeat' split
  all_goals simp [get_registry, Engine.api, pcall, lua_gc_collect, rosie_free_string_ptr]

@[simp] theorem finalize_string_result_releases (e : Engine W) :
    (finalize_string_result e).releases = e.releases := by
  unfold finalize_string_result
  try dsimp only
  repeat' split
  all_goals simp [get_registry, Engine.api, pcall, lua_gc_collect, rosie_free_string_ptr]

@[simp] theorem finalize_string_result_rplx_table (e : Engine W) :
    (finalize_string_result e).rplx_table = e.rplx_table := by
  unfold finalize_string_result
  try dsimp only
  repeat' split
  all_goals simp [get_registry, Engine.api, pcall, lua_gc_collect, rosie_free_string_ptr]

@[simp] theorem finalize_string_result_alloc_set_limit (e : Engine W) :
    (finalize_string_result e).alloc_set_limit = e.alloc_set_limit := by
  unfold finalize_string_result
  try dsimp only
  repeat' split
  all_goals simp [get_registry, Engine.api, pcall, lua_gc_collect, rosie_free_string_ptr]

@[simp] theorem finalize_string_result_alloc_actual_limit (e : Engine W) :
    (finalize_string_result e).alloc_actual_limit = e.alloc_actual_limit := by
  unfold finalize_string_result
  try dsimp only
  repeat' split
  all_goals simp [get_registry, Engine.api, pcall, lua_gc_collect, rosie_free_string_ptr]

theorem finalize_string_result_unguarded (e : Engine W) (h : e.lock = true) :
    (finalize_string_result e).unguarded = e.unguarded := by
  unfold finalize_string_result
  try dsimp only
  repeat' split
  all_goals simp [get_registry, Engine.api, pcall, lua_gc_collect, rosie_free_string_ptr, h]

/-! ### Lock discipline of the exported functions -/

theorem sanitize_and_encode_frame (R : Runtime W) (e : Engine W) (rs : List LuaValue) (m : str) (h : e.lock = true) :
    (sanitize_and_encode R e rs m).1.lock = false ∧ (sanitize_and_encode R e rs m).1.acquires = e.acquires
      ∧ (sanitize_and_encode R e rs m).1.releases = e.releases + 1
      ∧ (sanitize_and_encode R e rs m).1.unguarded = e.unguarded
      ∧ (sanitize_and_encode R e rs m).1.alloc_set_limit = e.alloc_set_limit
      ∧ (sanitize_and_encode R e rs m).1.alloc_actual_limit = e.alloc_actual_limit
      ∧ (sanitize_and_encode R e rs m).1.rplx_table = e.rplx_table := by
  unfold sanitize_and_encode
  try dsimp only
  repeat' split
  all_goals simp [ACQUIRE_ENGINE_LOCK, RELEASE_ENGINE_LOCK, lua_settop0, get_registry,
    Engine.api, pcall, lua_gc_collect, rosie_new_string_ptr, to_json_string_unguarded,
    strip_violation_messages_unguarded, collect_if_needed_unguarded,
    free_prev_string_result_unguarded, finalize_string_result_unguarded, h]

theorem match_results_frame (R : Runtime W) (e : Engine W) (encoder : Int) (rs : List LuaValue)
    (m : Match) (h : e.lock = true) :
    (match_results R e encoder rs m).1.lock = false ∧ (match_results R e encoder rs m).1.acquires = e.acquires
      ∧ (match_results R e encoder rs m).1.releases = e.releases + 1
      ∧ (match_results R e encoder rs m).1.unguarded = e.unguarded
      ∧ (match_results R e encoder rs m).1.alloc_set_limit = e.alloc_set_limit
      ∧ (match_results R e encoder rs m).1.alloc_actual_limit = e.alloc_actual_limit
      ∧ (match_results R e encoder rs m).1.rplx_table = e.rplx_table := by
  unfold match_results
  try dsimp only
  repeat' split
  all_goals simp [ACQUIRE_ENGINE_LOCK, RELEASE_ENGINE_LOCK, lua_settop0, get_registry,
    Engine.api, pcall, lua_gc_collect, rosie_new_string_ptr, to_json_string_unguarded,
    strip_violation_messages_unguarded, collect_if_needed_unguarded,
    free_prev_string_result_unguarded, finalize_string_result_unguarded, h]

theorem rosie_config_frame (R : Runtime W) (e : Engine W) :
    LockedCall e (rosie_config R e).1
      ∧ SameLimits e (rosie_config R e).1 := by
  unfold rosie_config
  try dsimp only
  repeat' split
  all_goals simp [LockedCall, SameLimits, ACQUIRE_ENGINE_LOCK, RELEASE_ENGINE_LOCK, lua_settop0, get_registry,
    Engine.api, pcall, lua_gc_collect, rosie_new_string_ptr, to_json_string_unguarded,
    strip_violation_messages_unguarded, collect_if_needed_unguarded,
    free_prev_string_result_unguarded, finalize_string_result_unguarded]

theorem rosie_libpath_frame (R : Runtime W) (e : Engine W) (newpath : str) :
    LockedCall e (rosie_libpath R e newpath).1
      ∧ SameLimits e (rosie_libpath R e newpath).1 := by
  unfold rosie_libpath
  try dsimp only
  repeat' split
  all_goals simp [LockedCall, SameLimits, ACQUIRE_ENGINE_LOCK, RELEASE_ENGINE_LOCK, lua_settop0, get_registry,
    Engine.api, pcall, lua_gc_collect, rosie_new_string_ptr, to_json_string_unguarded,
    strip_violation_messages_unguarded, collect_if_needed_unguarded,
    free_prev_string_result_unguarded, finalize_string_result_unguarded]

theorem rosie_free_rplx_frame (e : Engine W) (pat : Int) :
    LockedCall e (rosie_free_rplx e pat).1
      ∧ SameLimits e (rosie_free_rplx e pat).1 := by
  unfold rosie_free_rplx
  simp [LockedCall, SameLimits, ACQUIRE_ENGINE_LOCK, RELEASE_ENGINE_LOCK, lua_settop0, get_registry,
    Engine.api, pcall, lua_gc_collect, rosie_new_string_ptr, to_json_string_unguarded,
    strip_violation_messages_unguarded, collect_if_needed_unguarded,
    free_prev_string_result_unguarded, finalize_string_result_unguarded]

theorem rosie_compile_frame (R : Runtime W) (e : Engine W) (x : Option str) (p : Option Int)
    (m : str) :
    LockedCall e (rosie_compile R e x p m).1
      ∧ SameLimits e (rosie_compile R e x p m).1 := by
  unfold rosie_compile
  try dsimp only
  repeat' split
  all_goals simp [LockedCall, SameLimits, ACQUIRE_ENGINE_LOCK, RELEASE_ENGINE_LOCK, lua_settop0, get_registry,
    Engine.api, pcall, lua_gc_collect, rosie_new_string_ptr, to_json_string_unguarded,
    strip_violation_messages_unguarded, collect_if_needed_unguarded,
    free_prev_string_result_unguarded, finalize_string_result_unguarded]

theorem rosie_load_frame (R : Runtime W) (e : Engine W) (ok : Int) (src pkgname : str) :
    LockedCall e (rosie_load R e ok src pkgname).1
      ∧ SameLimits e (rosie_load R e ok src pkgname).1 := by
  unfold rosie_load
  try dsimp only
  repeat' split
  all_goals simp [LockedCall, SameLimits, ACQUIRE_ENGINE_LOCK, RELEASE_ENGINE_LOCK, lua_settop0, get_registry,
    Engine.api, pcall, lua_gc_collect, rosie_new_string_ptr, to_json_string_unguarded,
    strip_violation_messages_unguarded, collect_if_needed_unguarded,
    free_prev_string_result_unguarded, finalize_string_result_unguarded]

theorem rosie_loadfile_frame (R : Runtime W) (e : Engine W) (ok : Int) (fn pkgname m : str) :
    LockedCall e (rosie_loadfile R e ok fn pkgname m).1
      ∧ SameLimits e (rosie_loadfile R e ok fn pkgname m).1 := by
  unfold rosie_loadfile
  try dsimp only
  repeat' split
  all_goals simp [LockedCall, SameLimits, sanitize_and_encode_frame, ACQUIRE_ENGINE_LOCK, RELEASE_ENGINE_LOCK, lua_settop0, get_registry,
    Engine.api, pcall, lua_gc_collect, rosie_new_string_ptr, to_json_string_unguarded,
    strip_violation_messages_unguarded, collect_if_needed_unguarded,
    free_prev_string_result_unguarded, finalize_string_result_unguarded]

theorem rosie_import_frame (R : Runtime W) (e : Engine W) (ok : Int) (pkgname : str)
    (as : Option str) (actual m : str) :
    LockedCall e (rosie_import R e ok pkgname as actual m).1
      ∧ SameLimits e (rosie_import R e ok pkgname as actual m).1 := by
  unfold rosie_import
  try dsimp only
  repeat' split
  all_goals simp [LockedCall, SameLimits, sanitize_and_encode_frame, ACQUIRE_ENGINE_LOCK, RELEASE_ENGINE_LOCK, lua_settop0, get_registry,
    Engine.api, pcall, lua_gc_collect, rosie_new_string_ptr, to_json_string_unguarded,
    strip_violation_messages_unguarded, collect_if_needed_unguarded,
    free_prev_string_result_unguarded, finalize_string_result_unguarded]

theorem rosie_matchfile_frame (K : Consts) (R : Runtime W) (e : Engine W) (pat : Int)
    (encoder : Option String) (flag : Int) (f1 f2 f3 : Option String) (cin cout cerr : Int) :
    LockedCall e (rosie_matchfile K R e pat encoder flag f1 f2 f3 cin cout cerr).1
      ∧ SameLimits e (rosie_matchfile K R e pat encoder flag f1 f2 f3 cin cout cerr).1 := by
  unfold rosie_matchfile
  try dsimp only
  repeat' split
  all_goals simp [LockedCall, SameLimits, ACQUIRE_ENGINE_LOCK, RELEASE_ENGINE_LOCK, lua_settop0, get_registry,
    Engine.api, pcall, lua_gc_collect, rosie_new_string_ptr, to_json_string_unguarded,
    strip_violation_messages_unguarded, collect_if_needed_unguarded,
    free_prev_string_result_unguarded, finalize_string_result_unguarded]

theorem rosie_read_rcfile_frame (R : Runtime W) (e : Engine W) (filename : str) (fe : Int)
    (options : str) :
    LockedCall e (rosie_read_rcfile R e filename fe options).1
      ∧ SameLimits e (rosie_read_rcfile R e filename fe options).1 := by
  unfold rosie_read_rcfile
  try dsimp only
  repeat' split
  all_goals simp [LockedCall, SameLimits, ACQUIRE_ENGINE_LOCK, RELEASE_ENGINE_LOCK, lua_settop0, get_registry,
    Engine.api, pcall, lua_gc_collect, rosie_new_string_ptr, to_json_string_unguarded,
    strip_violation_messages_unguarded, collect_if_needed_unguarded,
    free_prev_string_result_unguarded, finalize_string_result_unguarded]

theorem rosie_execute_rcfile_frame (R : Runtime W) (e : Engine W) (filename : str) (fe ne : Int) :
    LockedCall e (rosie_execute_rcfile R e filename fe ne).1
      ∧ SameLimits e (rosie_execute_rcfile R e filename fe ne).1 := by
  unfold rosie_execute_rcfile
  try dsimp only
  repeat' split
  all_goals simp [LockedCall, SameLimits, ACQUIRE_ENGINE_LOCK, RELEASE_ENGINE_LOCK, lua_settop0, get_registry,
    Engine.api, pcall, lua_gc_collect, rosie_new_string_ptr, to_json_string_unguarded,
    strip_violation_messages_unguarded, collect_if_needed_unguarded,
    free_prev_string_result_unguarded, finalize_string_result_unguarded]

theorem rosie_match_frame (K : Consts) (R : Runtime W) (e : Engine W) (pat start : Int)
    (enc : Option String) (input : str) (m : Match)
    (r : Engine W × Status × Match) (hr : rosie_match K R e pat start enc input m = some r) :
    LockedCall e r.1 ∧ SameLimits e r.1 := by
  unfold rosie_match at hr
  try dsimp only at hr
  repeat' split at hr
  all_goals
    (cases hr <;>
      simp [LockedCall, SameLimits, match_results_frame, ACQUIRE_ENGINE_LOCK, RELEASE_ENGINE_LOCK, lua_settop0, get_registry,
    Engine.api, pcall, lua_gc_collect, rosie_new_string_ptr, to_json_string_unguarded,
    strip_violation_messages_unguarded, collect_if_needed_unguarded,
    free_prev_string_result_unguarded, finalize_string_result_unguarded])

theorem rosie_trace_frame (K : Consts) (R : Runtime W) (e : Engine W) (pat start : Int)
    (style : Option String) (input : str) (matched : Int) (out : str)
    (r : Engine W × TraceResult) (hr : rosie_trace K R e pat start style input matched out = some r) :
    LockedCall e r.1 ∧ SameLimits e r.1 := by
  unfold rosie_trace at hr
  try dsimp only at hr
  repeat' split at hr
  all_goals
    (cases hr <;>
      simp [LockedCall, SameLimits, match_results_frame, ACQUIRE_ENGINE_LOCK, RELEASE_ENGINE_LOCK, lua_settop0, get_registry,
    Engine.api, pcall, lua_gc_collect, rosie_new_string_ptr, to_json_string_unguarded,
    strip_violation_messages_unguarded, collect_if_needed_unguarded,
    free_prev_string_result_unguarded, finalize_string_result_unguarded])

theorem rosie_alloc_limit_frame (K : Consts) (R : Runtime W) (e : Engine W)
    (newlimit usage : Option Int) :
    LockedCall e (rosie_alloc_limit K R e newlimit usage).1 := by
  unfold rosie_alloc_limit
  try dsimp only
  repeat' split
  all_goals simp [LockedCall, ACQUIRE_ENGINE_LOCK, RELEASE_ENGINE_LOCK, lua_settop0, get_registry,
    Engine.api, pcall, lua_gc_collect, rosie_new_string_ptr, to_json_string_unguarded,
    strip_violation_messages_unguarded, collect_if_needed_unguarded,
    free_prev_string_result_unguarded, finalize_string_result_unguarded]

theorem rosie_finalize_frame (e : Engine W) :
    (rosie_finalize e).lock = true ∧ (rosie_finalize e).acquires = e.acquires + 1
      ∧ (rosie_finalize e).releases = e.releases
      ∧ (rosie_finalize e).unguarded = e.unguarded := by
  unfold rosie_finalize
  simp [ACQUIRE_ENGINE_LOCK, RELEASE_ENGINE_LOCK, lua_settop0, get_registry,
    Engine.api, pcall, lua_gc_collect, rosie_new_string_ptr, to_json_string_unguarded,
    strip_violation_messages_unguarded, collect_if_needed_unguarded,
    free_prev_string_result_unguarded, finalize_string_result_unguarded]

/-! ### JSON conversion and the pattern table -/

@[simp] theorem pcall_rplx_table (c : Cap) (o : Outcome W) (e : Engine W) :
    (pcall c o e).rplx_table = e.rplx_table := rfl

@[simp] theorem pcall_L (c : Cap) (o : Outcome W) (e : Engine W) : (pcall c o e).L = o.state := rfl

@[simp] theorem get_registry_rplx_table (e : Engine W) :
    (get_registry e).rplx_table = e.rplx_table := rfl

@[simp] theorem get_registry_L (e : Engine W) : (get_registry e).L = e.L := rfl

@[simp] theorem api_rplx_table (e : Engine W) : e.api.rplx_table = e.rplx_table := rfl

@[simp] theorem api_L (e : Engine W) : e.api.L = e.L := rfl

@[simp] theorem lua_settop0_rplx_table (e : Engine W) :
    (lua_settop0 e).rplx_table = e.rplx_table := rfl

@[simp] theorem ACQUIRE_ENGINE_LOCK_rplx_table (e : Engine W) :
    (ACQUIRE_ENGINE_LOCK e).rplx_table = e.rplx_table := rfl

@[simp] theorem ACQUIRE_ENGINE_LOCK_L (e : Engine W) : (ACQUIRE_ENGINE_LOCK e).L = e.L := rfl

@[simp] theorem RELEASE_ENGINE_LOCK_rplx_table (e : Engine W) :
    (RELEASE_ENGINE_LOCK e).rplx_table = e.rplx_table := rfl

theorem luaL_ref_ne_refnil (R : Runtime W) (t : Tbl) (v : LuaValue) (hv : v ≠ LuaValue.nil)
    (hhead : lua_tointeger R (t.get 0) ≠ LUA_REFNIL) : (luaL_ref R t v).2 ≠ LUA_REFNIL := by
  unfold luaL_ref
  simp only [hv, if_false]
  split
  · exact hhead
  · simp only [LUA_REFNIL]
    omega

theorem to_json_string_empty (R : Runtime W) (e : Engine W) (id : Nat)
    (h : R.next e.L id = false) :
    (to_json_string R e (LuaValue.table id)).2 = (Status.SUCCESS, ⟨none, 0⟩) := by
  simp [to_json_string, get_registry, Engine.api, h, rosie_string_from]

theorem to_json_string_encoded (R : Runtime W) (e : Engine W) (id : Nat) (r : LuaValue)
    (h : R.next e.L id = true)
    (henc : (R.json_encode e.L (LuaValue.table id)).results = some [r]) :
    (to_json_string R e (LuaValue.table id)).2
      = (Status.SUCCESS, rosie_new_string r.tolstring) := by
  simp [to_json_string, get_registry, Engine.api, h, henc]

theorem to_json_string_error (R : Runtime W) (e : Engine W) (id : Nat)
    (h : R.next e.L id = true)
    (henc : (R.json_encode e.L (LuaValue.table id)).results = none) :
    (to_json_string R e (LuaValue.table id)).2
      = (Status.ERR_SYSCALL_FAILED, ⟨none, 0⟩) := by
  simp [to_json_string, get_registry, Engine.api, h, henc, rosie_string_from]

theorem to_json_string_null_iff (R : Runtime W) (e : Engine W) (v : LuaValue) :
    ((to_json_string R e v).2.1 = Status.SUCCESS ∧ (to_json_string R e v).2.2.ptr = none)
      ↔ is_empty_table R e.L v = true := by
  unfold to_json_string is_empty_table
  cases v <;> simp [get_registry, Engine.api, rosie_string_from]
  rename_i id
  cases hn : R.next e.L id
  · simp
  · cases (R.json_encode e.L (LuaValue.table id)).results with
    | none => simp
    | some rs =>
      by_cases hl : 1 < rs.length <;> simp [hl, rosie_new_string]

theorem to_json_string_state (R : Runtime W) (e : Engine W) (v : LuaValue)
    (h : is_empty_table R e.L v = true) : (to_json_string R e v).1.L = e.L := by
  unfold to_json_string
  cases v <;> simp [is_empty_table] at h
  simp [get_registry, Engine.api, h]

theorem luaL_ref_ne_zero (R : Runtime W) (t : Tbl) (v : LuaValue) (hv : v ≠ LuaValue.nil) :
    (luaL_ref R t v).2 ≠ 0 ∧ (luaL_ref R t v).1.get (luaL_ref R t v).2 = v := by
  unfold luaL_ref
  simp only [hv, if_false]
  split
  · rename_i h
    simp [Tbl.set, Tbl.get, h]
  · constructor
    · dsimp only
      omega
    · simp [Tbl.set, Tbl.get]

@[simp] theorem Tbl.get_set (t : Tbl) (i j : Int) (v : LuaValue) :
    (t.set i v).get j = if i = j then v else t.get j := by
  simp [Tbl.set, Tbl.get]

theorem FreeChain.congr {t t' : Tbl} : ∀ (fl : List Int) (v : LuaValue),
    (∀ r ∈ fl, t'.get r = t.get r) → FreeChain t v fl → FreeChain t' v fl
  | [], _, _, h => h
  | r :: rest, v, hsame, h => by
    obtain ⟨hv, hr, hrest⟩ := h
    refine ⟨hv, hr, ?_⟩
    rw [hsame r (List.mem_cons_self _ _)]
    exact FreeChain.congr rest _ (fun q hq => hsame q (List.mem_cons_of_mem _ hq)) hrest

theorem FreeChain.pos {t : Tbl} : ∀ (fl : List Int) (v : LuaValue),
    FreeChain t v fl → ∀ r ∈ fl, 0 < r
  | [], _, _, _, hr => by cases hr
  | r :: rest, v, h, q, hq => by
    obtain ⟨_, hr, hrest⟩ := h
    rcases List.mem_cons.mp hq with rfl | hq
    · exact hr
    · exact FreeChain.pos rest _ hrest q hq

theorem luaL_ref_empty (R : Runtime W) (t : Tbl) (v : LuaValue) (hv : v ≠ LuaValue.nil)
    (h : FreeChain t (t.get 0) []) :
    luaL_ref R t v = (t.set ((R.rawlen t : Int) + 1) v, (R.rawlen t : Int) + 1) := by
  have h0 : lua_tointeger R (t.get 0) = 0 := by
    rcases h with h | h <;> simp [h, lua_tointeger]
  simp [luaL_ref, hv, h0]

theorem luaL_ref_cons (R : Runtime W) (t : Tbl) (v : LuaValue) (hv : v ≠ LuaValue.nil)
    (r : Int) (rest : List Int) (h : FreeChain t (t.get 0) (r :: rest)) :
    luaL_ref R t v = ((t.set 0 (t.get r)).set r v, r) := by
  obtain ⟨h0, hr, _⟩ := h
  have h1 : lua_tointeger R (t.get 0) = r := by simp [h0, lua_tointeger]
  have : r ≠ 0 := by omega
  simp [luaL_ref, hv, h1, this]

theorem rosie_free_rplx_table (e : Engine W) (pat : Int) :
    (rosie_free_rplx e pat).1.rplx_table = luaL_unref e.rplx_table pat := by
  simp [rosie_free_rplx, RELEASE_ENGINE_LOCK, lua_settop0, Engine.api, get_registry,
    ACQUIRE_ENGINE_LOCK]

theorem rosie_compile_table (R : Runtime W) (e : Engine W) (x : str) (p0 : Int) (m : str) :
    ((rosie_compile R e (some x) (some p0) m).2.pat = some 0
      ∧ (rosie_compile R e (some x) (some p0) m).1.rplx_table = e.rplx_table)
    ∨ ∃ v : LuaValue, v.toboolean = true
      ∧ (rosie_compile R e (some x) (some p0) m).2.pat = some (luaL_ref R e.rplx_table v).2
      ∧ (rosie_compile R e (some x) (some p0) m).1.rplx_table = (luaL_ref R e.rplx_table v).1 := by
  have hL : (get_registry (get_registry (get_registry (ACQUIRE_ENGINE_LOCK e)))).L = e.L := rfl
  cases hc : (R.compile e.L x.bytes).results with
  | none =>
    left
    simp [rosie_compile, RELEASE_ENGINE_LOCK, lua_settop0, Engine.api, get_registry,
      ACQUIRE_ENGINE_LOCK, pcall, hc]
  | some rs =>
    by_cases hb : (nth rs 0).toboolean = true
    · right
      refine ⟨nth rs 0, hb, ?_, ?_⟩
      · simp only [rosie_compile, hL, hc, hb, Bool.not_true, Bool.false_eq_true, if_false]
        split_ifs <;> rfl
      · simp only [rosie_compile, hL, hc, hb, Bool.not_true, Bool.false_eq_true, if_false]
        split_ifs <;> simp [RELEASE_ENGINE_LOCK, lua_settop0, Engine.api, get_registry,
          ACQUIRE_ENGINE_LOCK, pcall]
    · left
      simp only [rosie_compile, hL, hc, hb, Bool.not_false, if_true]
      split_ifs <;> simp [RELEASE_ENGINE_LOCK, lua_settop0, Engine.api, get_registry,
          ACQUIRE_ENGINE_LOCK, pcall]

/-! ### Sessions keep the pattern table consistent -/

theorem Session.Inv.init (w : W) : Session.Inv ⟨Engine.init w, [], []⟩ :=
  ⟨[], Or.inl rfl, List.nodup_nil, by simp, by simp⟩

theorem toboolean_ne_nil {v : LuaValue} (h : v.toboolean = true) : v ≠ LuaValue.nil := by
  rintro rfl
  simp [LuaValue.toboolean] at h

theorem compile_fresh (R : Runtime W)
    (hlen : ∀ t : Tbl, t.get ((R.rawlen t : Int) + 1) = LuaValue.nil)
    (s : Session W) (hinv : s.Inv) (x : str) (p0 : Int) (m : str) (h : Int)
    (hpat : (rosie_compile R s.engine (some x) (some p0) m).2.pat = some h) (hne : h ≠ 0) :
    ∀ o, (h, o) ∉ s.live := by
  intro o ho
  obtain ⟨fl, hchain, _, hfreed, hlive⟩ := hinv
  obtain ⟨_, hget, hnil, hnf⟩ := hlive h o ho
  rcases rosie_compile_table R s.engine x p0 m with ⟨h0, _⟩ | ⟨v, hv, hp, _⟩
  · rw [h0] at hpat
    exact hne (Option.some.inj hpat).symm
  · rw [hp] at hpat
    have hh := Option.some.inj hpat
    cases fl with
    | nil =>
      rw [luaL_ref_empty R _ v (toboolean_ne_nil hv) hchain] at hh
      simp only at hh
      rw [← hh, hlen] at hget
      exact hnil hget.symm
    | cons r rest =>
      rw [luaL_ref_cons R _ v (toboolean_ne_nil hv) r rest hchain] at hh
      simp only at hh
      exact hnf (hh ▸ hfreed r (List.mem_cons_self _ _))

theorem Session.step_inv (R : Runtime W)
    (hlen : ∀ t : Tbl, t.get ((R.rawlen t : Int) + 1) = LuaValue.nil)
    (s s' : Session W) (c : Call) (hinv : s.Inv) (hstep : s.step R c = some s') : s'.Inv := by
  cases c with
  | compile x =>
    have hfresh := compile_fresh R hlen s hinv x 0 ⟨none, 0⟩
    obtain ⟨fl, hchain, hnd, hfreed, hlive⟩ := hinv
    simp only [Session.step] at hstep
    rcases rosie_compile_table R s.engine x 0 ⟨none, 0⟩ with ⟨h0, htab⟩ | ⟨v, hv, hp, htab⟩
    · rw [h0] at hstep
      simp only [if_true, Option.some.injEq] at hstep
      subst hstep
      exact ⟨fl, by simpa [htab] using hchain, hnd, hfreed, by simpa [htab] using hlive⟩
    · have hvn := toboolean_ne_nil hv
      have hne := (luaL_ref_ne_zero R s.engine.rplx_table v hvn).1
      have hfresh' := hfresh _ hp hne
      rw [hp] at hstep
      simp only [hne, if_false, Option.some.injEq] at hstep
      subst hstep
      cases fl with
      | nil =>
        have href := luaL_ref_empty R _ v hvn hchain
        refine ⟨[], ?_, List.nodup_nil, by simp, ?_⟩
        · simp only [htab, href, Tbl.get_set]
          rw [if_neg (by omega)]
          exact hchain
        · intro q o hq
          simp only [htab, href, Tbl.get_set, List.mem_cons, Prod.mk.injEq] at hq ⊢
          rcases hq with ⟨rfl, rfl⟩ | hq
          · simp only [if_true]
            refine ⟨by omega, trivial, hvn, ?_⟩
            simp [List.mem_filter]
          · obtain ⟨hq0, hget, hnil, hnf⟩ := hlive q o hq
            have hqne : (R.rawlen s.engine.rplx_table : Int) + 1 ≠ q := by
              intro heq
              rw [href] at hfresh'
              exact hfresh' o (heq ▸ hq)
            refine ⟨hq0, ?_, hnil, ?_⟩
            · rw [if_neg hqne]; exact hget
            · simp [List.mem_filter, hnf]
      | cons r rest =>
        have href := luaL_ref_cons R _ v hvn r rest hchain
        obtain ⟨h0, hr, hrest⟩ := hchain
        have hpos := FreeChain.pos rest _ hrest
        have hnd' := List.nodup_cons.mp hnd
        refine ⟨rest, ?_, hnd'.2, ?_, ?_⟩
        · have hhead : ((s.engine.rplx_table.set 0 (s.engine.rplx_table.get r)).set r v).get 0
              = s.engine.rplx_table.get r := by
            simp [Tbl.get_set, hr.ne']
          simp only [htab, href, hhead]
          refine FreeChain.congr rest _ ?_ hrest
          intro q hq
          have h1 : r ≠ q := fun heq => hnd'.1 (heq ▸ hq)
          have h2 : (0 : Int) ≠ q := by have := hpos q hq; omega
          simp [h1, h2]
        · intro q hq
          simp only [href, List.mem_filter, decide_eq_true_eq]
          exact ⟨hfreed q (List.mem_cons_of_mem _ hq), fun heq => hnd'.1 (heq ▸ hq)⟩
        · intro q o hq
          simp only [htab, href, Tbl.get_set, List.mem_cons, Prod.mk.injEq] at hq ⊢
          rcases hq with ⟨rfl, rfl⟩ | hq
          · simp only [if_true]
            refine ⟨hr, trivial, hvn, ?_⟩
            simp [List.mem_filter]
          · obtain ⟨hq0, hget, hnil, hnf⟩ := hlive q o hq
            have hqne : r ≠ q := by
              intro heq
              exact hnf (heq ▸ hfreed r (List.mem_cons_self _ _))
            refine ⟨hq0, ?_, hnil, ?_⟩
            · rw [if_neg hqne, if_neg (by omega)]; exact hget
            · simp [List.mem_filter, hnf]
  | free p =>
    obtain ⟨fl, hchain, hnd, hfreed, hlive⟩ := hinv
    simp only [Session.step] at hstep
    split at hstep
    · cases hstep
    · rename_i hp
      simp only [Option.some.injEq] at hstep
      subst hstep
      unfold Session.Inv
      simp only [rosie_free_rplx_table]
      have hpos := FreeChain.pos fl _ hchain
      have hlive' : ∀ q o, (q, o) ∈ s.live.filter (fun x => x.1 ≠ p) →
          0 < q ∧ s.engine.rplx_table.get q = o ∧ o ≠ LuaValue.nil ∧ q ∉ p :: s.freed ∧ q ≠ p := by
        intro q o hq
        simp only [List.mem_filter, decide_eq_true_eq] at hq
        obtain ⟨hq0, hget, hnil, hnf⟩ := hlive q o hq.1
        exact ⟨hq0, hget, hnil, by simp [hnf, hq.2], hq.2⟩
      by_cases hneg : p < 0
      · have hun : luaL_unref s.engine.rplx_table p = s.engine.rplx_table := by
          simp [luaL_unref, not_le.mpr hneg]
        refine ⟨fl, by simpa [hun] using hchain, hnd,
          fun r hr => List.mem_cons_of_mem _ (hfreed r hr), ?_⟩
        intro q o hq
        obtain ⟨a, b, c, d, _⟩ := hlive' q o hq
        exact ⟨a, by simpa [hun] using b, c, d⟩
      · have hun : luaL_unref s.engine.rplx_table p
            = (s.engine.rplx_table.set p (s.engine.rplx_table.get 0)).set 0 (LuaValue.number p) := by
          simp [luaL_unref, not_lt.mp hneg]
        by_cases hp0 : p = 0
        · subst hp0
          refine ⟨[], ?_, List.nodup_nil, by simp, ?_⟩
          · simp [hun, FreeChain]
          · intro q o hq
            obtain ⟨a, b, c, d, e⟩ := hlive' q o hq
            refine ⟨a, ?_, c, d⟩
            simp only [hun, Tbl.get_set]
            rw [if_neg (Ne.symm e), if_neg (Ne.symm e)]
            exact b
        · have hppos : 0 < p := by omega
          refine ⟨p :: fl, ?_, List.nodup_cons.mpr ⟨fun hin => hp (hfreed p hin), hnd⟩, ?_, ?_⟩
          · have hhead : ((s.engine.rplx_table.set p (s.engine.rplx_table.get 0)).set 0
                (LuaValue.number p)).get p = s.engine.rplx_table.get 0 := by
              simp [Tbl.get_set, hppos.ne]
            refine ⟨by simp [hun, Tbl.get_set], hppos, ?_⟩
            simp only [hun, hhead]
            refine FreeChain.congr fl _ ?_ hchain
            intro q hq
            have h1 : (0 : Int) ≠ q := by have := hpos q hq; omega
            have h2 : p ≠ q := fun heq => hp (hfreed p (heq ▸ hq))
            simp [h1, h2]
          · intro r hr
            rcases List.mem_cons.mp hr with rfl | hr
            · exact List.mem_cons_self _ _
            · exact List.mem_cons_of_mem _ (hfreed r hr)
          · intro q o hq
            obtain ⟨a, b, c, d, e⟩ := hlive' q o hq
            refine ⟨a, ?_, c, d⟩
            simp only [hun, Tbl.get_set]
            rw [if_neg (by omega), if_neg (Ne.symm e)]
            exact b

theorem Session.run_inv (R : Runtime W)
    (hlen : ∀ t : Tbl, t.get ((R.rawlen t : Int) + 1) = LuaValue.nil) :
    ∀ (calls : List Call) (s s' : Session W), s.Inv → Session.run R s calls = some s' → s'.Inv
  | [], s, s', hinv, hrun => by
    simp only [Session.run, Option.some.injEq] at hrun
    exact hrun ▸ hinv
  | c :: rest, s, s', hinv, hrun => by
    simp only [Session.run] at hrun
    cases hstep : s.step R c with
    | none => simp [hstep] at hrun
    | some s1 =>
      simp only [hstep, Option.bind] at hrun
      exact Session.run_inv R hlen rest s1 s' (Session.step_inv R hlen s s1 c hinv hstep) hrun

/-! ### Example runtime and fresh engines -/

theorem Tbl.get_above_maxKey : ∀ (t : Tbl) (k : Int), (t.maxKey : Int) < k →
    t.get k = LuaValue.nil
  | [], _, _ => rfl
  | (a, v) :: rest, k, h => by
    simp only [Tbl.maxKey, Nat.cast_max] at h
    have hne : a ≠ k := by omega
    simp only [Tbl.get, if_neg hne]
    exact Tbl.get_above_maxKey rest k (by omega)

theorem Tbl.borderFrom_next_free (t : Tbl) : ∀ (fuel n : Nat), t.maxKey < n + fuel →
    t.get (((t.borderFrom fuel n : Nat) : Int) + 1) = LuaValue.nil
  | 0, n, h => by
    simp only [Tbl.borderFrom]
    exact Tbl.get_above_maxKey t _ (by omega)
  | fuel + 1, n, h => by
    simp only [Tbl.borderFrom]
    split
    · assumption
    · exact Tbl.borderFrom_next_free t fuel (n + 1) (by omega)

theorem Tbl.border_next_free (t : Tbl) : t.get ((t.border : Int) + 1) = LuaValue.nil :=
  Tbl.borderFrom_next_free t (t.maxKey + 1) 0 (by omega)

theorem rosie_new_init (R : Runtime W) (B : Startup W) (S : Statics) (newstate : Option W)
    (m0 m1 : str) (e0 : Engine W) (h : rosie_new R B S newstate m0 = some (some e0, m1)) :
    ∃ w, e0 = Engine.init w := by
  unfold rosie_new at h
  repeat' split at h
  all_goals simp only [Prod.mk.injEq, Option.some.injEq, reduceCtorEq] at h
  all_goals first
    | exact ⟨_, h.1.symm⟩
    | exact absurd h.1 (by simp)

/-! ### The configured allocation limit -/

theorem toInt32_of_isInt32 {x : Int} (h : isInt32 x) : toInt32 x = x := by
  unfold isInt32 at h
  unfold toInt32
  omega

theorem rosie_alloc_limit_set_limit (K : Consts) (R : Runtime W) (e : Engine W)
    (newlimit usage : Option Int) (current : Int)
    (h : e.alloc_set_limit = LuaValue.number current) :
    (rosie_alloc_limit K R e newlimit usage).1.alloc_set_limit
      = LuaValue.number (Op.limit_after K current (Op.alloc_limit newlimit usage)) := by
  cases newlimit with
  | none =>
    simp [rosie_alloc_limit, Op.limit_after, RELEASE_ENGINE_LOCK, lua_settop0, Engine.api,
      lua_gc_collect, ACQUIRE_ENGINE_LOCK, h]
  | some limit =>
    simp only [rosie_alloc_limit, Op.limit_after, accepted_limit]
    by_cases h1 : limit ≠ -1 ∧ limit ≠ 0 ∧ limit < K.MIN_ALLOC_LIMIT_MB
    · have h2 : ¬ (limit ≠ -1 ∧ ¬(limit ≠ 0 ∧ limit < K.MIN_ALLOC_LIMIT_MB)) := by
        intro hh; exact hh.2 h1.2
      simp [h1, h2, RELEASE_ENGINE_LOCK, lua_settop0, Engine.api,
        lua_gc_collect, ACQUIRE_ENGINE_LOCK, h]
    · by_cases h3 : limit = -1
      · subst h3
        simp [RELEASE_ENGINE_LOCK, lua_settop0, Engine.api, get_registry,
          lua_gc_collect, ACQUIRE_ENGINE_LOCK, h]
      · have h2 : limit ≠ -1 ∧ ¬(limit ≠ 0 ∧ limit < K.MIN_ALLOC_LIMIT_MB) :=
          ⟨h3, fun hh => h1 ⟨h3, hh⟩⟩
        simp [h1, h2, h3, RELEASE_ENGINE_LOCK, lua_settop0, Engine.api,
          lua_gc_collect, ACQUIRE_ENGINE_LOCK]

theorem Op.run_set_limit (K : Consts) (R : Runtime W) (e e' : Engine W) (op : Op)
    (current : Int) (h : e.alloc_set_limit = LuaValue.number current)
    (hrun : op.run K R e = some e') :
    e'.alloc_set_limit = LuaValue.number (Op.limit_after K current op) := by
  cases op with
  | alloc_limit newlimit usage =>
    simp only [Op.run, Option.some.injEq] at hrun
    subst hrun
    exact rosie_alloc_limit_set_limit K R e newlimit usage current h
  | config =>
    simp only [Op.run, Option.some.injEq] at hrun
    subst hrun
    simpa [Op.limit_after, h] using (rosie_config_frame R e).2.1
  | libpath newpath =>
    simp only [Op.run, Option.some.injEq] at hrun
    subst hrun
    simpa [Op.limit_after, h] using (rosie_libpath_frame R e newpath).2.1
  | free_rplx pat =>
    simp only [Op.run, Option.some.injEq] at hrun
    subst hrun
    simpa [Op.limit_after, h] using (rosie_free_rplx_frame e pat).2.1
  | compile x p m =>
    simp only [Op.run, Option.some.injEq] at hrun
    subst hrun
    simpa [Op.limit_after, h] using (rosie_compile_frame R e x p m).2.1
  | rmatch pat start enc input m =>
    simp only [Op.run, Option.map_eq_some'] at hrun
    obtain ⟨r, hr, rfl⟩ := hrun
    simpa [Op.limit_after, h] using (rosie_match_frame K R e pat start enc input m r hr).2.1
  | trace pat start style input matched out =>
    simp only [Op.run, Option.map_eq_some'] at hrun
    obtain ⟨r, hr, rfl⟩ := hrun
    simpa [Op.limit_after, h] using
      (rosie_trace_frame K R e pat start style input matched out r hr).2.1
  | load ok src pkgname =>
    simp only [Op.run, Option.some.injEq] at hrun
    subst hrun
    simpa [Op.limit_after, h] using (rosie_load_frame R e ok src pkgname).2.1
  | loadfile ok fn pkgname m =>
    simp only [Op.run, Option.some.injEq] at hrun
    subst hrun
    simpa [Op.limit_after, h] using (rosie_loadfile_frame R e ok fn pkgname m).2.1
  | importpkg ok pkgname as actual m =>
    simp only [Op.run, Option.some.injEq] at hrun
    subst hrun
    simpa [Op.limit_after, h] using (rosie_import_frame R e ok pkgname as actual m).2.1
  | matchfile pat encoder flag f1 f2 f3 cin cout cerr =>
    simp only [Op.run, Option.some.injEq] at hrun
    subst hrun
    simpa [Op.limit_after, h] using
      (rosie_matchfile_frame K R e pat encoder flag f1 f2 f3 cin cout cerr).2.1
  | read_rcfile filename fe options =>
    simp only [Op.run, Option.some.injEq] at hrun
    subst hrun
    simpa [Op.limit_after, h] using (rosie_read_rcfile_frame R e filename fe options).2.1
  | execute_rcfile filename fe ne =>
    simp only [Op.run, Option.some.injEq] at hrun
    subst hrun
    simpa [Op.limit_after, h] using (rosie_execute_rcfile_frame R e filename fe ne).2.1

theorem alloc_limit_query_eq (K : Consts) (R : Runtime W) (e : Engine W) (usage : Option Int) :
    (rosie_alloc_limit K R e (some (-1)) usage).2.status = Status.SUCCESS
      ∧ (rosie_alloc_limit K R e (some (-1)) usage).2.newlimit
          = some (toInt32 (lua_tointeger R e.alloc_set_limit))
      ∧ (rosie_alloc_limit K R e (some (-1)) usage).1.alloc_set_limit = e.alloc_set_limit
      ∧ (rosie_alloc_limit K R e (some (-1)) usage).1.alloc_actual_limit
          = e.alloc_actual_limit := by
  simp [rosie_alloc_limit, RELEASE_ENGINE_LOCK, lua_settop0, Engine.api, get_registry,
    lua_gc_collect, ACQUIRE_ENGINE_LOCK]

theorem Op.runAll_set_limit (K : Consts) (R : Runtime W) :
    ∀ (ops : List Op) (e e' : Engine W) (current : Int),
      e.alloc_set_limit = LuaValue.number current → Op.runAll K R e ops = some e' →
      e'.alloc_set_limit = LuaValue.number (ops.foldl (Op.limit_after K) current)
  | [], e, e', current, h, hrun => by
    simp only [Op.runAll, Option.some.injEq] at hrun
    subst hrun
    simpa using h
  | op :: rest, e, e', current, h, hrun => by
    simp only [Op.runAll] at hrun
    cases hstep : op.run K R e with
    | none => simp [hstep] at hrun
    | some e1 =>
      simp only [hstep, Option.bind] at hrun
      simpa using Op.runAll_set_limit K R rest e1 e' _
        (Op.run_set_limit K R e e1 op current h hstep) hrun

theorem Op.limit_after_isInt32 (K : Consts) (op : Op) (current : Int) (h : isInt32 current)
    (hop : Op.int_limits [op]) : isInt32 (Op.limit_after K current op) := by
  cases op <;> try exact h
  rename_i newlimit usage
  cases newlimit with
  | none => exact h
  | some limit =>
    simp only [Op.limit_after]
    split
    · exact hop.1
    · exact h

theorem Op.foldl_isInt32 (K : Consts) : ∀ (ops : List Op) (current : Int), isInt32 current →
    Op.int_limits ops → isInt32 (ops.foldl (Op.limit_after K) current)
  | [], _, h, _ => h
  | op :: rest, current, h, hops => by
    have h1 : Op.int_limits [op] ∧ Op.int_limits rest := by
      cases op <;> try exact ⟨trivial, hops⟩
      rename_i newlimit usage
      cases newlimit with
      | none => exact ⟨trivial, hops⟩
      | some limit => exact ⟨⟨hops.1, trivial⟩, hops.2⟩
    exact Op.foldl_isInt32 K rest _ (Op.limit_after_isInt32 K op current h h1.1) h1.2
theorem alloc_limit_records_ceiling (K : Consts) (R : Runtime W) (e : Engine W) (L : Int)
    (usage : Option Int) (hacc : accepted_limit K L = true) (hL : L ≠ 0) :
    (rosie_alloc_limit K R e (some L) usage).1.alloc_actual_limit
      = LuaValue.number (toInt32 (R.gccount (R.gccollect (R.gccollect e.L)) + L)) := by
  simp only [accepted_limit, decide_eq_true_eq] at hacc
  have h1 : ¬ L < K.MIN_ALLOC_LIMIT_MB := fun h => hacc.2 ⟨hL, h⟩
  simp [rosie_alloc_limit, h1, hacc.1, hL, RELEASE_ENGINE_LOCK, lua_settop0, Engine.api,
    lua_gc_collect, lua_gc_count, ACQUIRE_ENGINE_LOCK]

/-! ### The messages out-parameter -/

theorem to_json_string_ptr_iff (R : Runtime W) (e : Engine W) (v : LuaValue)
    (hs : (to_json_string R e v).2.1 = Status.SUCCESS) :
    (to_json_string R e v).2.2.ptr = none ↔ is_empty_table R e.L v = true := by
  rw [← to_json_string_null_iff]
  exact ⟨fun h => ⟨hs, h⟩, fun h => h.2⟩

theorem rosie_compile_messages (R : Runtime W) (e : Engine W) (x : Option str) (p : Option Int)
    (m : str) (hs : (rosie_compile R e x p m).2.status = Status.SUCCESS) :
    ∃ xs rs, x = some xs ∧ (R.compile e.L xs.bytes).results = some rs
      ∧ ((rosie_compile R e x p m).2.messages.ptr = none
          ↔ is_empty_table R (R.compile e.L xs.bytes).state (nth rs 1) = true) := by
  cases p with
  | none => simp [rosie_compile] at hs
  | some p0 =>
    cases x with
    | none => simp [rosie_compile] at hs
    | some xs =>
      cases hc : (R.compile e.L xs.bytes).results with
      | none => simp [rosie_compile, hc] at hs
      | some rs =>
        refine ⟨xs, rs, rfl, hc, ?_⟩
        by_cases hb : (nth rs 0).toboolean = true
        · simp only [rosie_compile, get_registry_L, ACQUIRE_ENGINE_LOCK_L, hc, hb, Bool.not_true,
            Bool.false_eq_true, if_false] at hs ⊢
          split_ifs at hs ⊢
          rename_i hj
          exact to_json_string_ptr_iff R _ _ (not_not.mp hj)
        · simp only [rosie_compile, get_registry_L, ACQUIRE_ENGINE_LOCK_L, hc, hb, Bool.not_false,
            if_true] at hs ⊢
          split_ifs at hs ⊢
          rename_i hj
          exact to_json_string_ptr_iff R _ _ (not_not.mp hj)

theorem rosie_load_messages (R : Runtime W) (e : Engine W) (ok : Int) (src pkgname : str)
    (hs : (rosie_load R e ok src pkgname).2.status = Status.SUCCESS) :
    ∃ rs, (R.load e.L src.bytes).results = some rs
      ∧ ((rosie_load R e ok src pkgname).2.messages.ptr = none
          ↔ is_empty_table R (R.load e.L src.bytes).state (nth rs 2) = true) := by
  cases hc : (R.load e.L src.bytes).results with
  | none => simp [rosie_load, hc] at hs
  | some rs =>
    refine ⟨rs, rfl, ?_⟩
    simp only [rosie_load, get_registry_L, ACQUIRE_ENGINE_LOCK_L, hc]
    split_ifs with hj
    · simp only [rosie_new_string_from_const]
      constructor
      · intro h; cases h
      · intro h
        exact absurd ((to_json_string_null_iff R _ _).mpr h).1 hj
    · exact to_json_string_ptr_iff R _ _ (not_not.mp hj)

theorem sanitize_and_encode_messages (R : Runtime W) (e : Engine W) (rs : List LuaValue)
    (m : str) (hs : (sanitize_and_encode R e rs m).2.status = Status.SUCCESS) :
    ∃ ss, (R.strip_each e.L (nth rs 2)).results = some ss
      ∧ ((sanitize_and_encode R e rs m).2.messages.ptr = none
          ↔ is_empty_table R (R.strip_each e.L (nth rs 2)).state (nth ss 0) = true) := by
  cases hc : (R.strip_each e.L (nth rs 2)).results with
  | none =>
    simp [sanitize_and_encode, strip_violation_messages, hc] at hs
  | some ss =>
    refine ⟨ss, rfl, ?_⟩
    simp only [sanitize_and_encode, strip_violation_messages, get_registry_L, hc, ne_eq,
      not_true_eq_false, if_false] at hs ⊢
    by_cases hj : (to_json_string R (pcall Cap.strip_each (R.strip_each e.L (nth rs 2))
        (get_registry e)) (nth ss 0)).2.1 = Status.SUCCESS
    · simp only [hj, not_true_eq_false, if_false]
      exact to_json_string_ptr_iff R _ _ hj
    · simp [hj] at hs

theorem rosie_loadfile_messages (R : Runtime W) (e : Engine W) (ok : Int) (fn pkgname m : str)
    (hs : (rosie_loadfile R e ok fn pkgname m).2.status = Status.SUCCESS) :
    ∃ rs ss, (R.loadfile e.L fn.bytes).results = some rs
      ∧ (R.strip_each (R.loadfile e.L fn.bytes).state (nth rs 2)).results = some ss
      ∧ ((rosie_loadfile R e ok fn pkgname m).2.messages.ptr = none
          ↔ is_empty_table R (R.strip_each (R.loadfile e.L fn.bytes).state (nth rs 2)).state
              (nth ss 0) = true) := by
  cases hc : (R.loadfile e.L fn.bytes).results with
  | none => simp [rosie_loadfile, hc] at hs
  | some rs =>
    simp only [rosie_loadfile, get_registry_L, ACQUIRE_ENGINE_LOCK_L, hc] at hs ⊢
    obtain ⟨ss, h1, h2⟩ := sanitize_and_encode_messages R _ rs m hs
    exact ⟨rs, ss, rfl, h1, h2⟩

theorem rosie_import_messages (R : Runtime W) (e : Engine W) (ok : Int) (pkgname : str)
    (as : Option str) (actual m : str)
    (hs : (rosie_import R e ok pkgname as actual m).2.status = Status.SUCCESS) :
    ∃ rs ss, (R.importpkg e.L pkgname.bytes (as.map str.bytes)).results = some rs
      ∧ (R.strip_each (R.importpkg e.L pkgname.bytes (as.map str.bytes)).state
          (nth rs 2)).results = some ss
      ∧ ((rosie_import R e ok pkgname as actual m).2.messages.ptr = none
          ↔ is_empty_table R (R.strip_each (R.importpkg e.L pkgname.bytes
              (as.map str.bytes)).state (nth rs 2)).state (nth ss 0) = true) := by
  cases hc : (R.importpkg e.L pkgname.bytes (as.map str.bytes)).results with
  | none => simp [rosie_import, hc] at hs
  | some rs =>
    simp only [rosie_import, get_registry_L, ACQUIRE_ENGINE_LOCK_L, hc] at hs ⊢
    obtain ⟨ss, h1, h2⟩ := sanitize_and_encode_messages R _ rs m hs
    exact ⟨rs, ss, rfl, h1, h2⟩

/-! ### Pattern resolution in `rosie_match` -/

theorem collect_if_needed_events (R : Runtime W) (e : Engine W) :
    (collect_if_needed R e).events = e.events ∨
      (collect_if_needed R e).events = Event.collect :: e.events := by
  simp only [collect_if_needed, get_registry, lua_gc_collect, Engine.api]
  split_ifs <;> simp

theorem rosie_match_unresolved (K : Consts) (R : Runtime W) (e : Engine W) (pat start : Int)
    (encoder_name : Option String) (input : str) (m : Match)
    (h : pat = 0 ∨ (e.rplx_table.get pat).istable = false) :
    rosie_match K R e pat start encoder_name input m
      = some (RELEASE_ENGINE_LOCK (lua_settop0
          (if pat = 0 then collect_if_needed R (ACQUIRE_ENGINE_LOCK e)
            else (get_registry (collect_if_needed R (ACQUIRE_ENGINE_LOCK e))).api)),
          Status.SUCCESS, set_match_error m K.ERR_NO_PATTERN) := by
  have hcond : pat = 0 ∨ (!((if pat = 0 then collect_if_needed R (ACQUIRE_ENGINE_LOCK e)
      else (get_registry (collect_if_needed R (ACQUIRE_ENGINE_LOCK e))).api).rplx_table.get
        pat).istable) = true := by
    rcases h with h | h
    · exact Or.inl h
    · right
      split <;> simp [h]
  unfold rosie_match
  simp only [hcond, if_true]

/-! ### The event log -/

theorem to_json_string_count (R : Runtime W) (e : Engine W) (v : LuaValue) (ev : Event)
    (h : ev ≠ Event.call Cap.json_encode) :
    (to_json_string R e v).1.events.count ev = e.events.count ev := by
  unfold to_json_string
  try dsimp only
  repeat' split
  all_goals simp [get_registry, Engine.api, pcall, List.count_cons, h.symm]

theorem strip_violation_messages_count (R : Runtime W) (e : Engine W) (v : LuaValue)
    (ev : Event) (h : ev ≠ Event.call Cap.strip_each) :
    (strip_violation_messages R e v).1.events.count ev = e.events.count ev := by
  unfold strip_violation_messages
  try dsimp only
  repeat' split
  all_goals simp [get_registry, Engine.api, pcall, List.count_cons, h.symm]

theorem collect_if_needed_events_eq (R : Runtime W) (e : Engine W) :
    (collect_if_needed R e).events
      = if toInt32 (lua_tointeger R e.alloc_actual_limit) ≠ 0
          ∧ R.gccount e.L > toInt32 (lua_tointeger R e.alloc_actual_limit)
        then Event.collect :: e.events else e.events := by
  simp only [collect_if_needed, get_registry, lua_gc_collect, lua_gc_count, Engine.api]
  split_ifs <;> simp_all

theorem collect_if_needed_count (R : Runtime W) (e : Engine W) (ev : Event)
    (h : ev ≠ Event.collect) :
    (collect_if_needed R e).events.count ev = e.events.count ev := by
  rw [collect_if_needed_events_eq]
  split_ifs <;> simp [List.count_cons, h.symm]

theorem sanitize_and_encode_count (R : Runtime W) (e : Engine W) (rs : List LuaValue) (m : str) (ev : Event)
    (h1 : ev ≠ Event.call Cap.strip_each) (h2 : ev ≠ Event.call Cap.json_encode) :
    (sanitize_and_encode R e rs m).1.events.count ev = e.events.count ev := by
  unfold sanitize_and_encode
  try dsimp only
  repeat' split
  all_goals simp [ACQUIRE_ENGINE_LOCK, RELEASE_ENGINE_LOCK, lua_settop0, get_registry,
    Engine.api, pcall, lua_gc_collect, to_json_string_count, strip_violation_messages_count,
    List.count_cons, h1.symm, h1, h2.symm, h2]

theorem rosie_config_count (R : Runtime W) (e : Engine W) (ev : Event)
    (h1 : ev ≠ Event.call Cap.config) (h2 : ev ≠ Event.call Cap.json_encode) :
    (rosie_config R e).1.events.count ev = e.events.count ev := by
  unfold rosie_config
  try dsimp only
  repeat' split
  all_goals simp [ACQUIRE_ENGINE_LOCK, RELEASE_ENGINE_LOCK, lua_settop0, get_registry,
    Engine.api, pcall, lua_gc_collect, to_json_string_count, strip_violation_messages_count,
    List.count_cons, h1.symm, h1, h2.symm, h2]

theorem rosie_libpath_count (R : Runtime W) (e : Engine W) (newpath : str) (ev : Event)
    (h1 : ev ≠ Event.call Cap.get_libpath) (h2 : ev ≠ Event.call Cap.set_libpath) :
    (rosie_libpath R e newpath).1.events.count ev = e.events.count ev := by
  unfold rosie_libpath
  try dsimp only
  repeat' split
  all_goals simp [ACQUIRE_ENGINE_LOCK, RELEASE_ENGINE_LOCK, lua_settop0, get_registry,
    Engine.api, pcall, lua_gc_collect, to_json_string_count, strip_violation_messages_count,
    List.count_cons, h1.symm, h1, h2.symm, h2]

theorem rosie_compile_count (R : Runtime W) (e : Engine W) (x : Option str) (p : Option Int) (m : str) (ev : Event)
    (h1 : ev ≠ Event.call Cap.compile) (h2 : ev ≠ Event.call Cap.json_encode) :
    (rosie_compile R e x p m).1.events.count ev = e.events.count ev := by
  unfold rosie_compile
  try dsimp only
  repeat' split
  all_goals simp [ACQUIRE_ENGINE_LOCK, RELEASE_ENGINE_LOCK, lua_settop0, get_registry,
    Engine.api, pcall, lua_gc_collect, to_json_string_count, strip_violation_messages_count,
    List.count_cons, h1.symm, h1, h2.symm, h2]

theorem rosie_load_count (R : Runtime W) (e : Engine W) (ok : Int) (src pkgname : str) (ev : Event)
    (h1 : ev ≠ Event.call Cap.load) (h2 : ev ≠ Event.call Cap.json_encode) :
    (rosie_load R e ok src pkgname).1.events.count ev = e.events.count ev := by
  unfold rosie_load
  try dsimp only
  repeat' split
  all_goals simp [ACQUIRE_ENGINE_LOCK, RELEASE_ENGINE_LOCK, lua_settop0, get_registry,
    Engine.api, pcall, lua_gc_collect, to_json_string_count, strip_violation_messages_count,
    List.count_cons, h1.symm, h1, h2.symm, h2]

theorem rosie_loadfile_count (R : Runtime W) (e : Engine W) (ok : Int) (fn pkgname m : str) (ev : Event)
    (h1 : ev ≠ Event.call Cap.loadfile) (h2 : ev ≠ Event.call Cap.strip_each) (h3 : ev ≠ Event.call Cap.json_encode) :
    (rosie_loadfile R e ok fn pkgname m).1.events.count ev = e.events.count ev := by
  unfold rosie_loadfile
  try dsimp only
  repeat' split
  all_goals simp [ACQUIRE_ENGINE_LOCK, RELEASE_ENGINE_LOCK, lua_settop0, get_registry,
    Engine.api, pcall, lua_gc_collect, to_json_string_count, strip_violation_messages_count,
    List.count_cons, sanitize_and_encode_count, h1.symm, h1, h2.symm, h2, h3.symm, h3]

theorem rosie_import_count (R : Runtime W) (e : Engine W) (ok : Int) (pkgname : str) (as : Option str) (actual m : str) (ev : Event)
    (h1 : ev ≠ Event.call Cap.importpkg) (h2 : ev ≠ Event.call Cap.strip_each) (h3 : ev ≠ Event.call Cap.json_encode) :
    (rosie_import R e ok pkgname as actual m).1.events.count ev = e.events.count ev := by
  unfold rosie_import
  try dsimp only
  repeat' split
  all_goals simp [ACQUIRE_ENGINE_LOCK, RELEASE_ENGINE_LOCK, lua_settop0, get_registry,
    Engine.api, pcall, lua_gc_collect, to_json_string_count, strip_violation_messages_count,
    List.count_cons, sanitize_and_encode_count, h1.symm, h1, h2.symm, h2, h3.symm, h3]

theorem rosie_read_rcfile_count (R : Runtime W) (e : Engine W) (filename : str) (fe : Int) (options : str) (ev : Event)
    (h1 : ev ≠ Event.call Cap.read_rcfile) (h2 : ev ≠ Event.call Cap.json_encode) :
    (rosie_read_rcfile R e filename fe options).1.events.count ev = e.events.count ev := by
  unfold rosie_read_rcfile
  try dsimp only
  repeat' split
  all_goals simp [ACQUIRE_ENGINE_LOCK, RELEASE_ENGINE_LOCK, lua_settop0, get_registry,
    Engine.api, pcall, lua_gc_collect, to_json_string_count, strip_violation_messages_count,
    List.count_cons, h1.symm, h1, h2.symm, h2]

theorem rosie_execute_rcfile_count (R : Runtime W) (e : Engine W) (filename : str) (fe ne : Int) (ev : Event)
    (h1 : ev ≠ Event.call Cap.execute_rcfile) :
    (rosie_execute_rcfile R e filename fe ne).1.events.count ev = e.events.count ev := by
  unfold rosie_execute_rcfile
  try dsimp only
  repeat' split
  all_goals simp [ACQUIRE_ENGINE_LOCK, RELEASE_ENGINE_LOCK, lua_settop0, get_registry,
    Engine.api, pcall, lua_gc_collect, to_json_string_count, strip_violation_messages_count,
    List.count_cons, h1.symm, h1]

theorem rosie_free_rplx_events (e : Engine W) (pat : Int) :
    (rosie_free_rplx e pat).1.events = e.events := by
  simp [rosie_free_rplx, ACQUIRE_ENGINE_LOCK, RELEASE_ENGINE_LOCK, lua_settop0, get_registry,
    Engine.api]

theorem rosie_alloc_limit_events (K : Consts) (R : Runtime W) (e : Engine W)
    (newlimit usage : Option Int) :
    (rosie_alloc_limit K R e newlimit usage).1.events
      = Event.collect :: Event.collect :: e.events := by
  unfold rosie_alloc_limit
  try dsimp only
  repeat' split
  all_goals simp [ACQUIRE_ENGINE_LOCK, RELEASE_ENGINE_LOCK, lua_settop0, get_registry,
    Engine.api, lua_gc_collect]

theorem rosie_matchfile_count (K : Consts) (R : Runtime W) (e : Engine W) (pat : Int)
    (encoder : Option String) (flag : Int) (f1 f2 f3 : Option String) (cin cout cerr : Int)
    (ev : Event) (h1 : ev ≠ Event.call Cap.matchfile) :
    (rosie_matchfile K R e pat encoder flag f1 f2 f3 cin cout cerr).1.events.count ev
      = (collect_if_needed R e).events.count ev := by
  have hbase : (collect_if_needed R (ACQUIRE_ENGINE_LOCK e)).events
      = (collect_if_needed R e).events := by
    simp [collect_if_needed_events_eq, ACQUIRE_ENGINE_LOCK]
  unfold rosie_matchfile
  try dsimp only
  repeat' split
  all_goals simp [RELEASE_ENGINE_LOCK, lua_settop0, get_registry,
    Engine.api, pcall, List.count_cons, hbase, h1.symm, h1]


theorem free_prev_string_result_count (e : Engine W) (ev : Event)
    (h : ∀ a, ev ≠ Event.str_free a) :
    (free_prev_string_result e).events.count ev = e.events.count ev := by
  unfold free_prev_string_result
  repeat' split
  all_goals simp [rosie_free_string_ptr, List.count_cons, (h _).symm]

theorem match_results_count (R : Runtime W) (e : Engine W) (encoder : Int)
    (rs : List LuaValue) (m : Match) (ev : Event)
    (h1 : ∀ a, ev ≠ Event.str_alloc a) (h2 : ∀ a, ev ≠ Event.str_free a) :
    (match_results R e encoder rs m).1.events.count ev = e.events.count ev := by
  unfold match_results
  try dsimp only
  repeat' split
  all_goals simp [RELEASE_ENGINE_LOCK, lua_settop0, get_registry, Engine.api,
    rosie_new_string_ptr, free_prev_string_result_count, List.count_cons, (h1 _).symm, h2]

theorem collect_if_needed_acquire_events (R : Runtime W) (e : Engine W) :
    (collect_if_needed R (ACQUIRE_ENGINE_LOCK e)).events = (collect_if_needed R e).events := by
  simp [collect_if_needed_events_eq, ACQUIRE_ENGINE_LOCK]

theorem rosie_match_count (K : Consts) (R : Runtime W) (e : Engine W) (pat start : Int)
    (enc : Option String) (input : str) (m : Match)
    (r : Engine W × Status × Match) (hr : rosie_match K R e pat start enc input m = some r)
    (ev : Event) (h1 : ev ≠ Event.call Cap.Cmatch) (h2 : ev ≠ Event.call Cap.r_match_C)
    (h3 : ∀ a, ev ≠ Event.str_alloc a) (h4 : ∀ a, ev ≠ Event.str_free a) :
    r.1.events.count ev = (collect_if_needed R e).events.count ev := by
  unfold rosie_match at hr
  try dsimp only at hr
  repeat' split at hr
  all_goals
    (cases hr <;>
      simp [RELEASE_ENGINE_LOCK, lua_settop0, get_registry, Engine.api, pcall,
        match_results_count, List.count_cons, collect_if_needed_acquire_events,
        h1.symm, h2.symm, h1, h2, h3, h4])

theorem rosie_trace_count (K : Consts) (R : Runtime W) (e : Engine W) (pat start : Int)
    (style : Option String) (input : str) (matched : Int) (out : str)
    (r : Engine W × TraceResult)
    (hr : rosie_trace K R e pat start style input matched out = some r)
    (ev : Event) (h1 : ev ≠ Event.call Cap.trace) (h2 : ev ≠ Event.call Cap.json_encode) :
    r.1.events.count ev = (collect_if_needed R e).events.count ev := by
  unfold rosie_trace at hr
  try dsimp only at hr
  repeat' split at hr
  all_goals
    (cases hr <;>
      simp [RELEASE_ENGINE_LOCK, lua_settop0, get_registry, Engine.api, pcall,
        to_json_string_count, List.count_cons, collect_if_needed_acquire_events,
        h1.symm, h2.symm, h1, h2])



theorem to_json_string_suffix (R : Runtime W) (e : Engine W) (v : LuaValue) (l : List Event)
    (h : l <:+ e.events) : l <:+ (to_json_string R e v).1.events := by
  unfold to_json_string
  try dsimp only
  repeat' split
  all_goals simp [get_registry, Engine.api, pcall, h, List.suffix_cons_iff]

theorem match_results_suffix (R : Runtime W) (e : Engine W) (encoder : Int)
    (rs : List LuaValue) (m : Match) (l : List Event) (h : l <:+ e.events) :
    l <:+ (match_results R e encoder rs m).1.events := by
  unfold match_results free_prev_string_result
  try dsimp only
  repeat' split
  all_goals simp [RELEASE_ENGINE_LOCK, lua_settop0, get_registry, Engine.api,
    rosie_new_string_ptr, rosie_free_string_ptr, h, List.suffix_cons_iff]

theorem rosie_trace_suffix (K : Consts) (R : Runtime W) (e : Engine W) (pat start : Int)
    (style : Option String) (input : str) (matched : Int) (out : str)
    (r : Engine W × TraceResult)
    (hr : rosie_trace K R e pat start style input matched out = some r) :
    (collect_if_needed R e).events <:+ r.1.events := by
  unfold rosie_trace at hr
  try dsimp only at hr
  repeat' split at hr
  all_goals
    (cases hr <;>
      simp [RELEASE_ENGINE_LOCK, lua_settop0, get_registry, Engine.api, pcall,
        to_json_string_suffix, List.suffix_cons_iff, collect_if_needed_acquire_events])

theorem rosie_match_suffix (K : Consts) (R : Runtime W) (e : Engine W) (pat start : Int)
    (enc : Option String) (input : str) (m : Match)
    (r : Engine W × Status × Match) (hr : rosie_match K R e pat start enc input m = some r) :
    (collect_if_needed R e).events <:+ r.1.events := by
  unfold rosie_match at hr
  try dsimp only at hr
  repeat' split at hr
  all_goals
    (cases hr <;>
      simp [RELEASE_ENGINE_LOCK, lua_settop0, get_registry, Engine.api, pcall,
        match_results_suffix, List.suffix_cons_iff, collect_if_needed_acquire_events])

theorem rosie_matchfile_suffix (K : Consts) (R : Runtime W) (e : Engine W) (pat : Int)
    (encoder : Option String) (flag : Int) (f1 f2 f3 : Option String) (cin cout cerr : Int) :
    (collect_if_needed R e).events
      <:+ (rosie_matchfile K R e pat encoder flag f1 f2 f3 cin cout cerr).1.events := by
  unfold rosie_matchfile
  try dsimp only
  repeat' split
  all_goals simp [RELEASE_ENGINE_LOCK, lua_settop0, get_registry,
    Engine.api, pcall, List.suffix_cons_iff, collect_if_needed_acquire_events]


theorem rosie_finalize_count (e : Engine W) (ev : Event) (h : ∀ a, ev ≠ Event.str_free a) :
    (rosie_finalize e).events.count ev = e.events.count ev := by
  unfold rosie_finalize finalize_string_result
  try dsimp only
  repeat' split
  all_goals simp [ACQUIRE_ENGINE_LOCK, get_registry, Engine.api, rosie_free_string_ptr,
    List.count_cons, (h _).symm]

theorem not_mem_of_count_append (ev : Event) (new base : List Event)
    (h : (new ++ base).count ev = base.count ev) : ev ∉ new := by
  rw [List.count_append] at h
  exact List.count_eq_zero.mp (by omega)

/-! ### What the messages encode -/

theorem to_json_string_snd_congr (R : Runtime W) (e1 e2 : Engine W) (v : LuaValue)
    (h : e1.L = e2.L) : (to_json_string R e1 v).2 = (to_json_string R e2 v).2 := by
  unfold to_json_string
  cases v <;> try rfl
  rename_i id
  simp only [get_registry_L, h]
  split_ifs
  · rfl
  · cases (R.json_encode e2.L (LuaValue.table id)).results with
    | none => rfl
    | some rs => simp only []; split_ifs <;> rfl

theorem rosie_compile_encodes (R : Runtime W) (e : Engine W) (x : Option str) (p : Option Int)
    (m : str) (hs : (rosie_compile R e x p m).2.status = Status.SUCCESS) :
    ∃ xs rs, x = some xs ∧ (R.compile e.L xs.bytes).results = some rs
      ∧ (to_json_string R { e with L := (R.compile e.L xs.bytes).state } (nth rs 1)).2
        = (Status.SUCCESS, (rosie_compile R e x p m).2.messages) := by
  cases p with
  | none => simp [rosie_compile] at hs
  | some p0 =>
    cases x with
    | none => simp [rosie_compile] at hs
    | some xs =>
      cases hc : (R.compile e.L xs.bytes).results with
      | none => simp [rosie_compile, hc] at hs
      | some rs =>
        refine ⟨xs, rs, rfl, hc, ?_⟩
        by_cases hb : (nth rs 0).toboolean = true
        · simp only [rosie_compile, get_registry_L, ACQUIRE_ENGINE_LOCK_L, hc, hb, Bool.not_true,
            Bool.false_eq_true, if_false] at hs ⊢
          split_ifs at hs ⊢
          rename_i hj
          have hj' := not_not.mp hj
          refine (to_json_string_snd_congr R _ _ (nth rs 1) ?_).trans (Prod.ext hj' rfl)
          rfl
        · simp only [rosie_compile, get_registry_L, ACQUIRE_ENGINE_LOCK_L, hc, hb, Bool.not_false,
            if_true] at hs ⊢
          split_ifs at hs ⊢
          rename_i hj
          have hj' := not_not.mp hj
          refine (to_json_string_snd_congr R _ _ (nth rs 1) ?_).trans (Prod.ext hj' rfl)
          rfl


theorem rosie_load_encodes (R : Runtime W) (e : Engine W) (ok : Int) (src pkgname : str)
    (hs : (rosie_load R e ok src pkgname).2.status = Status.SUCCESS) :
    ∃ rs, (R.load e.L src.bytes).results = some rs
      ∧ (rosie_load R e ok src pkgname).2.messages
        = if (to_json_string R { e with L := (R.load e.L src.bytes).state } (nth rs 2)).2.1
              = Status.SUCCESS
          then (to_json_string R { e with L := (R.load e.L src.bytes).state } (nth rs 2)).2.2
          else rosie_new_string_from_const
            "in load(), could not convert error information to json" := by
  cases hc : (R.load e.L src.bytes).results with
  | none => simp [rosie_load, hc] at hs
  | some rs =>
    refine ⟨rs, rfl, ?_⟩
    have key := to_json_string_snd_congr R
      (pcall Cap.load (R.load e.L src.bytes) (get_registry (ACQUIRE_ENGINE_LOCK e)))
      { e with L := (R.load e.L src.bytes).state } (nth rs 2) rfl
    simp only [rosie_load, get_registry_L, ACQUIRE_ENGINE_LOCK_L, hc]
    rw [← key]
    by_cases hj : (to_json_string R (pcall Cap.load (R.load e.L src.bytes)
        (get_registry (ACQUIRE_ENGINE_LOCK e))) (nth rs 2)).2.1 = Status.SUCCESS
    · simp [hj]
    · simp [hj]

theorem sanitize_and_encode_encodes (R : Runtime W) (e e0 : Engine W) (rs : List LuaValue)
    (m : str) (hs : (sanitize_and_encode R e rs m).2.status = Status.SUCCESS) :
    ∃ ss, (R.strip_each e.L (nth rs 2)).results = some ss
      ∧ (to_json_string R { e0 with L := (R.strip_each e.L (nth rs 2)).state } (nth ss 0)).2
        = (Status.SUCCESS, (sanitize_and_encode R e rs m).2.messages) := by
  cases hc : (R.strip_each e.L (nth rs 2)).results with
  | none =>
    simp [sanitize_and_encode, strip_violation_messages, hc] at hs
  | some ss =>
    refine ⟨ss, rfl, ?_⟩
    simp only [sanitize_and_encode, strip_violation_messages, get_registry_L, hc, ne_eq,
      not_true_eq_false, if_false] at hs ⊢
    by_cases hj : (to_json_string R (pcall Cap.strip_each (R.strip_each e.L (nth rs 2))
        (get_registry e)) (nth ss 0)).2.1 = Status.SUCCESS
    · simp only [hj, not_true_eq_false, if_false]
      refine (to_json_string_snd_congr R _ _ (nth ss 0) ?_).trans (Prod.ext hj rfl)
      rfl
    · simp [hj] at hs

theorem rosie_loadfile_encodes (R : Runtime W) (e : Engine W) (ok : Int) (fn pkgname m : str)
    (hs : (rosie_loadfile R e ok fn pkgname m).2.status = Status.SUCCESS) :
    ∃ rs ss, (R.loadfile e.L fn.bytes).results = some rs
      ∧ (R.strip_each (R.loadfile e.L fn.bytes).state (nth rs 2)).results = some ss
      ∧ (to_json_string R
            { e with L := (R.strip_each (R.loadfile e.L fn.bytes).state (nth rs 2)).state }
            (nth ss 0)).2
        = (Status.SUCCESS, (rosie_loadfile R e ok fn pkgname m).2.messages) := by
  cases hc : (R.loadfile e.L fn.bytes).results with
  | none => simp [rosie_loadfile, hc] at hs
  | some rs =>
    simp only [rosie_loadfile, get_registry_L, ACQUIRE_ENGINE_LOCK_L, hc] at hs ⊢
    obtain ⟨ss, h1, h2⟩ := sanitize_and_encode_encodes R _ e rs m hs
    exact ⟨rs, ss, rfl, h1, h2⟩

theorem rosie_import_encodes (R : Runtime W) (e : Engine W) (ok : Int) (pkgname : str)
    (as : Option str) (actual m : str)
    (hs : (rosie_import R e ok pkgname as actual m).2.status = Status.SUCCESS) :
    ∃ rs ss, (R.importpkg e.L pkgname.bytes (as.map str.bytes)).results = some rs
      ∧ (R.strip_each (R.importpkg e.L pkgname.bytes (as.map str.bytes)).state
          (nth rs 2)).results = some ss
      ∧ (to_json_string R
            { e with L := (R.strip_each (R.importpkg e.L pkgname.bytes
                (as.map str.bytes)).state (nth rs 2)).state }
            (nth ss 0)).2
        = (Status.SUCCESS, (rosie_import R e ok pkgname as actual m).2.messages) := by
  cases hc : (R.importpkg e.L pkgname.bytes (as.map str.bytes)).results with
  | none => simp [rosie_import, hc] at hs
  | some rs =>
    simp only [rosie_import, get_registry_L, ACQUIRE_ENGINE_LOCK_L, hc] at hs ⊢
    obtain ⟨ss, h1, h2⟩ := sanitize_and_encode_encodes R _ e rs m hs
    exact ⟨rs, ss, rfl, h1, h2⟩

/-! ### Pattern resolution in `rosie_matchfile` and `rosie_trace` -/

theorem collect_if_needed_acquire_L (R : Runtime W) (e : Engine W) :
    (collect_if_needed R (ACQUIRE_ENGINE_LOCK e)).L = (collect_if_needed R e).L := by
  simp only [collect_if_needed, ACQUIRE_ENGINE_LOCK, get_registry, Engine.api, lua_gc_collect,
    lua_gc_count]
  split_ifs <;> rfl

theorem rosie_matchfile_unresolved (K : Consts) (R : Runtime W) (e : Engine W) (pat : Int)
    (encoder : Option String) (flag : Int) (f1 f2 f3 : Option String) (cin cout cerr : Int)
    (h : (e.rplx_table.get pat).istable = false ∨ encoder = none) :
    (rosie_matchfile K R e pat encoder flag f1 f2 f3 cin cout cerr).1.events
      = (collect_if_needed R e).events := by
  rw [← collect_if_needed_acquire_events]
  unfold rosie_matchfile
  rcases h with h | h
  · simp [h, RELEASE_ENGINE_LOCK, lua_settop0, get_registry, Engine.api]
  · subst h
    simp only [collect_if_needed_rplx_table, get_registry_rplx_table, api_rplx_table,
      ACQUIRE_ENGINE_LOCK_rplx_table]
    split_ifs <;> simp [RELEASE_ENGINE_LOCK, lua_settop0, get_registry, Engine.api]

theorem rosie_trace_no_pattern_eq (K : Consts) (R : Runtime W) (e : Engine W) (pat start : Int)
    (trace_style : Option String) (input : str) (matched : Int) (trace : str)
    (h : pat = 0 ∨ (e.rplx_table.get pat).istable = false) :
    rosie_trace K R e pat start trace_style input matched trace
      = some (RELEASE_ENGINE_LOCK (lua_settop0
          (if pat = 0
            then get_registry (get_registry (collect_if_needed R (ACQUIRE_ENGINE_LOCK e)))
            else (get_registry (get_registry (get_registry
              (collect_if_needed R (ACQUIRE_ENGINE_LOCK e))))).api)),
          ⟨Status.SUCCESS, matched, ⟨none, K.ERR_NO_PATTERN⟩⟩) := by
  have hcond : pat = 0 ∨ (!((if pat = 0
      then get_registry (get_registry (collect_if_needed R (ACQUIRE_ENGINE_LOCK e)))
      else (get_registry (get_registry (get_registry
        (collect_if_needed R (ACQUIRE_ENGINE_LOCK e))))).api).rplx_table.get
        pat).istable) = true := by
    rcases h with h | h
    · exact Or.inl h
    · right
      split <;> simp [h]
  unfold rosie_trace
  simp only [hcond, if_true]

theorem rosie_trace_no_style_eq (K : Consts) (R : Runtime W) (e : Engine W) (pat start : Int)
    (input : str) (matched : Int) (trace : str)
    (hp : pat ≠ 0) (ht : (e.rplx_table.get pat).istable = true) :
    rosie_trace K R e pat start none input matched trace
      = some (RELEASE_ENGINE_LOCK (lua_settop0
          (get_registry (get_registry (get_registry
              (collect_if_needed R (ACQUIRE_ENGINE_LOCK e))))).api),
          ⟨Status.SUCCESS, matched, ⟨none, K.ERR_NO_ENCODER⟩⟩) := by
  unfold rosie_trace
  simp only [hp, if_false, false_or, get_registry_rplx_table, api_rplx_table,
    collect_if_needed_rplx_table, ACQUIRE_ENGINE_LOCK_rplx_table, ht, Bool.not_true,
    Bool.false_eq_true]

/-! ### Results of the match call -/

theorem rosie_match_resolved (K : Consts) (R : Runtime W) (e : Engine W) (pat start : Int)
    (encoder_name : Option String) (input : str) (m : Match) (code : Int)
    (hp : pat ≠ 0) (ht : (e.rplx_table.get pat).istable = true)
    (henc : encoder_name_to_code K encoder_name = some code) :
    rosie_match K R e pat start encoder_name input m
      = match match_call R (collect_if_needed R e).L (e.rplx_table.get pat) input start
            encoder_name code with
        | none => none
        | some o =>
          match o.results with
          | none =>
            some (RELEASE_ENGINE_LOCK (lua_settop0
              (pcall (if code = 0 then Cap.Cmatch else Cap.r_match_C) o
                (get_registry (collect_if_needed R (ACQUIRE_ENGINE_LOCK e))).api)),
              Status.ERR_ENGINE_CALL_FAILED, m)
          | some rs =>
            some (match_results R
              (pcall (if code = 0 then Cap.Cmatch else Cap.r_match_C) o
                (get_registry (collect_if_needed R (ACQUIRE_ENGINE_LOCK e))).api)
              code rs m) := by
  rw [← collect_if_needed_acquire_L]
  unfold rosie_match
  simp only [hp, if_false, false_or, get_registry_rplx_table, api_rplx_table,
    collect_if_needed_rplx_table, ACQUIRE_ENGINE_LOCK_rplx_table, ht, Bool.not_true,
    Bool.false_eq_true, henc, get_registry_L, api_L]

theorem rosie_match_returned (K : Consts) (R : Runtime W) (e : Engine W) (pat start : Int)
    (encoder_name : Option String) (input : str) (m : Match) (code : Int) (o : Outcome W)
    (hp : pat ≠ 0) (ht : (e.rplx_table.get pat).istable = true)
    (henc : encoder_name_to_code K encoder_name = some code)
    (hcall : match_call R (collect_if_needed R e).L (e.rplx_table.get pat) input start
      encoder_name code = some o) :
    rosie_match K R e pat start encoder_name input m
      = match o.results with
        | none =>
          some (RELEASE_ENGINE_LOCK (lua_settop0
            (pcall (if code = 0 then Cap.Cmatch else Cap.r_match_C) o
              (get_registry (collect_if_needed R (ACQUIRE_ENGINE_LOCK e))).api)),
            Status.ERR_ENGINE_CALL_FAILED, m)
        | some rs =>
          some (match_results R
            (pcall (if code = 0 then Cap.Cmatch else Cap.r_match_C) o
              (get_registry (collect_if_needed R (ACQUIRE_ENGINE_LOCK e))).api)
            code rs m) := by
  rw [rosie_match_resolved K R e pat start encoder_name input m code hp ht henc, hcall]

/-! ### The cached string result -/

@[simp] theorem to_json_string_prev_string_result (R : Runtime W) (e : Engine W) (v : LuaValue) :
    (to_json_string R e v).1.prev_string_result = e.prev_string_result := by
  unfold to_json_string
  try dsimp only
  repeat' split
  all_goals simp [ACQUIRE_ENGINE_LOCK, RELEASE_ENGINE_LOCK, lua_settop0, get_registry, Engine.api, pcall,
    lua_gc_collect]

@[simp] theorem to_json_string_heap (R : Runtime W) (e : Engine W) (v : LuaValue) :
    (to_json_string R e v).1.heap = e.heap := by
  unfold to_json_string
  try dsimp only
  repeat' split
  all_goals simp [ACQUIRE_ENGINE_LOCK, RELEASE_ENGINE_LOCK, lua_settop0, get_registry, Engine.api, pcall,
    lua_gc_collect]

@[simp] theorem to_json_string_next_addr (R : Runtime W) (e : Engine W) (v : LuaValue) :
    (to_json_string R e v).1.next_addr = e.next_addr := by
  unfold to_json_string
  try dsimp only
  repeat' split
  all_goals simp [ACQUIRE_ENGINE_LOCK, RELEASE_ENGINE_LOCK, lua_settop0, get_registry, Engine.api, pcall,
    lua_gc_collect]

@[simp] theorem strip_violation_messages_prev_string_result (R : Runtime W) (e : Engine W) (v : LuaValue) :
    (strip_violation_messages R e v).1.prev_string_result = e.prev_string_result := by
  unfold strip_violation_messages
  try dsimp only
  repeat' split
  all_goals simp [ACQUIRE_ENGINE_LOCK, RELEASE_ENGINE_LOCK, lua_settop0, get_registry, Engine.api, pcall,
    lua_gc_collect]

@[simp] theorem strip_violation_messages_heap (R : Runtime W) (e : Engine W) (v : LuaValue) :
    (strip_violation_messages R e v).1.heap = e.heap := by
  unfold strip_violation_messages
  try dsimp only
  repeat' split
  all_goals simp [ACQUIRE_ENGINE_LOCK, RELEASE_ENGINE_LOCK, lua_settop0, get_registry, Engine.api, pcall,
    lua_gc_collect]

@[simp] theorem strip_violation_messages_next_addr (R : Runtime W) (e : Engine W) (v : LuaValue) :
    (strip_violation_messages R e v).1.next_addr = e.next_addr := by
  unfold strip_violation_messages
  try dsimp only
  repeat' split
  all_goals simp [ACQUIRE_ENGINE_LOCK, RELEASE_ENGINE_LOCK, lua_settop0, get_registry, Engine.api, pcall,
    lua_gc_collect]

@[simp] theorem collect_if_needed_prev_string_result (R : Runtime W) (e : Engine W) :
    (collect_if_needed R e).prev_string_result = e.prev_string_result := by
  unfold collect_if_needed
  try dsimp only
  repeat' split
  all_goals simp [ACQUIRE_ENGINE_LOCK, RELEASE_ENGINE_LOCK, lua_settop0, get_registry, Engine.api, pcall,
    lua_gc_collect]

@[simp] theorem collect_if_needed_heap (R : Runtime W) (e : Engine W) :
    (collect_if_needed R e).heap = e.heap := by
  unfold collect_if_needed
  try dsimp only
  repeat' split
  all_goals simp [ACQUIRE_ENGINE_LOCK, RELEASE_ENGINE_LOCK, lua_settop0, get_registry, Engine.api, pcall,
    lua_gc_collect]

@[simp] theorem collect_if_needed_next_addr (R : Runtime W) (e : Engine W) :
    (collect_if_needed R e).next_addr = e.next_addr := by
  unfold collect_if_needed
  try dsimp only
  repeat' split
  all_goals simp [ACQUIRE_ENGINE_LOCK, RELEASE_ENGINE_LOCK, lua_settop0, get_registry, Engine.api, pcall,
    lua_gc_collect]

@[simp] theorem sanitize_and_encode_prev_string_result (R : Runtime W) (e : Engine W) (rs : List LuaValue) (m : str) :
    (sanitize_and_encode R e rs m).1.prev_string_result = e.prev_string_result := by
  unfold sanitize_and_encode
  try dsimp only
  repeat' split
  all_goals simp [ACQUIRE_ENGINE_LOCK, RELEASE_ENGINE_LOCK, lua_settop0, get_registry, Engine.api, pcall,
    lua_gc_collect]

@[simp] theorem sanitize_and_encode_heap (R : Runtime W) (e : Engine W) (rs : List LuaValue) (m : str) :
    (sanitize_and_encode R e rs m).1.heap = e.heap := by
  unfold sanitize_and_encode
  try dsimp only
  repeat' split
  all_goals simp [ACQUIRE_ENGINE_LOCK, RELEASE_ENGINE_LOCK, lua_settop0, get_registry, Engine.api, pcall,
    lua_gc_collect]

@[simp] theorem sanitize_and_encode_next_addr (R : Runtime W) (e : Engine W) (rs : List LuaValue) (m : str) :
    (sanitize_and_encode R e rs m).1.next_addr = e.next_addr := by
  unfold sanitize_and_encode
  try dsimp only
  repeat' split
  all_goals simp [ACQUIRE_ENGINE_LOCK, RELEASE_ENGINE_LOCK, lua_settop0, get_registry, Engine.api, pcall,
    lua_gc_collect]

theorem rosie_alloc_limit_cache (K : Consts) (R : Runtime W) (e : Engine W)
    (newlimit usage : Option Int) :
    SameCache e (rosie_alloc_limit K R e newlimit usage).1 := by
  unfold rosie_alloc_limit
  try dsimp only
  repeat' split
  all_goals simp [SameCache, ACQUIRE_ENGINE_LOCK, RELEASE_ENGINE_LOCK, lua_settop0, get_registry, Engine.api, pcall,
    lua_gc_collect]

theorem rosie_config_cache (R : Runtime W) (e : Engine W) :
    SameCache e (rosie_config R e).1 := by
  unfold rosie_config
  try dsimp only
  repeat' split
  all_goals simp [SameCache, ACQUIRE_ENGINE_LOCK, RELEASE_ENGINE_LOCK, lua_settop0, get_registry, Engine.api, pcall,
    lua_gc_collect]

theorem rosie_libpath_cache (R : Runtime W) (e : Engine W) (newpath : str) :
    SameCache e (rosie_libpath R e newpath).1 := by
  unfold rosie_libpath
  try dsimp only
  repeat' split
  all_goals simp [SameCache, ACQUIRE_ENGINE_LOCK, RELEASE_ENGINE_LOCK, lua_settop0, get_registry, Engine.api, pcall,
    lua_gc_collect]

theorem rosie_free_rplx_cache (e : Engine W) (pat : Int) :
    SameCache e (rosie_free_rplx e pat).1 := by
  simp [rosie_free_rplx, SameCache, ACQUIRE_ENGINE_LOCK, RELEASE_ENGINE_LOCK, lua_settop0, get_registry, Engine.api, pcall,
    lua_gc_collect]

theorem rosie_compile_cache (R : Runtime W) (e : Engine W) (x : Option str) (p : Option Int)
    (m : str) :
    SameCache e (rosie_compile R e x p m).1 := by
  unfold rosie_compile
  try dsimp only
  repeat' split
  all_goals simp [SameCache, ACQUIRE_ENGINE_LOCK, RELEASE_ENGINE_LOCK, lua_settop0, get_registry, Engine.api, pcall,
    lua_gc_collect]

theorem rosie_load_cache (R : Runtime W) (e : Engine W) (ok : Int) (src pkgname : str) :
    SameCache e (rosie_load R e ok src pkgname).1 := by
  unfold rosie_load
  try dsimp only
  repeat' split
  all_goals simp [SameCache, ACQUIRE_ENGINE_LOCK, RELEASE_ENGINE_LOCK, lua_settop0, get_registry, Engine.api, pcall,
    lua_gc_collect]

theorem rosie_loadfile_cache (R : Runtime W) (e : Engine W) (ok : Int) (fn pkgname m : str) :
    SameCache e (rosie_loadfile R e ok fn pkgname m).1 := by
  unfold rosie_loadfile
  try dsimp only
  repeat' split
  all_goals simp [SameCache, ACQUIRE_ENGINE_LOCK, RELEASE_ENGINE_LOCK, lua_settop0, get_registry, Engine.api, pcall,
    lua_gc_collect]

theorem rosie_import_cache (R : Runtime W) (e : Engine W) (ok : Int) (pkgname : str)
    (as : Option str) (actual m : str) :
    SameCache e (rosie_import R e ok pkgname as actual m).1 := by
  unfold rosie_import
  try dsimp only
  repeat' split
  all_goals simp [SameCache, ACQUIRE_ENGINE_LOCK, RELEASE_ENGINE_LOCK, lua_settop0, get_registry, Engine.api, pcall,
    lua_gc_collect]

theorem rosie_matchfile_cache (K : Consts) (R : Runtime W) (e : Engine W) (pat : Int)
    (encoder : Option String) (flag : Int) (f1 f2 f3 : Option String) (cin cout cerr : Int) :
    SameCache e (rosie_matchfile K R e pat encoder flag f1 f2 f3 cin cout cerr).1 := by
  unfold rosie_matchfile
  try dsimp only
  repeat' split
  all_goals simp [SameCache, ACQUIRE_ENGINE_LOCK, RELEASE_ENGINE_LOCK, lua_settop0, get_registry, Engine.api, pcall,
    lua_gc_collect]

theorem rosie_read_rcfile_cache (R : Runtime W) (e : Engine W) (filename : str) (fe : Int)
    (options : str) :
    SameCache e (rosie_read_rcfile R e filename fe options).1 := by
  unfold rosie_read_rcfile
  try dsimp only
  repeat' split
  all_goals simp [SameCache, ACQUIRE_ENGINE_LOCK, RELEASE_ENGINE_LOCK, lua_settop0, get_registry, Engine.api, pcall,
    lua_gc_collect]

theorem rosie_execute_rcfile_cache (R : Runtime W) (e : Engine W) (filename : str) (fe ne : Int) :
    SameCache e (rosie_execute_rcfile R e filename fe ne).1 := by
  unfold rosie_execute_rcfile
  try dsimp only
  repeat' split
  all_goals simp [SameCache, ACQUIRE_ENGINE_LOCK, RELEASE_ENGINE_LOCK, lua_settop0, get_registry, Engine.api, pcall,
    lua_gc_collect]

theorem rosie_trace_cache (K : Consts) (R : Runtime W) (e : Engine W) (pat start : Int)
    (style : Option String) (input : str) (matched : Int) (out : str)
    (r : Engine W × TraceResult)
    (hr : rosie_trace K R e pat start style input matched out = some r) :
    SameCache e r.1 := by
  unfold rosie_trace at hr
  try dsimp only at hr
  repeat' split at hr
  all_goals
    (cases hr <;>
      simp [SameCache, ACQUIRE_ENGINE_LOCK, RELEASE_ENGINE_LOCK, lua_settop0, get_registry,
        Engine.api, pcall])

theorem match_results_cache (R : Runtime W) (e : Engine W) (encoder : Int)
    (rs : List LuaValue) (m : Match) :
    (SameCache e (match_results R e encoder rs m).1
        ∧ (match_results R e encoder rs m).1.events = e.events)
      ∨ (∃ s, (match_results R e encoder rs m).1.prev_string_result
            = LuaValue.lightuserdata (e.next_addr + 1)
          ∧ (match_results R e encoder rs m).1.next_addr = e.next_addr + 1
          ∧ (match_results R e encoder rs m).1.heap
            = (e.next_addr + 1, rosie_new_string (some s)) :: (free_prev_string_result e).heap
          ∧ (match_results R e encoder rs m).1.events
            = Event.str_alloc (e.next_addr + 1) :: (free_prev_string_result e).events) := by
  unfold match_results
  try dsimp only
  split
  · left; simp [SameCache, RELEASE_ENGINE_LOCK, lua_settop0, Engine.api]
  · left; simp [SameCache, RELEASE_ENGINE_LOCK, lua_settop0, Engine.api]
  · left; simp [SameCache, RELEASE_ENGINE_LOCK, lua_settop0, Engine.api]
  · rename_i s _
    split
    · left; simp [SameCache, RELEASE_ENGINE_LOCK, lua_settop0, Engine.api]
    · right
      refine ⟨s, ?_⟩
      have h1 : (free_prev_string_result (get_registry e)).next_addr = e.next_addr := by
        unfold free_prev_string_result
        repeat' split
        all_goals simp [get_registry, Engine.api, rosie_free_string_ptr]
      have h2 : (free_prev_string_result (get_registry e)).heap
          = (free_prev_string_result e).heap := by
        unfold free_prev_string_result
        simp only [get_registry, Engine.api]
        repeat' split
        all_goals simp_all [rosie_free_string_ptr]
      have h3 : (free_prev_string_result (get_registry e)).events
          = (free_prev_string_result e).events := by
        unfold free_prev_string_result
        simp only [get_registry, Engine.api]
        repeat' split
        all_goals simp_all [rosie_free_string_ptr]
      simp [RELEASE_ENGINE_LOCK, lua_settop0, Engine.api, rosie_new_string_ptr, h1, h2, h3]
  · left; simp [SameCache, RELEASE_ENGINE_LOCK, lua_settop0, Engine.api]

theorem rosie_match_cases (K : Consts) (R : Runtime W) (e : Engine W) (pat start : Int)
    (enc : Option String) (input : str) (m : Match)
    (r : Engine W × Status × Match) (hr : rosie_match K R e pat start enc input m = some r) :
    ∃ e1, SameCache e e1
      ∧ (∀ ev, ev ≠ Event.collect → (∀ c, ev ≠ Event.call c) →
          e1.events.count ev = e.events.count ev)
      ∧ (r.1 = RELEASE_ENGINE_LOCK (lua_settop0 e1)
        ∨ ∃ code rs, r.1 = (match_results R e1 code rs m).1) := by
  unfold rosie_match at hr
  try dsimp only at hr
  repeat' split at hr
  all_goals cases hr
  all_goals
    first
    | refine ⟨_, ?_, ?_, Or.inl rfl⟩
    | refine ⟨_, ?_, ?_, Or.inr ⟨_, _, rfl⟩⟩
  all_goals
    first
    | (intro ev h1 h2
       simp [get_registry, Engine.api, pcall, List.count_cons, collect_if_needed_count,
        ACQUIRE_ENGINE_LOCK, h1, (h2 _).symm])
    | simp [SameCache, get_registry, Engine.api, pcall, ACQUIRE_ENGINE_LOCK]

theorem Engine.CacheInv.transfer {e e' : Engine W} (h : e.CacheInv) (hc : SameCache e e')
    (ha : ∀ a, e'.events.count (Event.str_alloc a) = e.events.count (Event.str_alloc a))
    (hf : ∀ a, e'.events.count (Event.str_free a) = e.events.count (Event.str_free a)) :
    e'.CacheInv := by
  obtain ⟨hp, hh, hn⟩ := hc
  unfold Engine.CacheInv at h ⊢
  simp only [hp, hh, hn, ha, hf]
  exact h

theorem Engine.CacheInv.fresh (w : W) : (Engine.init w).CacheInv := by
  simp [Engine.CacheInv, Engine.init]

theorem Engine.CacheInv.after_match_results {e : Engine W} (h : e.CacheInv) (R : Runtime W)
    (code : Int) (rs : List LuaValue) (m : Match) :
    (match_results R e code rs m).1.CacheInv := by
  rcases match_results_cache R e code rs m with ⟨hc, hev⟩ | ⟨s, hp, hn, hh, hev⟩
  · exact h.transfer hc (fun a => by rw [hev]) (fun a => by rw [hev])
  · obtain ⟨hfresh, huniq, hcase⟩ := h
    have hnew := hfresh (e.next_addr + 1) (by omega)
    rcases hcase with ⟨hnil, hheap, hfree⟩ | ⟨c, s0, hprev, hc0, hheap, hs0, hac, hfc, hrest⟩
    · have hfp : free_prev_string_result e = e := by simp [free_prev_string_result, hnil]
      rw [hfp] at hh hev
      refine ⟨?_, ?_, Or.inr ⟨e.next_addr + 1, rosie_new_string (some s), hp, by omega,
        by rw [hh, hheap], by simp [rosie_new_string], ?_, ?_, ?_⟩⟩
      · intro a ha
        rw [hev, hn] at *
        simp only [List.count_cons, beq_iff_eq, Event.str_alloc.injEq]
        rw [hfresh a (by omega), if_neg (by omega)]
      · intro a
        rw [hev]
        simp only [List.count_cons, beq_iff_eq, Event.str_alloc.injEq]
        split_ifs with hx
        · subst hx; omega
        · exact huniq a
      · rw [hev]
        simp [List.count_cons, hnew]
      · rw [hev]
        simp [List.count_cons, hfree, hnew]
      · intro a ha
        rw [hev]
        simp only [List.count_cons, beq_iff_eq, Event.str_alloc.injEq, reduceCtorEq, if_false,
          add_zero]
        rw [if_neg (fun hx => ha hx.symm), hfree a]
        rfl
    · have hfp : free_prev_string_result e = rosie_free_string_ptr c e := by
        simp [free_prev_string_result, hprev, hc0]
      have hcn : c ≠ e.next_addr + 1 := by
        intro hx
        rw [hx] at hac
        omega
      rw [hfp] at hh hev
      simp only [rosie_free_string_ptr, hheap] at hh hev
      refine ⟨?_, ?_, Or.inr ⟨e.next_addr + 1, rosie_new_string (some s), hp, by omega,
        by rw [hh]; simp, by simp [rosie_new_string], ?_, ?_, ?_⟩⟩
      · intro a ha
        rw [hev, hn] at *
        simp only [List.count_cons, beq_iff_eq, Event.str_alloc.injEq, reduceCtorEq, if_false,
          add_zero]
        rw [hfresh a (by omega), if_neg (by omega)]
      · intro a
        rw [hev]
        simp only [List.count_cons, beq_iff_eq, Event.str_alloc.injEq, reduceCtorEq, if_false,
          add_zero]
        split_ifs with hx
        · subst hx; omega
        · exact huniq a
      · rw [hev]
        simp [List.count_cons, hnew]
      · rw [hev]
        have h2 : ¬ (c = e.next_addr + 1) := hcn
        simp [List.count_cons, h2, hrest _ (Ne.symm hcn), hnew]
      · intro a ha
        rw [hev]
        have h1 : ¬ (e.next_addr + 1 = a) := fun hx => ha hx.symm
        by_cases hz : a = c
        · subst hz
          simp [List.count_cons, hfc, hac, h1]
        · have h2 : ¬ (c = a) := fun hx => hz hx.symm
          simp [List.count_cons, h1, h2, hrest a hz]

theorem Op.run_cacheInv (K : Consts) (R : Runtime W) (e e' : Engine W) (op : Op)
    (h : e.CacheInv) (hrun : op.run K R e = some e') : e'.CacheInv := by
  cases op with
  | alloc_limit newlimit usage =>
    simp only [Op.run, Option.some.injEq] at hrun
    subst hrun
    exact h.transfer (rosie_alloc_limit_cache K R e newlimit usage)
      (fun a => by simp [rosie_alloc_limit_events, List.count_cons])
      (fun a => by simp [rosie_alloc_limit_events, List.count_cons])
  | config =>
    simp only [Op.run, Option.some.injEq] at hrun
    subst hrun
    exact h.transfer (rosie_config_cache R e)
      (fun a => rosie_config_count R e _ (by simp) (by simp))
      (fun a => rosie_config_count R e _ (by simp) (by simp))
  | libpath newpath =>
    simp only [Op.run, Option.some.injEq] at hrun
    subst hrun
    exact h.transfer (rosie_libpath_cache R e newpath)
      (fun a => rosie_libpath_count R e newpath _ (by simp) (by simp))
      (fun a => rosie_libpath_count R e newpath _ (by simp) (by simp))
  | free_rplx pat =>
    simp only [Op.run, Option.some.injEq] at hrun
    subst hrun
    exact h.transfer (rosie_free_rplx_cache e pat)
      (fun a => by rw [rosie_free_rplx_events]) (fun a => by rw [rosie_free_rplx_events])
  | compile x p m =>
    simp only [Op.run, Option.some.injEq] at hrun
    subst hrun
    exact h.transfer (rosie_compile_cache R e x p m)
      (fun a => rosie_compile_count R e x p m _ (by simp) (by simp))
      (fun a => rosie_compile_count R e x p m _ (by simp) (by simp))
  | rmatch pat start enc input m =>
    simp only [Op.run, Option.map_eq_some'] at hrun
    obtain ⟨r, hr, rfl⟩ := hrun
    obtain ⟨e1, hc, hcount, hr1 | ⟨code, rs, hr1⟩⟩ :=
      rosie_match_cases K R e pat start enc input m r hr
    all_goals
      have h1 : e1.CacheInv := h.transfer hc (fun a => hcount _ (by simp) (by simp))
        (fun a => hcount _ (by simp) (by simp))
    · rw [hr1]
      exact h1.transfer (by simp [SameCache, RELEASE_ENGINE_LOCK, lua_settop0, Engine.api])
        (fun a => by simp [RELEASE_ENGINE_LOCK, lua_settop0, Engine.api])
        (fun a => by simp [RELEASE_ENGINE_LOCK, lua_settop0, Engine.api])
    · rw [hr1]
      exact h1.after_match_results R code rs m
  | trace pat start style input matched out =>
    simp only [Op.run, Option.map_eq_some'] at hrun
    obtain ⟨r, hr, rfl⟩ := hrun
    exact h.transfer (rosie_trace_cache K R e pat start style input matched out r hr)
      (fun a => (rosie_trace_count K R e pat start style input matched out r hr _ (by simp)
        (by simp)).trans (collect_if_needed_count R e _ (by simp)))
      (fun a => (rosie_trace_count K R e pat start style input matched out r hr _ (by simp)
        (by simp)).trans (collect_if_needed_count R e _ (by simp)))
  | load ok src pkgname =>
    simp only [Op.run, Option.some.injEq] at hrun
    subst hrun
    exact h.transfer (rosie_load_cache R e ok src pkgname)
      (fun a => rosie_load_count R e ok src pkgname _ (by simp) (by simp))
      (fun a => rosie_load_count R e ok src pkgname _ (by simp) (by simp))
  | loadfile ok fn pkgname m =>
    simp only [Op.run, Option.some.injEq] at hrun
    subst hrun
    exact h.transfer (rosie_loadfile_cache R e ok fn pkgname m)
      (fun a => rosie_loadfile_count R e ok fn pkgname m _ (by simp) (by simp) (by simp))
      (fun a => rosie_loadfile_count R e ok fn pkgname m _ (by simp) (by simp) (by simp))
  | importpkg ok pkgname as actual m =>
    simp only [Op.run, Option.some.injEq] at hrun
    subst hrun
    exact h.transfer (rosie_import_cache R e ok pkgname as actual m)
      (fun a => rosie_import_count R e ok pkgname as actual m _ (by simp) (by simp) (by simp))
      (fun a => rosie_import_count R e ok pkgname as actual m _ (by simp) (by simp) (by simp))
  | matchfile pat encoder flag f1 f2 f3 cin cout cerr =>
    simp only [Op.run, Option.some.injEq] at hrun
    subst hrun
    exact h.transfer (rosie_matchfile_cache K R e pat encoder flag f1 f2 f3 cin cout cerr)
      (fun a => (rosie_matchfile_count K R e pat encoder flag f1 f2 f3 cin cout cerr _
        (by simp)).trans (collect_if_needed_count R e _ (by simp)))
      (fun a => (rosie_matchfile_count K R e pat encoder flag f1 f2 f3 cin cout cerr _
        (by simp)).trans (collect_if_needed_count R e _ (by simp)))
  | read_rcfile filename fe options =>
    simp only [Op.run, Option.some.injEq] at hrun
    subst hrun
    exact h.transfer (rosie_read_rcfile_cache R e filename fe options)
      (fun a => rosie_read_rcfile_count R e filename fe options _ (by simp) (by simp))
      (fun a => rosie_read_rcfile_count R e filename fe options _ (by simp) (by simp))
  | execute_rcfile filename fe ne =>
    simp only [Op.run, Option.some.injEq] at hrun
    subst hrun
    exact h.transfer (rosie_execute_rcfile_cache R e filename fe ne)
      (fun a => rosie_execute_rcfile_count R e filename fe ne _ (by simp))
      (fun a => rosie_execute_rcfile_count R e filename fe ne _ (by simp))

theorem Op.runAll_cacheInv (K : Consts) (R : Runtime W) :
    ∀ (ops : List Op) (e e' : Engine W), e.CacheInv → Op.runAll K R e ops = some e' →
      e'.CacheInv := by
  intro ops
  induction ops with
  | nil =>
    intro e e' h hrun
    simp only [Op.runAll, Option.some.injEq] at hrun
    exact hrun ▸ h
  | cons op rest ih =>
    intro e e' h hrun
    simp only [Op.runAll, Option.bind_eq_some] at hrun
    obtain ⟨e1, h1, h2⟩ := hrun
    exact ih e1 e' (Op.run_cacheInv K R e e1 op h h1) h2

theorem free_prev_string_result_free_count (e : Engine W) (h : e.CacheInv) (a : Nat) :
    (free_prev_string_result e).events.count (Event.str_free a)
      = e.events.count (Event.str_free a)
        + if e.prev_string_result = LuaValue.lightuserdata a then 1 else 0 := by
  obtain ⟨-, -, ⟨hnil, -, -⟩ | ⟨c, s0, hprev, hc0, -, -, -, -, -⟩⟩ := h
  · simp [free_prev_string_result, hnil]
  · simp [free_prev_string_result, hprev, hc0, rosie_free_string_ptr, List.count_cons]

theorem rosie_match_cache_step (K : Consts) (R : Runtime W) (e : Engine W) (pat start : Int)
    (enc : Option String) (input : str) (m : Match) (h : e.CacheInv)
    (r : Engine W × Status × Match) (hr : rosie_match K R e pat start enc input m = some r) :
    (r.1.prev_string_result = e.prev_string_result
        ∧ ∀ a, r.1.events.count (Event.str_free a) = e.events.count (Event.str_free a))
      ∨ (∃ tail, r.1.events = Event.str_alloc (e.next_addr + 1) :: tail
          ∧ r.1.prev_string_result = LuaValue.lightuserdata (e.next_addr + 1)
          ∧ ∀ a, tail.count (Event.str_free a) = e.events.count (Event.str_free a)
              + if e.prev_string_result = LuaValue.lightuserdata a then 1 else 0) := by
  obtain ⟨e1, hc, hcount, hr1 | ⟨code, rs, hr1⟩⟩ :=
    rosie_match_cases K R e pat start enc input m r hr
  · left
    rw [hr1]
    refine ⟨by simp [RELEASE_ENGINE_LOCK, lua_settop0, Engine.api, hc.1], fun a => ?_⟩
    simpa [RELEASE_ENGINE_LOCK, lua_settop0, Engine.api] using hcount _ (by simp) (by simp)
  · have h1 : e1.CacheInv := h.transfer hc (fun a => hcount _ (by simp) (by simp))
      (fun a => hcount _ (by simp) (by simp))
    rw [hr1]
    rcases match_results_cache R e1 code rs m with ⟨hs, hev⟩ | ⟨s, hp, hn, hh, hev⟩
    · left
      exact ⟨hs.1.trans hc.1, fun a => by rw [hev]; exact hcount _ (by simp) (by simp)⟩
    · right
      refine ⟨_, by rw [hev, hc.2.2], by rw [hp, hc.2.2], fun a => ?_⟩
      rw [free_prev_string_result_free_count e1 h1 a, hc.1, hcount _ (by simp) (by simp)]


theorem Op.run_cache_step (K : Consts) (R : Runtime W) (e e' : Engine W) (op : Op)
    (h : e.CacheInv) (hrun : op.run K R e = some e') :
    (e'.prev_string_result = e.prev_string_result
        ∧ ∀ a, e'.events.count (Event.str_free a) = e.events.count (Event.str_free a))
      ∨ ((∃ pat start enc input m, op = Op.rmatch pat start enc input m)
        ∧ ∃ tail, e'.events = Event.str_alloc (e.next_addr + 1) :: tail
          ∧ e'.prev_string_result = LuaValue.lightuserdata (e.next_addr + 1)
          ∧ ∀ a, tail.count (Event.str_free a) = e.events.count (Event.str_free a)
              + if e.prev_string_result = LuaValue.lightuserdata a then 1 else 0) := by
  cases op with
  | alloc_limit newlimit usage =>
    simp only [Op.run, Option.some.injEq] at hrun
    subst hrun
    exact Or.inl ⟨(rosie_alloc_limit_cache K R e newlimit usage).1, fun a => by simp [rosie_alloc_limit_events, List.count_cons]⟩
  | config =>
    simp only [Op.run, Option.some.injEq] at hrun
    subst hrun
    exact Or.inl ⟨(rosie_config_cache R e).1, fun a => rosie_config_count R e _ (by simp) (by simp)⟩
  | libpath newpath =>
    simp only [Op.run, Option.some.injEq] at hrun
    subst hrun
    exact Or.inl ⟨(rosie_libpath_cache R e newpath).1, fun a => rosie_libpath_count R e newpath _ (by simp) (by simp)⟩
  | free_rplx pat =>
    simp only [Op.run, Option.some.injEq] at hrun
    subst hrun
    exact Or.inl ⟨(rosie_free_rplx_cache e pat).1, fun a => by rw [rosie_free_rplx_events]⟩
  | compile x p m =>
    simp only [Op.run, Option.some.injEq] at hrun
    subst hrun
    exact Or.inl ⟨(rosie_compile_cache R e x p m).1, fun a => rosie_compile_count R e x p m _ (by simp) (by simp)⟩
  | rmatch pat start enc input m =>
    simp only [Op.run, Option.map_eq_some'] at hrun
    obtain ⟨r, hr, rfl⟩ := hrun
    rcases rosie_match_cache_step K R e pat start enc input m h r hr with hl | hr'
    · exact Or.inl hl
    · exact Or.inr ⟨⟨pat, start, enc, input, m, rfl⟩, hr'⟩
  | trace pat start style input matched out =>
    simp only [Op.run, Option.map_eq_some'] at hrun
    obtain ⟨r, hr, rfl⟩ := hrun
    exact Or.inl ⟨(rosie_trace_cache K R e pat start style input matched out r hr).1,
      fun a => (rosie_trace_count K R e pat start style input matched out r hr _ (by simp)
        (by simp)).trans (collect_if_needed_count R e _ (by simp))⟩
  | load ok src pkgname =>
    simp only [Op.run, Option.some.injEq] at hrun
    subst hrun
    exact Or.inl ⟨(rosie_load_cache R e ok src pkgname).1, fun a => rosie_load_count R e ok src pkgname _ (by simp) (by simp)⟩
  | loadfile ok fn pkgname m =>
    simp only [Op.run, Option.some.injEq] at hrun
    subst hrun
    exact Or.inl ⟨(rosie_loadfile_cache R e ok fn pkgname m).1, fun a => rosie_loadfile_count R e ok fn pkgname m _ (by simp) (by simp) (by simp)⟩
  | importpkg ok pkgname as actual m =>
    simp only [Op.run, Option.some.injEq] at hrun
    subst hrun
    exact Or.inl ⟨(rosie_import_cache R e ok pkgname as actual m).1, fun a => rosie_import_count R e ok pkgname as actual m _ (by simp) (by simp) (by simp)⟩
  | matchfile pat encoder flag f1 f2 f3 cin cout cerr =>
    simp only [Op.run, Option.some.injEq] at hrun
    subst hrun
    exact Or.inl ⟨(rosie_matchfile_cache K R e pat encoder flag f1 f2 f3 cin cout cerr).1, fun a => (rosie_matchfile_count K R e pat encoder flag f1 f2 f3 cin cout cerr _
        (by simp)).trans (collect_if_needed_count R e _ (by simp))⟩
  | read_rcfile filename fe options =>
    simp only [Op.run, Option.some.injEq] at hrun
    subst hrun
    exact Or.inl ⟨(rosie_read_rcfile_cache R e filename fe options).1, fun a => rosie_read_rcfile_count R e filename fe options _ (by simp) (by simp)⟩
  | execute_rcfile filename fe ne =>
    simp only [Op.run, Option.some.injEq] at hrun
    subst hrun
    exact Or.inl ⟨(rosie_execute_rcfile_cache R e filename fe ne).1, fun a => rosie_execute_rcfile_count R e filename fe ne _ (by simp)⟩

theorem rosie_finalize_cache (e : Engine W) (h : e.CacheInv) :
    (rosie_finalize e).heap = []
      ∧ (∀ a, (rosie_finalize e).events.count (Event.str_alloc a)
          = e.events.count (Event.str_alloc a))
      ∧ (∀ a, (rosie_finalize e).events.count (Event.str_free a)
          = e.events.count (Event.str_alloc a)) := by
  obtain ⟨-, -, ⟨hnil, hheap, hfree⟩ | ⟨c, s0, hprev, hc0, hheap, hs0, hac, hfc, hrest⟩⟩ := h
  · simp [rosie_finalize, finalize_string_result, get_registry, Engine.api,
      ACQUIRE_ENGINE_LOCK, hnil, hheap, hfree]
  · refine ⟨?_, ?_, ?_⟩
    · simp [rosie_finalize, finalize_string_result, get_registry, Engine.api,
        ACQUIRE_ENGINE_LOCK, hprev, hheap, hs0, rosie_free_string_ptr, List.lookup]
    · intro a
      simp [rosie_finalize, finalize_string_result, get_registry, Engine.api,
        ACQUIRE_ENGINE_LOCK, hprev, hheap, hs0, rosie_free_string_ptr, List.lookup,
        List.count_cons]
    · intro a
      by_cases hz : a = c
      · subst hz
        simp [rosie_finalize, finalize_string_result, get_registry, Engine.api,
          ACQUIRE_ENGINE_LOCK, hprev, hheap, hs0, rosie_free_string_ptr, List.lookup,
          List.count_cons, hfc, hac]
      · have h2 : ¬ (c = a) := fun hx => hz hx.symm
        simp [rosie_finalize, finalize_string_result, get_registry, Engine.api,
          ACQUIRE_ENGINE_LOCK, hprev, hheap, hs0, rosie_free_string_ptr, List.lookup,
          List.count_cons, h2, hrest a hz]

/-! ### Encoder names -/

theorem cstring_not_mem_NUL (s : String) : NUL ∉ cstring s := by
  unfold cstring
  intro h
  have := List.mem_takeWhile_imp h
  simp at this

theorem strncmp_eq_iff (a b : String) (n : Nat) (h : strlen b < n) :
    strncmp_eq a b n = true ↔ cstring a = cstring b := by
  unfold strncmp_eq
  unfold strlen at h
  rw [beq_iff_eq]
  have hb : (cstring b ++ [NUL]).take n = cstring b ++ [NUL] :=
    List.take_of_length_le (by simp only [List.length_append, List.length_singleton]; omega)
  rw [hb]
  constructor
  · intro heq
    by_cases hl : (cstring a).length < n
    · rw [List.take_of_length_le
        (by simp only [List.length_append, List.length_singleton]; omega)] at heq
      exact List.append_cancel_right heq
    · rw [List.take_append_of_le_length (by omega)] at heq
      have hmem : NUL ∈ (cstring a).take n := by
        rw [heq]
        simp
      exact absurd (List.mem_of_mem_take hmem) (cstring_not_mem_NUL a)
  · intro heq
    rw [heq, hb]

theorem encoder_lookup_eq (n : Nat) (name : String) :
    ∀ (l : List (String × Int)), (∀ p ∈ l, strlen p.1 < n) →
      encoder_lookup n name l
        = ((l.find? (fun p => decide (cstring p.1 = cstring name))).map Prod.snd).getD 0 := by
  intro l
  induction l with
  | nil => intro _; rfl
  | cons p rest ih =>
    intro hlen
    obtain ⟨entry_name, code⟩ := p
    have hiff := strncmp_eq_iff name entry_name n (hlen (entry_name, code) (by simp))
    have ih' := ih (fun q hq => hlen q (List.mem_cons_of_mem _ hq))
    by_cases hn : cstring name = cstring entry_name
    · have hs : strncmp_eq name entry_name n = true := hiff.mpr hn
      simp [encoder_lookup, hs, List.find?, hn]
    · have hs : strncmp_eq name entry_name n = false := by
        cases hx : strncmp_eq name entry_name n
        · rfl
        · exact absurd (hiff.mp hx) hn
      have hn' : ¬ cstring entry_name = cstring name := fun hx => hn hx.symm
      simp [encoder_lookup, hs, hn', List.find?, ih']

theorem rosie_match_path (K : Consts) (R : Runtime W) (e : Engine W) (pat start : Int)
    (encoder_name : Option String) (input : str) (m : Match) (code : Int)
    (hp : pat ≠ 0) (ht : (e.rplx_table.get pat).istable = true)
    (henc : encoder_name_to_code K encoder_name = some code) :
    (rosie_match K R e pat start encoder_name input m = none
        ↔ match_call R (collect_if_needed R e).L (e.rplx_table.get pat) input start
            encoder_name code = none)
      ∧ ∀ r, rosie_match K R e pat start encoder_name input m = some r →
        r.1.events.count (Event.call Cap.r_match_C)
          = e.events.count (Event.call Cap.r_match_C) + (if code = 0 then 0 else 1)
        ∧ r.1.events.count (Event.call Cap.Cmatch)
          = e.events.count (Event.call Cap.Cmatch) + (if code = 0 then 1 else 0) := by
  rw [rosie_match_resolved K R e pat start encoder_name input m code hp ht henc]
  have hbase : ∀ ev, ev ≠ Event.collect →
      (collect_if_needed R (ACQUIRE_ENGINE_LOCK e)).events.count ev = e.events.count ev := by
    intro ev hev
    rw [collect_if_needed_acquire_events, collect_if_needed_count R e ev hev]
  cases hcall : match_call R (collect_if_needed R e).L (e.rplx_table.get pat) input start
      encoder_name code with
  | none => simp
  | some o =>
    dsimp only
    cases hres : o.results with
    | none =>
      dsimp only
      refine ⟨by simp, ?_⟩
      intro r hr
      cases hr
      constructor <;>
        by_cases hc : code = 0 <;>
        simp [RELEASE_ENGINE_LOCK, lua_settop0, get_registry, Engine.api, pcall, List.count_cons,
          hbase, hc]
    | some rs =>
      dsimp only
      refine ⟨by simp, ?_⟩
      intro r hr
      cases hr
      constructor <;>
        by_cases hc : code = 0 <;>
        simp [match_results_count, get_registry, Engine.api, pcall, List.count_cons, hbase, hc]

theorem match_call_interpreted (R : Runtime W) (w : W) (rplx : LuaValue) (input : str)
    (start : Int) (encoder_name : Option String) :
    match_call R w rplx input start encoder_name 0
      = some (R.Cmatch w rplx input start encoder_name) := by
  simp [match_call]

theorem match_call_native (R : Runtime W) (w : W) (rplx : LuaValue) (input : str)
    (start : Int) (encoder_name : Option String) (code : Int) (hc : code ≠ 0) :
    match_call R w rplx input start encoder_name code
      = ((R.getfield w rplx "pattern").bind (fun pattern => R.getfield w pattern "peg")).map
          (fun peg => R.r_match_C w peg input start code) := by
  simp only [match_call, hc, if_false]
  cases R.getfield w rplx "pattern" with
  | none => rfl
  | some pattern =>
    simp only [Option.some_bind]
    cases R.getfield w pattern "peg" <;> rfl

/-! ### Status codes -/

theorem rosie_alloc_limit_status (K : Consts) (R : Runtime W) (e : Engine W)
    (newlimit usage : Option Int) :
    (rosie_alloc_limit K R e newlimit usage).2.status = Status.SUCCESS
      ∨ (rosie_alloc_limit K R e newlimit usage).2.status = Status.ERR_ENGINE_CALL_FAILED := by
  unfold rosie_alloc_limit
  try dsimp only
  repeat' split
  all_goals simp

theorem rosie_config_status (R : Runtime W) (e : Engine W) :
    (rosie_config R e).2.1 = Status.SUCCESS
      ∨ (rosie_config R e).2.1 = Status.ERR_ENGINE_CALL_FAILED := by
  unfold rosie_config
  try dsimp only
  repeat' split
  all_goals simp

theorem rosie_libpath_status (R : Runtime W) (e : Engine W) (newpath : str) :
    (rosie_libpath R e newpath).2.1 = Status.SUCCESS
      ∨ (rosie_libpath R e newpath).2.1 = Status.ERR_ENGINE_CALL_FAILED := by
  unfold rosie_libpath
  try dsimp only
  repeat' split
  all_goals simp

theorem rosie_compile_status (R : Runtime W) (e : Engine W) (x : Option str) (p : Option Int)
    (m : str) :
    (rosie_compile R e x p m).2.status = Status.SUCCESS
      ∨ (rosie_compile R e x p m).2.status = Status.ERR_ENGINE_CALL_FAILED := by
  unfold rosie_compile
  try dsimp only
  repeat' split
  all_goals simp

theorem rosie_load_status (R : Runtime W) (e : Engine W) (ok : Int) (src pkgname : str) :
    (rosie_load R e ok src pkgname).2.status = Status.SUCCESS
      ∨ (rosie_load R e ok src pkgname).2.status = Status.ERR_ENGINE_CALL_FAILED := by
  unfold rosie_load
  try dsimp only
  repeat' split
  all_goals simp

theorem sanitize_and_encode_status (R : Runtime W) (e : Engine W) (rs : List LuaValue) (m : str) :
    (sanitize_and_encode R e rs m).2.status = Status.SUCCESS
      ∨ (sanitize_and_encode R e rs m).2.status = Status.ERR_ENGINE_CALL_FAILED := by
  unfold sanitize_and_encode
  try dsimp only
  repeat' split
  all_goals simp

theorem rosie_loadfile_status (R : Runtime W) (e : Engine W) (ok : Int) (fn pkgname m : str) :
    (rosie_loadfile R e ok fn pkgname m).2.status = Status.SUCCESS
      ∨ (rosie_loadfile R e ok fn pkgname m).2.status = Status.ERR_ENGINE_CALL_FAILED := by
  unfold rosie_loadfile
  try dsimp only
  repeat' split
  all_goals simp [sanitize_and_encode_status]

theorem rosie_import_status (R : Runtime W) (e : Engine W) (ok : Int) (pkgname : str)
    (as : Option str) (actual m : str) :
    (rosie_import R e ok pkgname as actual m).2.status = Status.SUCCESS
      ∨ (rosie_import R e ok pkgname as actual m).2.status = Status.ERR_ENGINE_CALL_FAILED := by
  unfold rosie_import
  try dsimp only
  repeat' split
  all_goals simp [sanitize_and_encode_status]

theorem rosie_matchfile_status (K : Consts) (R : Runtime W) (e : Engine W) (pat : Int)
    (encoder : Option String) (flag : Int) (f1 f2 f3 : Option String) (cin cout cerr : Int) :
    (rosie_matchfile K R e pat encoder flag f1 f2 f3 cin cout cerr).2.status = Status.SUCCESS
      ∨ (rosie_matchfile K R e pat encoder flag f1 f2 f3 cin cout cerr).2.status = Status.ERR_ENGINE_CALL_FAILED := by
  unfold rosie_matchfile
  try dsimp only
  repeat' split
  all_goals simp

theorem rosie_read_rcfile_status (R : Runtime W) (e : Engine W) (filename : str) (fe : Int)
    (options : str) :
    (rosie_read_rcfile R e filename fe options).2.status = Status.SUCCESS
      ∨ (rosie_read_rcfile R e filename fe options).2.status = Status.ERR_ENGINE_CALL_FAILED := by
  unfold rosie_read_rcfile
  try dsimp only
  repeat' split
  all_goals simp

theorem rosie_execute_rcfile_status (R : Runtime W) (e : Engine W) (filename : str) (fe ne : Int) :
    (rosie_execute_rcfile R e filename fe ne).2.status = Status.SUCCESS
      ∨ (rosie_execute_rcfile R e filename fe ne).2.status = Status.ERR_ENGINE_CALL_FAILED := by
  unfold rosie_execute_rcfile
  try dsimp only
  repeat' split
  all_goals simp

theorem match_results_status (R : Runtime W) (e : Engine W) (encoder : Int) (rs : List LuaValue)
    (m : Match) :
    (match_results R e encoder rs m).2.1 = Status.SUCCESS
      ∨ (match_results R e encoder rs m).2.1 = Status.ERR_ENGINE_CALL_FAILED := by
  unfold match_results
  try dsimp only
  repeat' split
  all_goals simp

theorem rosie_match_status (K : Consts) (R : Runtime W) (e : Engine W) (pat start : Int)
    (enc : Option String) (input : str) (m : Match)
    (r : Engine W × Status × Match) (hr : rosie_match K R e pat start enc input m = some r) :
    r.2.1 = Status.SUCCESS ∨ r.2.1 = Status.ERR_ENGINE_CALL_FAILED := by
  unfold rosie_match at hr
  try dsimp only at hr
  repeat' split at hr
  all_goals (cases hr <;> simp [match_results_status])

theorem rosie_trace_status (K : Consts) (R : Runtime W) (e : Engine W) (pat start : Int)
    (style : Option String) (input : str) (matched : Int) (out : str)
    (r : Engine W × TraceResult)
    (hr : rosie_trace K R e pat start style input matched out = some r) :
    r.2.status = Status.SUCCESS ∨ r.2.status = Status.ERR_ENGINE_CALL_FAILED := by
  unfold rosie_trace at hr
  try dsimp only at hr
  repeat' split at hr
  all_goals (cases hr <;> simp)

/-! ### Failure of `rosie_compile` -/

theorem rosie_compile_unaccepted (R : Runtime W) (e : Engine W) (x : Option str)
    (p : Option Int) (m : str)
    (h : ¬ ∃ p0 xs rs, p = some p0 ∧ x = some xs ∧ (R.compile e.L xs.bytes).results = some rs
      ∧ (nth rs 0).toboolean = true) :
    (rosie_compile R e x p m).2.pat = p.map (fun _ => 0)
      ∧ (rosie_compile R e x p m).1.rplx_table = e.rplx_table := by
  cases p with
  | none => simp [rosie_compile, RELEASE_ENGINE_LOCK, lua_settop0, Engine.api, ACQUIRE_ENGINE_LOCK]
  | some p0 =>
    cases x with
    | none =>
      simp [rosie_compile, RELEASE_ENGINE_LOCK, lua_settop0, Engine.api, ACQUIRE_ENGINE_LOCK]
    | some xs =>
      cases hc : (R.compile e.L xs.bytes).results with
      | none =>
        simp [rosie_compile, RELEASE_ENGINE_LOCK, lua_settop0, Engine.api, get_registry,
          ACQUIRE_ENGINE_LOCK, pcall, hc]
      | some rs =>
        have hb : (nth rs 0).toboolean = false := by
          cases hb : (nth rs 0).toboolean
          · rfl
          · exact absurd ⟨p0, xs, rs, rfl, rfl, hc, hb⟩ h
        simp only [rosie_compile, get_registry_L, ACQUIRE_ENGINE_LOCK_L, hc, hb, Bool.not_false,
          if_true]
        split_ifs <;> simp [RELEASE_ENGINE_LOCK, lua_settop0, Engine.api, get_registry,
          ACQUIRE_ENGINE_LOCK, pcall]

theorem rosie_compile_accepted_failure (R : Runtime W) (e : Engine W) (xs : str) (p0 : Int)
    (m : str) (rs : List LuaValue) (hc : (R.compile e.L xs.bytes).results = some rs)
    (hb : (nth rs 0).toboolean = true)
    (hs : (rosie_compile R e (some xs) (some p0) m).2.status ≠ Status.SUCCESS) :
    (rosie_compile R e (some xs) (some p0) m).2.pat
        = some (luaL_ref R e.rplx_table (nth rs 0)).2
      ∧ (rosie_compile R e (some xs) (some p0) m).1.rplx_table
        = (luaL_ref R e.rplx_table (nth rs 0)).1
      ∧ ((luaL_ref R e.rplx_table (nth rs 0)).2 = LUA_REFNIL
        ∨ (to_json_string R { e with L := (R.compile e.L xs.bytes).state } (nth rs 1)).2.1
          ≠ Status.SUCCESS) := by
  simp only [rosie_compile, get_registry_L, ACQUIRE_ENGINE_LOCK_L, hc, hb, Bool.not_true,
    Bool.false_eq_true, if_false] at hs ⊢
  split_ifs at hs ⊢ with h1 h2
  · exact ⟨rfl, by simp [RELEASE_ENGINE_LOCK, lua_settop0, Engine.api, get_registry,
      ACQUIRE_ENGINE_LOCK, pcall], Or.inl h1⟩
  · refine ⟨rfl, by simp [RELEASE_ENGINE_LOCK, lua_settop0, Engine.api, get_registry,
      ACQUIRE_ENGINE_LOCK, pcall], Or.inr ?_⟩
    rw [to_json_string_snd_congr R _ _ (nth rs 1) ?_]
    · exact h2
    · rfl
  · exact absurd rfl hs

/-! ### The message buffer of `boot` -/

theorem Block.store_malloc (size : Nat) (data : List Char) :
    ((malloc size).store 0 data).cells = data.map some := by
  simp [Block.store, malloc]

theorem Block.store_after (b : Block) (a data : List Char) (z : Char)
    (hb : b.cells = (a ++ [z]).map some) (hd : 1 ≤ data.length) :
    (b.store a.length data).cells = (a ++ data).map some := by
  have hlen : b.cells.length = a.length + 1 := by simp [hb]
  have htake : (b.cells ++ List.replicate (a.length + data.length - b.cells.length) none).take
      a.length = a.map some := by
    rw [hb, List.map_append, List.append_assoc]
    exact List.take_left' (by simp)
  have hdrop : (b.cells ++ List.replicate (a.length + data.length - b.cells.length) none).drop
      (a.length + data.length) = [] := by
    apply List.drop_of_length_le
    simp only [List.length_append, List.length_replicate, hlen]
    omega
  simp only [Block.store, htake, hdrop, List.append_nil, List.map_append]

theorem Block.eq_mk (b : Block) (size : Nat) (cells : List (Option Char))
    (hs : b.size = size) (hc : b.cells = cells) : b = ⟨size, cells⟩ := by
  cases b
  simp_all

theorem stpncpy_stpcpy_malloc (intro text : String) (size n : Nat)
    (hintro : cstring intro = intro.data) (hn : 1 ≤ n) :
    (stpncpy (stpcpy (malloc size) 0 intro).1 (stpcpy (malloc size) 0 intro).2 text n).1
      = ⟨size, ((intro.data ++ (cstring text).take n)
          ++ List.replicate (n - strlen text) NUL).map some⟩ := by
  have hd : 1 ≤ ((cstring text).take n ++ List.replicate (n - strlen text) NUL).length := by
    simp only [List.length_append, List.length_take, List.length_replicate, strlen]
    omega
  have h2 := Block.store_after ((malloc size).store 0 (intro.data ++ [NUL])) intro.data
    ((cstring text).take n ++ List.replicate (n - strlen text) NUL) NUL
    (Block.store_malloc size _) hd
  apply Block.eq_mk
  · rfl
  · have hs : strlen intro = intro.data.length := by rw [strlen, hintro]
    simp only [stpncpy, stpcpy, hs, hintro, Nat.zero_add]
    rw [h2, List.append_assoc]

theorem cstring_intro :
    cstring "execution of rosie boot loader failed:\n"
      = "execution of rosie boot loader failed:\n".data := by
  decide

theorem strlen_intro : strlen "execution of rosie boot loader failed:\n" = 39 := by
  decide

theorem boot_failure_message_string (text : String) :
    boot_failure_message (LuaValue.string text)
      = some (⟨40 + min (strlen text) 1000,
            (("execution of rosie boot loader failed:\n".data ++ (cstring text).take 961)
              ++ List.replicate (961 - strlen text) NUL).map some⟩,
          ⟨some (String.mk (Block.cstring ⟨40 + min (strlen text) 1000,
            (("execution of rosie boot loader failed:\n".data ++ (cstring text).take 961)
              ++ List.replicate (961 - strlen text) NUL).map some⟩)),
            (text.length : Int) + 39⟩) := by
  have hfill := stpncpy_stpcpy_malloc "execution of rosie boot loader failed:\n" text
    (strlen "execution of rosie boot loader failed:\n" + strnlen text 1000 + 1)
    (1000 - strlen "execution of rosie boot loader failed:\n") cstring_intro
    (by rw [strlen_intro]; omega)
  have hsize : strlen "execution of rosie boot loader failed:\n" + strnlen text 1000 + 1
      = 40 + min (strlen text) 1000 := by
    rw [strlen_intro, strnlen]
    omega
  have hn : 1000 - strlen "execution of rosie boot loader failed:\n" = 961 := by
    rw [strlen_intro]
  rw [hsize, hn] at hfill
  show some (_, rosie_string_from _ _) = _
  rw [hsize, hn, hfill, strlen_intro]
  rfl

theorem Block.cstring_padded (size : Nat) (a : List Char) (k : Nat)
    (ha : ∀ c ∈ a, c ≠ NUL) (hk : 1 ≤ k) :
    Block.cstring ⟨size, (a ++ List.replicate k NUL).map some⟩ = a := by
  obtain ⟨j, rfl⟩ : ∃ j, k = j + 1 := ⟨k - 1, by omega⟩
  unfold Block.cstring
  induction a with
  | nil => simp [List.replicate_succ, List.takeWhile]
  | cons c rest ih =>
    have hc : c ≠ NUL := ha c (by simp)
    have ih' := ih (fun x hx => ha x (List.mem_cons_of_mem _ hx))
    simp only [List.cons_append, List.map_cons, List.takeWhile_cons, Option.isSome_some,
      Bool.true_and, bne_iff_ne, ne_eq, Option.some.injEq, hc, not_false_eq_true, if_true,
      List.filterMap_cons, id]
    simpa using ih'

theorem cstring_eq_data_iff (s : String) : cstring s = s.data ↔ ∀ c ∈ s.data, c ≠ NUL := by
  unfold cstring
  rw [List.takeWhile_eq_self_iff]
  simp

/-! ### Operations that leave the pattern table alone -/

theorem match_results_rplx_table (R : Runtime W) (e : Engine W) (encoder : Int) (rs : List LuaValue) (m : Match) :
    (match_results R e encoder rs m).1.rplx_table = e.rplx_table := by
  unfold match_results
  try dsimp only
  repeat' split
  all_goals simp [ACQUIRE_ENGINE_LOCK, RELEASE_ENGINE_LOCK, lua_settop0, get_registry,
    Engine.api, pcall, lua_gc_collect, rosie_new_string_ptr, rosie_free_string_ptr]

theorem sanitize_and_encode_rplx_table (R : Runtime W) (e : Engine W) (rs : List LuaValue) (m : str) :
    (sanitize_and_encode R e rs m).1.rplx_table = e.rplx_table := by
  unfold sanitize_and_encode
  try dsimp only
  repeat' split
  all_goals simp [ACQUIRE_ENGINE_LOCK, RELEASE_ENGINE_LOCK, lua_settop0, get_registry,
    Engine.api, pcall, lua_gc_collect, rosie_new_string_ptr, rosie_free_string_ptr]

theorem rosie_alloc_limit_rplx_table (K : Consts) (R : Runtime W) (e : Engine W) (newlimit usage : Option Int) :
    (rosie_alloc_limit K R e newlimit usage).1.rplx_table = e.rplx_table := by
  unfold rosie_alloc_limit
  try dsimp only
  repeat' split
  all_goals simp [ACQUIRE_ENGINE_LOCK, RELEASE_ENGINE_LOCK, lua_settop0, get_registry,
    Engine.api, pcall, lua_gc_collect, rosie_new_string_ptr, rosie_free_string_ptr]

theorem rosie_config_rplx_table (R : Runtime W) (e : Engine W) :
    (rosie_config R e).1.rplx_table = e.rplx_table := by
  unfold rosie_config
  try dsimp only
  repeat' split
  all_goals simp [ACQUIRE_ENGINE_LOCK, RELEASE_ENGINE_LOCK, lua_settop0, get_registry,
    Engine.api, pcall, lua_gc_collect, rosie_new_string_ptr, rosie_free_string_ptr]

theorem rosie_libpath_rplx_table (R : Runtime W) (e : Engine W) (newpath : str) :
    (rosie_libpath R e newpath).1.rplx_table = e.rplx_table := by
  unfold rosie_libpath
  try dsimp only
  repeat' split
  all_goals simp [ACQUIRE_ENGINE_LOCK, RELEASE_ENGINE_LOCK, lua_settop0, get_registry,
    Engine.api, pcall, lua_gc_collect, rosie_new_string_ptr, rosie_free_string_ptr]

theorem rosie_load_rplx_table (R : Runtime W) (e : Engine W) (ok : Int) (src pkgname : str) :
    (rosie_load R e ok src pkgname).1.rplx_table = e.rplx_table := by
  unfold rosie_load
  try dsimp only
  repeat' split
  all_goals simp [ACQUIRE_ENGINE_LOCK, RELEASE_ENGINE_LOCK, lua_settop0, get_registry,
    Engine.api, pcall, lua_gc_collect, rosie_new_string_ptr, rosie_free_string_ptr]

theorem rosie_loadfile_rplx_table (R : Runtime W) (e : Engine W) (ok : Int) (fn pkgname m : str) :
    (rosie_loadfile R e ok fn pkgname m).1.rplx_table = e.rplx_table := by
  unfold rosie_loadfile
  try dsimp only
  repeat' split
  all_goals simp [ACQUIRE_ENGINE_LOCK, RELEASE_ENGINE_LOCK, lua_settop0, get_registry,
    Engine.api, pcall, lua_gc_collect, rosie_new_string_ptr, rosie_free_string_ptr, sanitize_and_encode_rplx_table]

theorem rosie_import_rplx_table (R : Runtime W) (e : Engine W) (ok : Int) (pkgname : str) (as : Option str) (actual m : str) :
    (rosie_import R e ok pkgname as actual m).1.rplx_table = e.rplx_table := by
  unfold rosie_import
  try dsimp only
  repeat' split
  all_goals simp [ACQUIRE_ENGINE_LOCK, RELEASE_ENGINE_LOCK, lua_settop0, get_registry,
    Engine.api, pcall, lua_gc_collect, rosie_new_string_ptr, rosie_free_string_ptr, sanitize_and_encode_rplx_table]

theorem rosie_matchfile_rplx_table (K : Consts) (R : Runtime W) (e : Engine W) (pat : Int) (encoder : Option String) (flag : Int) (f1 f2 f3 : Option String) (cin cout cerr : Int) :
    (rosie_matchfile K R e pat encoder flag f1 f2 f3 cin cout cerr).1.rplx_table = e.rplx_table := by
  unfold rosie_matchfile
  try dsimp only
  repeat' split
  all_goals simp [ACQUIRE_ENGINE_LOCK, RELEASE_ENGINE_LOCK, lua_settop0, get_registry,
    Engine.api, pcall, lua_gc_collect, rosie_new_string_ptr, rosie_free_string_ptr]

theorem rosie_read_rcfile_rplx_table (R : Runtime W) (e : Engine W) (filename : str) (fe : Int) (options : str) :
    (rosie_read_rcfile R e filename fe options).1.rplx_table = e.rplx_table := by
  unfold rosie_read_rcfile
  try dsimp only
  repeat' split
  all_goals simp [ACQUIRE_ENGINE_LOCK, RELEASE_ENGINE_LOCK, lua_settop0, get_registry,
    Engine.api, pcall, lua_gc_collect, rosie_new_string_ptr, rosie_free_string_ptr]

theorem rosie_execute_rcfile_rplx_table (R : Runtime W) (e : Engine W) (filename : str) (fe ne : Int) :
    (rosie_execute_rcfile R e filename fe ne).1.rplx_table = e.rplx_table := by
  unfold rosie_execute_rcfile
  try dsimp only
  repeat' split
  all_goals simp [ACQUIRE_ENGINE_LOCK, RELEASE_ENGINE_LOCK, lua_settop0, get_registry,
    Engine.api, pcall, lua_gc_collect, rosie_new_string_ptr, rosie_free_string_ptr]

theorem rosie_match_rplx_table (K : Consts) (R : Runtime W) (e : Engine W) (pat start : Int) (enc : Option String) (input : str) (m : Match)
    (r : Engine W × Status × Match) (hr : rosie_match K R e pat start enc input m = some r) :
    r.1.rplx_table = e.rplx_table := by
  unfold rosie_match at hr
  try dsimp only at hr
  repeat' split at hr
  all_goals
    (cases hr <;>
      simp [ACQUIRE_ENGINE_LOCK, RELEASE_ENGINE_LOCK, lua_settop0, get_registry,
    Engine.api, pcall, lua_gc_collect, rosie_new_string_ptr, rosie_free_string_ptr, match_results_rplx_table])

theorem rosie_trace_rplx_table (K : Consts) (R : Runtime W) (e : Engine W) (pat start : Int) (style : Option String) (input : str) (matched : Int) (out : str)
    (r : Engine W × TraceResult) (hr : rosie_trace K R e pat start style input matched out = some r) :
    r.1.rplx_table = e.rplx_table := by
  unfold rosie_trace at hr
  try dsimp only at hr
  repeat' split at hr
  all_goals
    (cases hr <;>
      simp [ACQUIRE_ENGINE_LOCK, RELEASE_ENGINE_LOCK, lua_settop0, get_registry,
    Engine.api, pcall, lua_gc_collect, rosie_new_string_ptr, rosie_free_string_ptr])

/-! ### Sessions of arbitrary operations -/

theorem Session.Inv.after_compile {K : Consts} (R : Runtime W)
    (hlen : ∀ t : Tbl, t.get ((R.rawlen t : Int) + 1) = LuaValue.nil)
    (s s' : Session W) (hinv : s.Inv) (x : str) (p0 : Int) (m : str)
    (hstep : s.apply K R (Op.compile (some x) (some p0) m) = some s') : s'.Inv := by
  have hfresh := compile_fresh R hlen s hinv x p0 m
  obtain ⟨fl, hchain, hnd, hfreed, hlive⟩ := hinv
  simp only [Session.apply] at hstep
  rcases rosie_compile_table R s.engine x p0 m with ⟨h0, htab⟩ | ⟨v, hv, hp, htab⟩
  · rw [h0] at hstep
    simp only [if_true, Option.some.injEq] at hstep
    subst hstep
    exact ⟨fl, by simpa [htab] using hchain, hnd, hfreed, by simpa [htab] using hlive⟩
  · have hvn := toboolean_ne_nil hv
    have hne := (luaL_ref_ne_zero R s.engine.rplx_table v hvn).1
    have hfresh' := hfresh _ hp hne
    rw [hp] at hstep
    simp only [hne, if_false, Option.some.injEq] at hstep
    subst hstep
    cases fl with
    | nil =>
      have href := luaL_ref_empty R _ v hvn hchain
      refine ⟨[], ?_, List.nodup_nil, by simp, ?_⟩
      · simp only [htab, href, Tbl.get_set]
        rw [if_neg (by omega)]
        exact hchain
      · intro q o hq
        simp only [htab, href, Tbl.get_set, List.mem_cons, Prod.mk.injEq] at hq ⊢
        rcases hq with ⟨rfl, rfl⟩ | hq
        · simp only [if_true]
          refine ⟨by omega, trivial, hvn, ?_⟩
          simp [List.mem_filter]
        · obtain ⟨hq0, hget, hnil, hnf⟩ := hlive q o hq
          have hqne : (R.rawlen s.engine.rplx_table : Int) + 1 ≠ q := by
            intro heq
            rw [href] at hfresh'
            exact hfresh' o (heq ▸ hq)
          refine ⟨hq0, ?_, hnil, ?_⟩
          · rw [if_neg hqne]; exact hget
          · simp [List.mem_filter, hnf]
    | cons r rest =>
      have href := luaL_ref_cons R _ v hvn r rest hchain
      obtain ⟨h0, hr, hrest⟩ := hchain
      have hpos := FreeChain.pos rest _ hrest
      have hnd' := List.nodup_cons.mp hnd
      refine ⟨rest, ?_, hnd'.2, ?_, ?_⟩
      · have hhead : ((s.engine.rplx_table.set 0 (s.engine.rplx_table.get r)).set r v).get 0
            = s.engine.rplx_table.get r := by
          simp [Tbl.get_set, hr.ne']
        simp only [htab, href, hhead]
        refine FreeChain.congr rest _ ?_ hrest
        intro q hq
        have h1 : r ≠ q := fun heq => hnd'.1 (heq ▸ hq)
        have h2 : (0 : Int) ≠ q := by have := hpos q hq; omega
        simp [h1, h2]
      · intro q hq
        simp only [href, List.mem_filter, decide_eq_true_eq]
        exact ⟨hfreed q (List.mem_cons_of_mem _ hq), fun heq => hnd'.1 (heq ▸ hq)⟩
      · intro q o hq
        simp only [htab, href, Tbl.get_set, List.mem_cons, Prod.mk.injEq] at hq ⊢
        rcases hq with ⟨rfl, rfl⟩ | hq
        · simp only [if_true]
          refine ⟨hr, trivial, hvn, ?_⟩
          simp [List.mem_filter]
        · obtain ⟨hq0, hget, hnil, hnf⟩ := hlive q o hq
          have hqne : r ≠ q := by
            intro heq
            exact hnf (heq ▸ hfreed r (List.mem_cons_self _ _))
          refine ⟨hq0, ?_, hnil, ?_⟩
          · rw [if_neg hqne, if_neg (by omega)]; exact hget
          · simp [List.mem_filter, hnf]

theorem Session.Inv.same_table {s : Session W} (hinv : s.Inv) (e : Engine W)
    (h : e.rplx_table = s.engine.rplx_table) : Session.Inv { s with engine := e } := by
  obtain ⟨fl, hchain, hnd, hfreed, hlive⟩ := hinv
  exact ⟨fl, by simpa [h] using hchain, hnd, hfreed, by simpa [h] using hlive⟩

theorem rosie_compile_null_argument (R : Runtime W) (e : Engine W) (x : Option str)
    (p : Option Int) (m : str) (h : x = none ∨ p = none) :
    ((rosie_compile R e x p m).2.pat = none ∨ (rosie_compile R e x p m).2.pat = some 0)
      ∧ (rosie_compile R e x p m).1.rplx_table = e.rplx_table := by
  cases p with
  | none => simp [rosie_compile, RELEASE_ENGINE_LOCK, lua_settop0, Engine.api, ACQUIRE_ENGINE_LOCK]
  | some p0 =>
    cases x with
    | none =>
      simp [rosie_compile, RELEASE_ENGINE_LOCK, lua_settop0, Engine.api, ACQUIRE_ENGINE_LOCK]
    | some x0 => simp at h

theorem Session.apply_inv (K : Consts) (R : Runtime W)
    (hlen : ∀ t : Tbl, t.get ((R.rawlen t : Int) + 1) = LuaValue.nil)
    (s s' : Session W) (op : Op) (hinv : s.Inv) (hstep : s.apply K R op = some s') : s'.Inv := by
  cases op with
  | compile x p m =>
    by_cases hnull : x = none ∨ p = none
    · obtain ⟨hpat, htab⟩ := rosie_compile_null_argument R s.engine x p m hnull
      simp only [Session.apply] at hstep
      rcases hpat with hpat | hpat
      · rw [hpat] at hstep
        simp only [Option.some.injEq] at hstep
        subst hstep
        exact hinv.same_table _ htab
      · rw [hpat] at hstep
        simp only [if_true, Option.some.injEq] at hstep
        subst hstep
        exact hinv.same_table _ htab
    · cases x with
      | none => exact absurd (Or.inl rfl) hnull
      | some x0 =>
        cases p with
        | none => exact absurd (Or.inr rfl) hnull
        | some p0 => exact Session.Inv.after_compile R hlen s s' hinv x0 p0 m hstep
  | free_rplx pat => exact Session.step_inv R hlen s s' (Call.free pat) hinv hstep
  | alloc_limit newlimit usage =>
    simp only [Session.apply, Op.run, Option.map_some', Option.some.injEq] at hstep
    subst hstep
    exact hinv.same_table _ (rosie_alloc_limit_rplx_table K R _ newlimit usage)
  | config =>
    simp only [Session.apply, Op.run, Option.map_some', Option.some.injEq] at hstep
    subst hstep
    exact hinv.same_table _ (rosie_config_rplx_table R _)
  | libpath newpath =>
    simp only [Session.apply, Op.run, Option.map_some', Option.some.injEq] at hstep
    subst hstep
    exact hinv.same_table _ (rosie_libpath_rplx_table R _ newpath)
  | rmatch pat start enc input m =>
    simp only [Session.apply, Op.run, Option.map_map, Option.map_eq_some'] at hstep
    obtain ⟨r, hr, rfl⟩ := hstep
    exact hinv.same_table _ (rosie_match_rplx_table K R _ pat start enc input m r hr)
  | trace pat start style input matched out =>
    simp only [Session.apply, Op.run, Option.map_map, Option.map_eq_some'] at hstep
    obtain ⟨r, hr, rfl⟩ := hstep
    exact hinv.same_table _ (rosie_trace_rplx_table K R _ pat start style input matched out r hr)
  | load ok src pkgname =>
    simp only [Session.apply, Op.run, Option.map_some', Option.some.injEq] at hstep
    subst hstep
    exact hinv.same_table _ (rosie_load_rplx_table R _ ok src pkgname)
  | loadfile ok fn pkgname m =>
    simp only [Session.apply, Op.run, Option.map_some', Option.some.injEq] at hstep
    subst hstep
    exact hinv.same_table _ (rosie_loadfile_rplx_table R _ ok fn pkgname m)
  | importpkg ok pkgname as actual m =>
    simp only [Session.apply, Op.run, Option.map_some', Option.some.injEq] at hstep
    subst hstep
    exact hinv.same_table _ (rosie_import_rplx_table R _ ok pkgname as actual m)
  | matchfile pat encoder flag f1 f2 f3 cin cout cerr =>
    simp only [Session.apply, Op.run, Option.map_some', Option.some.injEq] at hstep
    subst hstep
    exact hinv.same_table _
      (rosie_matchfile_rplx_table K R _ pat encoder flag f1 f2 f3 cin cout cerr)
  | read_rcfile filename fe options =>
    simp only [Session.apply, Op.run, Option.map_some', Option.some.injEq] at hstep
    subst hstep
    exact hinv.same_table _ (rosie_read_rcfile_rplx_table R _ filename fe options)
  | execute_rcfile filename fe ne =>
    simp only [Session.apply, Op.run, Option.map_some', Option.some.injEq] at hstep
    subst hstep
    exact hinv.same_table _ (rosie_execute_rcfile_rplx_table R _ filename fe ne)

theorem Session.apply_engine (K : Consts) (R : Runtime W) (s s' : Session W) (op : Op)
    (hstep : s.apply K R op = some s') : op.run K R s.engine = some s'.engine := by
  cases op with
  | compile x p m =>
    simp only [Session.apply] at hstep
    split at hstep
    · split at hstep <;>
        (simp only [Option.some.injEq] at hstep
         subst hstep
         rfl)
    · simp only [Option.some.injEq] at hstep
      subst hstep
      rfl
  | free_rplx pat =>
    simp only [Session.apply] at hstep
    split at hstep
    · cases hstep
    · simp only [Option.some.injEq] at hstep
      subst hstep
      rfl
  | rmatch pat start enc input m =>
    simp only [Session.apply, Option.map_eq_some'] at hstep
    obtain ⟨e1, he, rfl⟩ := hstep
    exact he
  | trace pat start style input matched out =>
    simp only [Session.apply, Option.map_eq_some'] at hstep
    obtain ⟨e1, he, rfl⟩ := hstep
    exact he
  | _ =>
    simp only [Session.apply, Op.run, Option.map_some', Option.some.injEq] at hstep
    subst hstep
    rfl

theorem Session.applyAll_inv (K : Consts) (R : Runtime W)
    (hlen : ∀ t : Tbl, t.get ((R.rawlen t : Int) + 1) = LuaValue.nil) :
    ∀ (ops : List Op) (s s' : Session W), s.Inv → Session.applyAll K R s ops = some s' →
      s'.Inv ∧ Op.runAll K R s.engine ops = some s'.engine
  | [], s, s', hinv, hrun => by
    simp only [Session.applyAll, Option.some.injEq] at hrun
    subst hrun
    exact ⟨hinv, rfl⟩
  | op :: rest, s, s', hinv, hrun => by
    simp only [Session.applyAll] at hrun
    cases hstep : s.apply K R op with
    | none => simp [hstep] at hrun
    | some s1 =>
      simp only [hstep, Option.bind] at hrun
      obtain ⟨h1, h2⟩ := Session.applyAll_inv K R hlen rest s1 s'
        (Session.apply_inv K R hlen s s1 op hinv hstep) hrun
      refine ⟨h1, ?_⟩
      simp only [Op.runAll, Session.apply_engine K R s s1 op hstep, Option.bind]
      exact h2

theorem Session.Released.at_start (w : W) : Session.Released ⟨Engine.init w, [], []⟩ :=
  ⟨by simp, fun _ _ => rfl⟩

theorem Session.Released.keep_table {s : Session W} (h : s.Released) (e : Engine W)
    (ht : e.rplx_table = s.engine.rplx_table) : Session.Released { s with engine := e } := by
  obtain ⟨h1, h2⟩ := h
  exact ⟨by simpa [ht] using h1, by simpa [ht] using h2⟩

theorem FreeChain.head_not_table {t : Tbl} {v : LuaValue} {fl : List Int}
    (h : FreeChain t v fl) : v.istable = false := by
  cases fl with
  | nil => rcases h with h | h <;> simp [h, LuaValue.istable]
  | cons r rest => simp [h.1, LuaValue.istable]

theorem Session.apply_released (K : Consts) (R : Runtime W)
    (s s' : Session W) (op : Op) (hinv : s.Inv) (hrel : s.Released)
    (hstep : s.apply K R op = some s') : s'.Released := by
  cases op with
  | compile x p m =>
    by_cases hnull : x = none ∨ p = none
    · obtain ⟨hpat, htab⟩ := rosie_compile_null_argument R s.engine x p m hnull
      simp only [Session.apply] at hstep
      rcases hpat with hpat | hpat
      · rw [hpat] at hstep
        simp only [Option.some.injEq] at hstep
        subst hstep
        exact hrel.keep_table _ htab
      · rw [hpat] at hstep
        simp only [if_true, Option.some.injEq] at hstep
        subst hstep
        exact hrel.keep_table _ htab
    · cases x with
      | none => exact absurd (Or.inl rfl) hnull
      | some x0 =>
        cases p with
        | none => exact absurd (Or.inr rfl) hnull
        | some p0 =>
          obtain ⟨fl, hchain, hnd, hfreed, hlive⟩ := hinv
          obtain ⟨hrel1, hrel2⟩ := hrel
          simp only [Session.apply] at hstep
          rcases rosie_compile_table R s.engine x0 p0 m with ⟨h0, htab⟩ | ⟨v, hv, hp, htab⟩
          · rw [h0] at hstep
            simp only [if_true, Option.some.injEq] at hstep
            subst hstep
            exact ⟨by simpa [htab] using hrel1, by simpa [htab] using hrel2⟩
          · have hvn := toboolean_ne_nil hv
            have hne := (luaL_ref_ne_zero R s.engine.rplx_table v hvn).1
            rw [hp] at hstep
            simp only [hne, if_false, Option.some.injEq] at hstep
            subst hstep
            cases fl with
            | nil =>
              have href := luaL_ref_empty R _ v hvn hchain
              refine ⟨?_, ?_⟩
              · intro q hq
                simp only [href, List.mem_filter, decide_eq_true_eq] at hq
                simp only [htab, href, Tbl.get_set, if_neg (Ne.symm hq.2)]
                exact hrel1 q hq.1
              · intro q hq
                have hqne : (R.rawlen s.engine.rplx_table : Int) + 1 ≠ q := by omega
                simp only [htab, href, Tbl.get_set, if_neg hqne]
                exact hrel2 q hq
            | cons r rest =>
              have href := luaL_ref_cons R _ v hvn r rest hchain
              obtain ⟨h0, hr, hrest⟩ := hchain
              have hnt := hrest.head_not_table
              refine ⟨?_, ?_⟩
              · intro q hq
                simp only [href, List.mem_filter, decide_eq_true_eq] at hq
                simp only [htab, href, Tbl.get_set, if_neg (Ne.symm hq.2)]
                split
                · exact hnt
                · exact hrel1 q hq.1
              · intro q hq
                have h1 : r ≠ q := by omega
                have h2 : (0 : Int) ≠ q := by omega
                simp only [htab, href, Tbl.get_set, if_neg h1, if_neg h2]
                exact hrel2 q hq
  | free_rplx pat =>
    obtain ⟨fl, hchain, hnd, hfreed, hlive⟩ := hinv
    obtain ⟨hrel1, hrel2⟩ := hrel
    have hnt := hchain.head_not_table
    simp only [Session.apply] at hstep
    split at hstep
    · cases hstep
    · rename_i hp
      simp only [Option.some.injEq] at hstep
      subst hstep
      unfold Session.Released
      simp only [rosie_free_rplx_table]
      by_cases hneg : pat < 0
      · have hun : luaL_unref s.engine.rplx_table pat = s.engine.rplx_table := by
          simp [luaL_unref, not_le.mpr hneg]
        rw [hun]
        refine ⟨?_, hrel2⟩
        intro q hq
        rcases List.mem_cons.mp hq with rfl | hq
        · rw [hrel2 q hneg]
          rfl
        · exact hrel1 q hq
      · have hun : luaL_unref s.engine.rplx_table pat
            = (s.engine.rplx_table.set pat (s.engine.rplx_table.get 0)).set 0
                (LuaValue.number pat) := by
          simp [luaL_unref, not_lt.mp hneg]
        rw [hun]
        refine ⟨?_, ?_⟩
        · intro q hq
          simp only [Tbl.get_set]
          split
          · rfl
          · split
            · exact hnt
            · rcases List.mem_cons.mp hq with rfl | hq
              · rename_i hx
                exact absurd rfl hx
              · exact hrel1 q hq
        · intro q hq
          have h1 : (0 : Int) ≠ q := by omega
          have h2 : pat ≠ q := by omega
          simp only [Tbl.get_set, if_neg h1, if_neg h2]
          exact hrel2 q hq
  | alloc_limit newlimit usage =>
    simp only [Session.apply, Op.run, Option.map_some', Option.some.injEq] at hstep
    subst hstep
    exact hrel.keep_table _ (rosie_alloc_limit_rplx_table K R _ newlimit usage)
  | config =>
    simp only [Session.apply, Op.run, Option.map_some', Option.some.injEq] at hstep
    subst hstep
    exact hrel.keep_table _ (rosie_config_rplx_table R _)
  | libpath newpath =>
    simp only [Session.apply, Op.run, Option.map_some', Option.some.injEq] at hstep
    subst hstep
    exact hrel.keep_table _ (rosie_libpath_rplx_table R _ newpath)
  | rmatch pat start enc input m =>
    simp only [Session.apply, Op.run, Option.map_map, Option.map_eq_some'] at hstep
    obtain ⟨r, hr, rfl⟩ := hstep
    exact hrel.keep_table _ (rosie_match_rplx_table K R _ pat start enc input m r hr)
  | trace pat start style input matched out =>
    simp only [Session.apply, Op.run, Option.map_map, Option.map_eq_some'] at hstep
    obtain ⟨r, hr, rfl⟩ := hstep
    exact hrel.keep_table _ (rosie_trace_rplx_table K R _ pat start style input matched out r hr)
  | load ok src pkgname =>
    simp only [Session.apply, Op.run, Option.map_some', Option.some.injEq] at hstep
    subst hstep
    exact hrel.keep_table _ (rosie_load_rplx_table R _ ok src pkgname)
  | loadfile ok fn pkgname m =>
    simp only [Session.apply, Op.run, Option.map_some', Option.some.injEq] at hstep
    subst hstep
    exact hrel.keep_table _ (rosie_loadfile_rplx_table R _ ok fn pkgname m)
  | importpkg ok pkgname as actual m =>
    simp only [Session.apply, Op.run, Option.map_some', Option.some.injEq] at hstep
    subst hstep
    exact hrel.keep_table _ (rosie_import_rplx_table R _ ok pkgname as actual m)
  | matchfile pat encoder flag f1 f2 f3 cin cout cerr =>
    simp only [Session.apply, Op.run, Option.map_some', Option.some.injEq] at hstep
    subst hstep
    exact hrel.keep_table _
      (rosie_matchfile_rplx_table K R _ pat encoder flag f1 f2 f3 cin cout cerr)
  | read_rcfile filename fe options =>
    simp only [Session.apply, Op.run, Option.map_some', Option.some.injEq] at hstep
    subst hstep
    exact hrel.keep_table _ (rosie_read_rcfile_rplx_table R _ filename fe options)
  | execute_rcfile filename fe ne =>
    simp only [Session.apply, Op.run, Option.map_some', Option.some.injEq] at hstep
    subst hstep
    exact hrel.keep_table _ (rosie_execute_rcfile_rplx_table R _ filename fe ne)

theorem Session.applyAll_released (K : Consts) (R : Runtime W)
    (hlen : ∀ t : Tbl, t.get ((R.rawlen t : Int) + 1) = LuaValue.nil) :
    ∀ (ops : List Op) (s s' : Session W), s.Inv → s.Released →
      Session.applyAll K R s ops = some s' → s'.Released
  | [], s, s', _, hrel, hrun => by
    simp only [Session.applyAll, Option.some.injEq] at hrun
    subst hrun
    exact hrel
  | op :: rest, s, s', hinv, hrel, hrun => by
    simp only [Session.applyAll] at hrun
    cases hstep : s.apply K R op with
    | none => simp [hstep] at hrun
    | some s1 =>
      simp only [hstep, Option.bind] at hrun
      exact Session.applyAll_released K R hlen rest s1 s'
        (Session.apply_inv K R hlen s s1 op hinv hstep)
        (Session.apply_released K R s s1 op hinv hrel hstep) hrun

/-! ## The claims -/

set_option maxRecDepth 100000

/-- C1: `rosie_match` called with handle 0, or with a handle whose slot of the
pattern table does not hold a table, returns `SUCCESS` with
`match.data = {NULL, ERR_NO_PATTERN}` (the other fields of `*match` untouched);
the only event it can add to the log is a collection by the allocation
governor, so no match capability is invoked, and the pattern table is
unchanged. -/
theorem rosie_match_no_pattern (K : Consts) (R : Runtime W) (e : Engine W) (pat start : Int)
    (encoder_name : Option String) (input : str) (m : Match)
    (h : pat = 0 ∨ (e.rplx_table.get pat).istable = false) :
    ∃ e', rosie_match K R e pat start encoder_name input m
        = some (e', Status.SUCCESS, { m with data := ⟨none, K.ERR_NO_PATTERN⟩ })
      ∧ (e'.events = e.events ∨ e'.events = Event.collect :: e.events)
      ∧ e'.rplx_table = e.rplx_table := by
  refine ⟨_, rosie_match_unresolved K R e pat start encoder_name input m h, ?_, ?_⟩
  · have hev := collect_if_needed_events R (ACQUIRE_ENGINE_LOCK e)
    split
    · simpa [RELEASE_ENGINE_LOCK, lua_settop0, Engine.api] using hev
    · simpa [RELEASE_ENGINE_LOCK, lua_settop0, Engine.api, get_registry] using hev
  · split <;> simp

/-- Witness of C1: handle 3 on a fresh engine, whose pattern table is empty. -/
theorem rosie_match_no_pattern_witness :
    ∃ e', rosie_match exampleConsts exampleRuntime exampleEngine 3 1 (some "json") exampleInput
          exampleMatch
        = some (e', Status.SUCCESS,
            { exampleMatch with data := ⟨none, exampleConsts.ERR_NO_PATTERN⟩ })
      ∧ (e'.events = exampleEngine.events ∨ e'.events = Event.collect :: exampleEngine.events)
      ∧ e'.rplx_table = exampleEngine.rplx_table :=
  rosie_match_no_pattern exampleConsts exampleRuntime exampleEngine 3 1 (some "json")
    exampleInput exampleMatch (Or.inr (by decide))

/-- Counterexample to C2: on the engine reached by compiling, freeing handle 1
twice and compiling twice more, handle 1 was returned by a successful compile;
yet after `rosie_free_rplx(e, 1)` slot 1 still holds a compiled pattern and
`rosie_match(e, 1, ...)` runs the matcher and returns a match. -/
theorem stale_handle_matches_after_double_free :
    (exampleCompile exampleRuntime engineAfterReissue).2
        = ⟨Status.SUCCESS, some 1, ⟨none, 0⟩⟩
      ∧ (rosie_free_rplx engineAfterSecondReissue 1).1.rplx_table.get 1 = LuaValue.table 1002
      ∧ (rosie_match exampleConsts exampleRuntime (rosie_free_rplx engineAfterSecondReissue 1).1
            1 1 (some "json") exampleInput exampleMatch).map
          (fun r => (r.2.1, r.2.2.data, r.1.events.head?))
        = some (Status.SUCCESS, ⟨some "[1,2]", 5⟩, some (Event.call Cap.r_match_C)) := by
  decide

/-- C2 (amended): on an engine reached from `rosie_new` by any sequence of
exported operations in which no `rosie_free_rplx` frees a handle that is
already free (freed before and not handed out again since).  For every live
handle `p` (written by a `rosie_compile` and not freed since): after
`rosie_free_rplx(e, p)` slot `p` of the pattern table does not hold a table,
and `rosie_match(e, p, ...)` returns `SUCCESS` with
`data = {NULL, ERR_NO_PATTERN}`.  The same holds whatever operations follow the
free, as long as no compile hands the handle out again: for every handle that
was freed and not handed out since, the slot holds no table and `rosie_match`
returns `SUCCESS` with `data = {NULL, ERR_NO_PATTERN}`. -/
theorem free_then_match_no_pattern (K : Consts) (R : Runtime W) (B : Startup W) (S : Statics)
    (hlen : ∀ t : Tbl, t.get ((R.rawlen t : Int) + 1) = LuaValue.nil)
    (newstate : Option W) (m0 m1 : str) (e0 : Engine W)
    (hnew : rosie_new R B S newstate m0 = some (some e0, m1))
    (ops : List Op) (s : Session W)
    (hrun : Session.applyAll K R ⟨e0, [], []⟩ ops = some s) :
    Op.runAll K R e0 ops = some s.engine
      ∧ (∀ p o, (p, o) ∈ s.live →
          ∀ (start : Int) (encoder_name : Option String) (input : str) (m : Match),
          ((rosie_free_rplx s.engine p).1.rplx_table.get p).istable = false
            ∧ ∃ e', rosie_match K R (rosie_free_rplx s.engine p).1 p start encoder_name input m
                = some (e', Status.SUCCESS, { m with data := ⟨none, K.ERR_NO_PATTERN⟩ }))
      ∧ (∀ p, p ∈ s.freed →
          ∀ (start : Int) (encoder_name : Option String) (input : str) (m : Match),
          (s.engine.rplx_table.get p).istable = false
            ∧ ∃ e', rosie_match K R s.engine p start encoder_name input m
                = some (e', Status.SUCCESS, { m with data := ⟨none, K.ERR_NO_PATTERN⟩ })) := by
  obtain ⟨w, rfl⟩ := rosie_new_init R B S newstate m0 m1 e0 hnew
  obtain ⟨⟨fl, hchain, _, _, hlive⟩, hengine⟩ :=
    Session.applyAll_inv K R hlen ops _ s (Session.Inv.init w) hrun
  have hrel := Session.applyAll_released K R hlen ops _ s (Session.Inv.init w)
    (Session.Released.at_start w) hrun
  refine ⟨hengine, ?_, ?_⟩
  · intro p o hp start encoder_name input m
    obtain ⟨hpos, _, _, _⟩ := hlive p o hp
    have htab : ((rosie_free_rplx s.engine p).1.rplx_table.get p).istable = false := by
      have hge : p ≥ 0 := by omega
      have hne : (0 : Int) ≠ p := by omega
      simp only [rosie_free_rplx_table, luaL_unref, hge, if_true, Tbl.get_set, if_neg hne]
      exact hchain.head_not_table
    exact ⟨htab, _, rosie_match_unresolved K R (rosie_free_rplx s.engine p).1 p start
      encoder_name input m (Or.inr htab)⟩
  · intro p hp start encoder_name input m
    have htab := hrel.1 p hp
    exact ⟨htab, _, rosie_match_unresolved K R s.engine p start encoder_name input m
      (Or.inr htab)⟩

/-- Witness of C2: the example session, in which handle 1 is compiled and
matched and a second pattern is compiled, traced and freed before a source text
is loaded.  Handle 1 is live: freed now, it gives no pattern.  Handle 2 was
freed before the load: it gives no pattern either. -/
theorem free_then_match_no_pattern_witness :
    Op.runAll exampleConsts exampleRuntime exampleEngine exampleSessionOps
        = some exampleOpSession.engine
      ∧ (∃ e', rosie_match exampleConsts exampleRuntime
            (rosie_free_rplx exampleOpSession.engine 1).1 1 1 (some "json") exampleInput
            exampleMatch
          = some (e', Status.SUCCESS,
              { exampleMatch with data := ⟨none, exampleConsts.ERR_NO_PATTERN⟩ }))
      ∧ ∃ e', rosie_match exampleConsts exampleRuntime exampleOpSession.engine 2 1 (some "json")
            exampleInput exampleMatch
          = some (e', Status.SUCCESS,
              { exampleMatch with data := ⟨none, exampleConsts.ERR_NO_PATTERN⟩ }) :=
  have h := free_then_match_no_pattern exampleConsts exampleRuntime exampleStartup exampleStatics
    Tbl.border_next_free (some 1000) ⟨none, 0⟩ ⟨none, 0⟩ exampleEngine (by decide)
    exampleSessionOps exampleOpSession (by decide)
  ⟨h.1, (h.2.1 1 (LuaValue.table 1001) (by decide) 1 (some "json") exampleInput exampleMatch).2,
    (h.2.2 2 (by decide) 1 (some "json") exampleInput exampleMatch).2⟩

/-- Counterexample to C3: the compiler reports success with one warning, the
JSON encoder raises an error, and `rosie_compile` returns
`ERR_ENGINE_CALL_FAILED` (with the handle written and `messages` untouched). -/
theorem rosie_compile_accepted_encoder_fault :
    (failingEncoderRuntime.compile exampleEngine.L exampleExpression.bytes).results
        = some [LuaValue.table 1002, LuaValue.table 1]
      ∧ (exampleCompile failingEncoderRuntime exampleEngine).2
        = ⟨Status.ERR_ENGINE_CALL_FAILED, some 1, ⟨none, 0⟩⟩ := by
  decide

/-- C3 (amended): whenever the compiler capability reports success (its first
result is true) and slot 0 of the pattern table, the head of the free list of
`luaL_ref`, does not read as `LUA_REFNIL`, `rosie_compile` stores the compiled
object under a nonzero index of the pattern table and writes that index to
`*pat`, so that a lookup of `*pat` yields the object; when the warnings value
is an empty table it returns `SUCCESS` with `messages = {NULL, 0}`, and when it
is a non-empty table that the JSON encoder encodes it returns `SUCCESS` with
`messages` holding the encoding. -/
theorem rosie_compile_accepted (R : Runtime W) (e : Engine W) (x : str) (p0 : Int) (msgs : str)
    (rs : List LuaValue) (e' : Engine W) (r : CompileResult)
    (hc : (R.compile e.L x.bytes).results = some rs)
    (hok : (nth rs 0).toboolean = true)
    (hhead : lua_tointeger R (e.rplx_table.get 0) ≠ LUA_REFNIL)
    (hr : rosie_compile R e (some x) (some p0) msgs = (e', r)) :
    ∃ h : Int, r.pat = some h ∧ h ≠ 0 ∧ e'.rplx_table.get h = nth rs 0
      ∧ (∀ id, nth rs 1 = LuaValue.table id → R.next (R.compile e.L x.bytes).state id = false →
          r.status = Status.SUCCESS ∧ r.messages = ⟨none, 0⟩)
      ∧ (∀ id js, nth rs 1 = LuaValue.table id →
          R.next (R.compile e.L x.bytes).state id = true →
          (R.json_encode (R.compile e.L x.bytes).state (LuaValue.table id)).results
            = some [LuaValue.string js] →
          r.status = Status.SUCCESS ∧ r.messages = ⟨some js, js.length⟩) := by
  have hvn := toboolean_ne_nil hok
  obtain ⟨hne0, hget⟩ := luaL_ref_ne_zero R e.rplx_table (nth rs 0) hvn
  have hnr := luaL_ref_ne_refnil R e.rplx_table (nth rs 0) hvn hhead
  simp only [rosie_compile, get_registry_L, ACQUIRE_ENGINE_LOCK_L, hc, hok, Bool.not_true,
    Bool.false_eq_true, if_false, pcall_rplx_table, get_registry_rplx_table,
    ACQUIRE_ENGINE_LOCK_rplx_table, hnr] at hr
  refine ⟨(luaL_ref R e.rplx_table (nth rs 0)).2, ?_, hne0, ?_, ?_, ?_⟩
  · split_ifs at hr <;> (cases hr; rfl)
  · split_ifs at hr <;> (cases hr; simpa using hget)
  · intro id hid hnext
    have hj := to_json_string_empty R ({ (pcall Cap.compile (R.compile e.L x.bytes)
      (get_registry (get_registry (get_registry (ACQUIRE_ENGINE_LOCK e))))).api with
        rplx_table := (luaL_ref R e.rplx_table (nth rs 0)).1 }) id hnext
    rw [hid, hj] at hr
    simp only [ne_eq, not_true_eq_false, if_false] at hr
    cases hr
    exact ⟨rfl, rfl⟩
  · intro id js hid hnext henc
    have hj := to_json_string_encoded R ({ (pcall Cap.compile (R.compile e.L x.bytes)
      (get_registry (get_registry (get_registry (ACQUIRE_ENGINE_LOCK e))))).api with
        rplx_table := (luaL_ref R e.rplx_table (nth rs 0)).1 }) id (LuaValue.string js) hnext henc
    rw [hid, hj] at hr
    simp only [ne_eq, not_true_eq_false, if_false] at hr
    cases hr
    exact ⟨rfl, rfl⟩

/-- Witness of C3: a compilation with one warning on a fresh engine. -/
theorem rosie_compile_accepted_witness :
    ∃ h : Int, (exampleCompile warningRuntime exampleEngine).2.pat = some h ∧ h ≠ 0
      ∧ (exampleCompile warningRuntime exampleEngine).1.rplx_table.get h = LuaValue.table 1002
      ∧ (exampleCompile warningRuntime exampleEngine).2.status = Status.SUCCESS
      ∧ (exampleCompile warningRuntime exampleEngine).2.messages = ⟨some "[23]", 4⟩ :=
  have h := rosie_compile_accepted warningRuntime exampleEngine exampleExpression 0 ⟨none, 0⟩
    [LuaValue.table 1002, LuaValue.table 1] (exampleCompile warningRuntime exampleEngine).1
    (exampleCompile warningRuntime exampleEngine).2 (by decide) (by decide) (by decide) rfl
  h.imp fun _ hh => ⟨hh.1, hh.2.1, hh.2.2.1, hh.2.2.2.2 1 "[23]" rfl (by decide) (by decide)⟩

/-- Counterexample to C4: the compiler reports failure with one diagnostic, the
JSON encoder raises an error, and `rosie_compile` returns
`ERR_ENGINE_CALL_FAILED`, not `SUCCESS`, with a constant text in `messages`. -/
theorem rosie_compile_rejected_encoder_fault :
    (rejectingRuntime.compile exampleEngine.L exampleExpression.bytes).results
        = some [LuaValue.boolean false, LuaValue.table 1]
      ∧ (exampleCompile rejectingRuntime exampleEngine).2
        = ⟨Status.ERR_ENGINE_CALL_FAILED, some 0,
            ⟨some "could not convert compile messages to json", 42⟩⟩ := by
  decide

/-- C4 (amended): whenever the compiler capability reports that compilation
failed (its first result is false or nil), `rosie_compile` sets `*pat` to 0 and
leaves the pattern table unchanged; when the diagnostics value is a non-empty
table that the JSON encoder encodes, it returns `SUCCESS` with `messages`
non-null, holding the encoding. -/
theorem rosie_compile_rejected (R : Runtime W) (e : Engine W) (x : str) (p0 : Int) (msgs : str)
    (rs : List LuaValue) (e' : Engine W) (r : CompileResult)
    (hc : (R.compile e.L x.bytes).results = some rs)
    (hfail : (nth rs 0).toboolean = false)
    (hr : rosie_compile R e (some x) (some p0) msgs = (e', r)) :
    r.pat = some 0 ∧ e'.rplx_table = e.rplx_table
      ∧ (∀ id js, nth rs 1 = LuaValue.table id →
          R.next (R.compile e.L x.bytes).state id = true →
          (R.json_encode (R.compile e.L x.bytes).state (LuaValue.table id)).results
            = some [LuaValue.string js] →
          r.status = Status.SUCCESS ∧ r.messages = ⟨some js, js.length⟩) := by
  simp only [rosie_compile, get_registry_L, ACQUIRE_ENGINE_LOCK_L, hc, hfail, Bool.not_false,
    if_true] at hr
  refine ⟨?_, ?_, ?_⟩
  · split_ifs at hr <;> (cases hr; rfl)
  · split_ifs at hr <;> (cases hr; simp)
  · intro id js hid hnext henc
    have hj := to_json_string_encoded R (pcall Cap.compile (R.compile e.L x.bytes)
      (get_registry (get_registry (get_registry (ACQUIRE_ENGINE_LOCK e))))) id
      (LuaValue.string js) hnext henc
    rw [hid, hj] at hr
    simp only [ne_eq, not_true_eq_false, if_false] at hr
    cases hr
    exact ⟨rfl, rfl⟩

/-- Witness of C4: a rejected compilation with one diagnostic on a fresh
engine. -/
theorem rosie_compile_rejected_witness :
    (exampleCompile diagnosingRuntime exampleEngine).2.pat = some 0
      ∧ (exampleCompile diagnosingRuntime exampleEngine).1.rplx_table = exampleEngine.rplx_table
      ∧ (exampleCompile diagnosingRuntime exampleEngine).2.status = Status.SUCCESS
      ∧ (exampleCompile diagnosingRuntime exampleEngine).2.messages = ⟨some "[17]", 4⟩ :=
  have h := rosie_compile_rejected diagnosingRuntime exampleEngine exampleExpression 0 ⟨none, 0⟩
    [LuaValue.boolean false, LuaValue.table 1] (exampleCompile diagnosingRuntime exampleEngine).1
    (exampleCompile diagnosingRuntime exampleEngine).2 (by decide) (by decide) rfl
  ⟨h.1, h.2.1, h.2.2 1 "[17]" rfl (by decide) (by decide)⟩

/-- Counterexample to C5: after handle 1 has been freed twice, a successful
compile returns handle 1, slot 1 holds its compiled pattern (no free follows),
and the next successful compile returns handle 1 again. -/
theorem double_free_hands_out_live_handle :
    (exampleCompile exampleRuntime engineAfterDoubleFree).2
        = ⟨Status.SUCCESS, some 1, ⟨none, 0⟩⟩
      ∧ engineAfterReissue.rplx_table.get 1 = LuaValue.table 1002
      ∧ (exampleCompile exampleRuntime engineAfterReissue).2
        = ⟨Status.SUCCESS, some 1, ⟨none, 0⟩⟩ := by
  decide

/-- C5 (amended): for every sequence of `rosie_compile` and `rosie_free_rplx`
calls on a new engine in which no handle is freed while it is already free
(freed before and not handed out again since), a nonzero handle written by a
further `rosie_compile` is different from every live handle (written by an
earlier compile and not freed since), and every live handle's slot of the
pattern table still holds the object stored under it. -/
theorem compile_handle_not_live (R : Runtime W) (B : Startup W) (S : Statics)
    (hlen : ∀ t : Tbl, t.get ((R.rawlen t : Int) + 1) = LuaValue.nil)
    (newstate : Option W) (m0 m1 : str) (e0 : Engine W)
    (hnew : rosie_new R B S newstate m0 = some (some e0, m1))
    (calls : List Call) (s : Session W)
    (hrun : Session.run R ⟨e0, [], []⟩ calls = some s)
    (x : str) (p0 : Int) (msgs : str) (h : Int)
    (hpat : (rosie_compile R s.engine (some x) (some p0) msgs).2.pat = some h) (hne : h ≠ 0) :
    h ∉ s.live.map Prod.fst
      ∧ ∀ q o, (q, o) ∈ s.live → s.engine.rplx_table.get q = o ∧ o ≠ LuaValue.nil := by
  obtain ⟨w, rfl⟩ := rosie_new_init R B S newstate m0 m1 e0 hnew
  have hinv := Session.run_inv R hlen calls _ s (Session.Inv.init w) hrun
  refine ⟨?_, ?_⟩
  · intro hin
    obtain ⟨⟨q, o⟩, hq, rfl⟩ := List.mem_map.mp hin
    exact compile_fresh R hlen s hinv x p0 msgs q hpat hne o hq
  · obtain ⟨_, _, _, _, hlive⟩ := hinv
    intro q o hq
    exact ⟨(hlive q o hq).2.1, (hlive q o hq).2.2.1⟩

/-- Witness of C5: after the example session (handles 1 and 2 issued, 1 freed)
a further compile returns the freed handle 1, which is not the live handle 2,
and slot 2 still holds the second compiled pattern. -/
theorem compile_handle_not_live_witness :
    (1 : Int) ∉ exampleSession.live.map Prod.fst
      ∧ exampleSession.engine.rplx_table.get 2 = LuaValue.table 1002 :=
  have h := compile_handle_not_live exampleRuntime exampleStartup exampleStatics
    Tbl.border_next_free (some 1000) ⟨none, 0⟩ ⟨none, 0⟩ exampleEngine (by decide)
    exampleCalls exampleSession (by decide) exampleExpression 0 ⟨none, 0⟩ 1 (by decide)
    (by decide)
  ⟨h.1, (h.2 2 (LuaValue.table 1002) (by decide)).1⟩

/-- C6: with the lock as a held/free flag and counters of acquisitions and
releases: every exported operation other than `rosie_new` and `rosie_finalize`,
on every path on which it returns, has acquired the lock exactly once, released
it exactly once, left it free, and made no access to the runtime while not
holding it; `rosie_finalize` acquires the lock once and does not release it. -/
theorem lock_discipline (K : Consts) (R : Runtime W) (e : Engine W) :
    (∀ (op : Op) (e' : Engine W), op.run K R e = some e' →
        e'.lock = false ∧ e'.acquires = e.acquires + 1 ∧ e'.releases = e.releases + 1
          ∧ e'.unguarded = e.unguarded)
      ∧ (rosie_finalize e).lock = true ∧ (rosie_finalize e).acquires = e.acquires + 1
      ∧ (rosie_finalize e).releases = e.releases
      ∧ (rosie_finalize e).unguarded = e.unguarded := by
  refine ⟨?_, rosie_finalize_frame e⟩
  intro op e' hrun
  show LockedCall e e'
  cases op with
  | alloc_limit newlimit usage =>
    simp only [Op.run, Option.some.injEq] at hrun
    subst hrun
    exact rosie_alloc_limit_frame K R e newlimit usage
  | config =>
    simp only [Op.run, Option.some.injEq] at hrun
    subst hrun
    exact (rosie_config_frame R e).1
  | libpath newpath =>
    simp only [Op.run, Option.some.injEq] at hrun
    subst hrun
    exact (rosie_libpath_frame R e newpath).1
  | free_rplx pat =>
    simp only [Op.run, Option.some.injEq] at hrun
    subst hrun
    exact (rosie_free_rplx_frame e pat).1
  | compile x p m =>
    simp only [Op.run, Option.some.injEq] at hrun
    subst hrun
    exact (rosie_compile_frame R e x p m).1
  | rmatch pat start enc input m =>
    simp only [Op.run, Option.map_eq_some'] at hrun
    obtain ⟨r, hr, rfl⟩ := hrun
    exact (rosie_match_frame K R e pat start enc input m r hr).1
  | trace pat start style input matched out =>
    simp only [Op.run, Option.map_eq_some'] at hrun
    obtain ⟨r, hr, rfl⟩ := hrun
    exact (rosie_trace_frame K R e pat start style input matched out r hr).1
  | load ok src pkgname =>
    simp only [Op.run, Option.some.injEq] at hrun
    subst hrun
    exact (rosie_load_frame R e ok src pkgname).1
  | loadfile ok fn pkgname m =>
    simp only [Op.run, Option.some.injEq] at hrun
    subst hrun
    exact (rosie_loadfile_frame R e ok fn pkgname m).1
  | importpkg ok pkgname as actual m =>
    simp only [Op.run, Option.some.injEq] at hrun
    subst hrun
    exact (rosie_import_frame R e ok pkgname as actual m).1
  | matchfile pat encoder flag f1 f2 f3 cin cout cerr =>
    simp only [Op.run, Option.some.injEq] at hrun
    subst hrun
    exact (rosie_matchfile_frame K R e pat encoder flag f1 f2 f3 cin cout cerr).1
  | read_rcfile filename fe options =>
    simp only [Op.run, Option.some.injEq] at hrun
    subst hrun
    exact (rosie_read_rcfile_frame R e filename fe options).1
  | execute_rcfile filename fe ne =>
    simp only [Op.run, Option.some.injEq] at hrun
    subst hrun
    exact (rosie_execute_rcfile_frame R e filename fe ne).1

/-- Counterexample to C7.  For a non-empty table (table 1) on which the JSON
encoder raises an error, `to_json_string` yields `ERR_SYSCALL_FAILED` and the
null string, not a non-null encoded string.  And when the file loader reports
one diagnostic (table 1, which has an entry) and the sanitizer returns a table
without entries, `rosie_loadfile` returns `SUCCESS` with `messages.ptr = NULL`:
what is encoded is the sanitizer's result, not the list the engine produced. -/
theorem messages_null_despite_diagnostics :
    inertRuntime.next exampleEngine.L 1 = true
      ∧ (to_json_string inertRuntime exampleEngine (LuaValue.table 1)).2
        = (Status.ERR_SYSCALL_FAILED, ⟨none, 0⟩)
      ∧ (emptyingRuntime.loadfile exampleEngine.L exampleSource.bytes).results
        = some [LuaValue.boolean false, LuaValue.nil, LuaValue.table 1]
      ∧ is_empty_table emptyingRuntime exampleEngine.L (LuaValue.table 1) = false
      ∧ (rosie_loadfile emptyingRuntime exampleEngine 0 exampleSource ⟨none, 0⟩ ⟨none, 0⟩).2
        = ⟨Status.SUCCESS, 0, ⟨none, 0⟩, ⟨none, 0⟩⟩ := by
  decide

/-- C7 (amended): whenever `rosie_compile` or `rosie_load` returns `SUCCESS`,
`messages.ptr` is `NULL` if and only if the diagnostics the engine returned are
a table without entries.  Whenever `rosie_loadfile` or `rosie_import` returns
`SUCCESS`, `messages.ptr` is `NULL` if and only if the sanitizer's result is a
table without entries; that is the case if and only if the diagnostics the
engine returned are a table without entries, provided the sanitizer returns an
empty table exactly for an empty table.  `to_json_string` yields status OK with
the null string exactly for an empty table, and for a non-empty table that the
JSON encoder encodes it yields status OK with a non-null copy of the
encoding. -/
theorem messages_null_iff_no_diagnostics (R : Runtime W) (e : Engine W) :
    (∀ v, ((to_json_string R e v).2.1 = Status.SUCCESS ∧ (to_json_string R e v).2.2.ptr = none)
        ↔ is_empty_table R e.L v = true)
      ∧ (∀ id js, R.next e.L id = true →
          (R.json_encode e.L (LuaValue.table id)).results = some [LuaValue.string js] →
          (to_json_string R e (LuaValue.table id)).2 = (Status.SUCCESS, ⟨some js, js.length⟩))
      ∧ (∀ x p m, (rosie_compile R e x p m).2.status = Status.SUCCESS →
          ∃ xs rs, x = some xs ∧ (R.compile e.L xs.bytes).results = some rs
            ∧ ((rosie_compile R e x p m).2.messages.ptr = none
                ↔ is_empty_table R (R.compile e.L xs.bytes).state (nth rs 1) = true))
      ∧ (∀ ok src pkgname, (rosie_load R e ok src pkgname).2.status = Status.SUCCESS →
          ∃ rs, (R.load e.L src.bytes).results = some rs
            ∧ ((rosie_load R e ok src pkgname).2.messages.ptr = none
                ↔ is_empty_table R (R.load e.L src.bytes).state (nth rs 2) = true))
      ∧ (∀ ok fn pkgname m, (rosie_loadfile R e ok fn pkgname m).2.status = Status.SUCCESS →
          ∃ rs ss, (R.loadfile e.L fn.bytes).results = some rs
            ∧ (R.strip_each (R.loadfile e.L fn.bytes).state (nth rs 2)).results = some ss
            ∧ ((rosie_loadfile R e ok fn pkgname m).2.messages.ptr = none
                ↔ is_empty_table R
                    (R.strip_each (R.loadfile e.L fn.bytes).state (nth rs 2)).state
                    (nth ss 0) = true)
            ∧ (is_empty_table R (R.strip_each (R.loadfile e.L fn.bytes).state (nth rs 2)).state
                  (nth ss 0)
                = is_empty_table R (R.loadfile e.L fn.bytes).state (nth rs 2) →
              ((rosie_loadfile R e ok fn pkgname m).2.messages.ptr = none
                ↔ is_empty_table R (R.loadfile e.L fn.bytes).state (nth rs 2) = true)))
      ∧ (∀ ok pkgname as actual m,
          (rosie_import R e ok pkgname as actual m).2.status = Status.SUCCESS →
          ∃ rs ss, (R.importpkg e.L pkgname.bytes (as.map str.bytes)).results = some rs
            ∧ (R.strip_each (R.importpkg e.L pkgname.bytes (as.map str.bytes)).state
                (nth rs 2)).results = some ss
            ∧ ((rosie_import R e ok pkgname as actual m).2.messages.ptr = none
                ↔ is_empty_table R (R.strip_each (R.importpkg e.L pkgname.bytes
                    (as.map str.bytes)).state (nth rs 2)).state (nth ss 0) = true)
            ∧ (is_empty_table R (R.strip_each (R.importpkg e.L pkgname.bytes
                    (as.map str.bytes)).state (nth rs 2)).state (nth ss 0)
                = is_empty_table R (R.importpkg e.L pkgname.bytes (as.map str.bytes)).state
                    (nth rs 2) →
              ((rosie_import R e ok pkgname as actual m).2.messages.ptr = none
                ↔ is_empty_table R (R.importpkg e.L pkgname.bytes (as.map str.bytes)).state
                    (nth rs 2) = true))) := by
  refine ⟨to_json_string_null_iff R e, ?_, rosie_compile_messages R e, rosie_load_messages R e,
    ?_, ?_⟩
  · intro id js hnext henc
    rw [to_json_string_encoded R e id (LuaValue.string js) hnext henc]
    rfl
  · intro ok fn pkgname m hs
    obtain ⟨rs, ss, h1, h2, h3⟩ := rosie_loadfile_messages R e ok fn pkgname m hs
    refine ⟨rs, ss, h1, h2, h3, ?_⟩
    intro heq
    rw [← heq]
    exact h3
  · intro ok pkgname as actual m hs
    obtain ⟨rs, ss, h1, h2, h3⟩ := rosie_import_messages R e ok pkgname as actual m hs
    refine ⟨rs, ss, h1, h2, h3, ?_⟩
    intro heq
    rw [← heq]
    exact h3

/-- C8: `rosie_alloc_limit` called with `*newlimit = -1` on an engine reached
from `rosie_new` by any sequence of operations (whose limits are C `int`s)
returns `SUCCESS`, writes into `*newlimit` the limit of the most recent accepted
setting (0 if there is none), and leaves both limit slots of the registry
unchanged; and a query that directly follows an accepted setting of `L` returns
`L`. -/
theorem alloc_limit_query (K : Consts) (R : Runtime W) (B : Startup W) (S : Statics)
    (newstate : Option W) (m0 m1 : str) (e0 : Engine W)
    (hnew : rosie_new R B S newstate m0 = some (some e0, m1))
    (ops : List Op) (hints : Op.int_limits ops) (e : Engine W)
    (hrun : Op.runAll K R e0 ops = some e) (usage : Option Int) :
    (rosie_alloc_limit K R e (some (-1)) usage).2.status = Status.SUCCESS
      ∧ (rosie_alloc_limit K R e (some (-1)) usage).2.newlimit = some (configured_limit K ops)
      ∧ (rosie_alloc_limit K R e (some (-1)) usage).1.alloc_set_limit = e.alloc_set_limit
      ∧ (rosie_alloc_limit K R e (some (-1)) usage).1.alloc_actual_limit = e.alloc_actual_limit
      ∧ ∀ (L : Int) (u : Option Int), isInt32 L → accepted_limit K L = true →
          (rosie_alloc_limit K R (rosie_alloc_limit K R e (some L) u).1 (some (-1)) usage).2
            = ⟨Status.SUCCESS, some L,
                (rosie_alloc_limit K R (rosie_alloc_limit K R e (some L) u).1 (some (-1))
                  usage).2.usage⟩ := by
  obtain ⟨w, rfl⟩ := rosie_new_init R B S newstate m0 m1 e0 hnew
  have hslot := Op.runAll_set_limit K R ops (Engine.init w) e 0 rfl hrun
  have hrange : isInt32 (ops.foldl (Op.limit_after K) 0) :=
    Op.foldl_isInt32 K ops 0 (by unfold isInt32; omega) hints
  obtain ⟨h1, h2, h3, h4⟩ := alloc_limit_query_eq K R e usage
  refine ⟨h1, ?_, h3, h4, ?_⟩
  · rw [h2, hslot]
    simp only [lua_tointeger, toInt32_of_isInt32 hrange, configured_limit]
  · intro L u hL hacc
    obtain ⟨g1, g2, _, _⟩ :=
      alloc_limit_query_eq K R (rosie_alloc_limit K R e (some L) u).1 usage
    have hset := rosie_alloc_limit_set_limit K R e (some L) u _ hslot
    simp only [Op.limit_after, hacc, if_true] at hset
    rw [hset] at g2
    simp only [lua_tointeger, toInt32_of_isInt32 hL] at g2
    cases hq : (rosie_alloc_limit K R (rosie_alloc_limit K R e (some L) u).1 (some (-1))
      usage).2 with
    | mk st nl us =>
      rw [hq] at g1 g2
      simp only at g1 g2
      rw [g1, g2]

/-- Witness of C8: after a limit of 25 is set, a pattern compiled and a limit
of 3 refused, a query returns 25; and a query after setting 40 returns 40. -/
theorem alloc_limit_query_witness :
    (rosie_alloc_limit exampleConsts exampleRuntime engineAfterOps (some (-1)) none).2.status
        = Status.SUCCESS
      ∧ (rosie_alloc_limit exampleConsts exampleRuntime engineAfterOps (some (-1)) none).2.newlimit
        = some 25
      ∧ (rosie_alloc_limit exampleConsts exampleRuntime
          (rosie_alloc_limit exampleConsts exampleRuntime engineAfterOps (some 40) none).1
          (some (-1)) none).2.newlimit = some 40 :=
  have h := alloc_limit_query exampleConsts exampleRuntime exampleStartup exampleStatics
    (some 1000) ⟨none, 0⟩ ⟨none, 0⟩ exampleEngine (by decide) exampleOps
    (by simp [exampleOps, Op.int_limits, isInt32]) engineAfterOps (by decide) none
  ⟨h.1, h.2.1, by rw [h.2.2.2.2 40 none (by decide) (by decide)]⟩

/-- Evaluation for C9: with `MIN_ALLOC_LIMIT_MB = 10`, a limit of 10 MB set while
1000 KB are in use is accepted and records the ceiling 1010 (kilobytes plus
megabytes); with 2000 KB in use, which is below 1000 + 1024 * 10, the next
`collect_if_needed` forces a collection. -/
theorem alloc_limit_ceiling_mixes_units :
    (rosie_alloc_limit exampleConsts exampleRuntime exampleEngine (some 10) (some 0)).2
        = ⟨Status.SUCCESS, some 10, some 1000⟩
      ∧ engineWithLimit.alloc_actual_limit = LuaValue.number 1010
      ∧ (2000 : Int) ≤ 1000 + 1024 * 10
      ∧ (collect_if_needed exampleRuntime { engineWithLimit with L := 2000 }).events
        = Event.collect :: engineWithLimit.events := by
  decide

/-- C10: on the engine `rosie_new` returns, and on the engine left by any
`rosie_alloc_limit` call with `*newlimit = 0` (which returns `SUCCESS`),
`collect_if_needed` forces no collection, whatever the state `w` of the runtime
heap: the event log is unchanged. -/
theorem limit_disabled (K : Consts) (R : Runtime W) (B : Startup W) (S : Statics)
    (newstate : Option W) (m0 m1 : str) (e0 : Engine W)
    (hnew : rosie_new R B S newstate m0 = some (some e0, m1))
    (e : Engine W) (usage : Option Int) (w : W) :
    (collect_if_needed R { e0 with L := w }).events = e0.events
      ∧ (rosie_alloc_limit K R e (some 0) usage).2.status = Status.SUCCESS
      ∧ (collect_if_needed R { (rosie_alloc_limit K R e (some 0) usage).1 with L := w }).events
        = (rosie_alloc_limit K R e (some 0) usage).1.events := by
  obtain ⟨w0, rfl⟩ := rosie_new_init R B S newstate m0 m1 e0 hnew
  have hz : toInt32 0 = 0 := by decide
  refine ⟨?_, ?_, ?_⟩
  · simp [collect_if_needed, get_registry, Engine.api, Engine.init, lua_tointeger, hz]
  · simp [rosie_alloc_limit]
  · simp [collect_if_needed, rosie_alloc_limit, get_registry, Engine.api, lua_tointeger, hz,
      RELEASE_ENGINE_LOCK, lua_settop0, lua_gc_collect, ACQUIRE_ENGINE_LOCK]

/-- Witness of C10: the example engine, fresh and after the limit set by
`engineWithLimit` is cancelled, with 5000000 KB in use. -/
theorem limit_disabled_witness :
    (collect_if_needed exampleRuntime { exampleEngine with L := 5000000 }).events
        = exampleEngine.events
      ∧ (rosie_alloc_limit exampleConsts exampleRuntime engineWithLimit (some 0) none).2.status
        = Status.SUCCESS
      ∧ (collect_if_needed exampleRuntime
          { (rosie_alloc_limit exampleConsts exampleRuntime engineWithLimit (some 0) none).1
            with L := 5000000 }).events
        = (rosie_alloc_limit exampleConsts exampleRuntime engineWithLimit (some 0) none).1.events :=
  limit_disabled exampleConsts exampleRuntime exampleStartup exampleStatics (some 1000)
    ⟨none, 0⟩ ⟨none, 0⟩ exampleEngine (by decide) engineWithLimit none 5000000

/-- Counterexample to C11: `rosie_trace` also runs the governor check.  On the
engine whose ceiling is 1010 and which has 2000 KB in use, a `rosie_trace`
call (here with handle 0) forces a collection. -/
theorem rosie_trace_forces_collection :
    (rosie_trace exampleConsts exampleRuntime engineOverCeiling 0 1 (some "json") exampleInput
          0 ⟨none, 0⟩).map (fun r => (r.2.status, r.1.events))
      = some (Status.SUCCESS, Event.collect :: engineOverCeiling.events) := by
  decide

/-- C11 (amended): the governor check `collect_if_needed` runs at the top of
`rosie_match`, `rosie_matchfile` and `rosie_trace`: the event log after each of
them is the log after `collect_if_needed` on the entry state, followed by
events none of which is a collection; `collect_if_needed` logs one collection
exactly when a ceiling is recorded and usage exceeds it.  `rosie_alloc_limit`
forces two collections.  No other exported operation (`rosie_config`,
`rosie_libpath`, `rosie_free_rplx`, `rosie_compile`, `rosie_load`,
`rosie_loadfile`, `rosie_import`, `rosie_read_rcfile`, `rosie_execute_rcfile`,
`rosie_finalize`) forces a collection. -/
theorem governor_check_operations (K : Consts) (R : Runtime W) (e : Engine W) :
    (∀ pat start enc input m r, rosie_match K R e pat start enc input m = some r →
        ∃ new, r.1.events = new ++ (collect_if_needed R e).events ∧ Event.collect ∉ new)
      ∧ (∀ pat enc flag f1 f2 f3 cin cout cerr,
        ∃ new, (rosie_matchfile K R e pat enc flag f1 f2 f3 cin cout cerr).1.events
            = new ++ (collect_if_needed R e).events ∧ Event.collect ∉ new)
      ∧ (∀ pat start style input matched out r,
        rosie_trace K R e pat start style input matched out = some r →
        ∃ new, r.1.events = new ++ (collect_if_needed R e).events ∧ Event.collect ∉ new)
      ∧ (collect_if_needed R e).events
        = (if toInt32 (lua_tointeger R e.alloc_actual_limit) ≠ 0
              ∧ R.gccount e.L > toInt32 (lua_tointeger R e.alloc_actual_limit)
            then Event.collect :: e.events else e.events)
      ∧ (∀ newlimit usage, (rosie_alloc_limit K R e newlimit usage).1.events
          = Event.collect :: Event.collect :: e.events)
      ∧ (rosie_config R e).1.events.count Event.collect = e.events.count Event.collect
      ∧ (∀ newpath, (rosie_libpath R e newpath).1.events.count Event.collect
          = e.events.count Event.collect)
      ∧ (∀ pat, (rosie_free_rplx e pat).1.events.count Event.collect
          = e.events.count Event.collect)
      ∧ (∀ x p m, (rosie_compile R e x p m).1.events.count Event.collect
          = e.events.count Event.collect)
      ∧ (∀ ok src pkgname, (rosie_load R e ok src pkgname).1.events.count Event.collect
          = e.events.count Event.collect)
      ∧ (∀ ok fn pkgname m, (rosie_loadfile R e ok fn pkgname m).1.events.count Event.collect
          = e.events.count Event.collect)
      ∧ (∀ ok pkgname as actual m,
          (rosie_import R e ok pkgname as actual m).1.events.count Event.collect
            = e.events.count Event.collect)
      ∧ (∀ filename fe options,
          (rosie_read_rcfile R e filename fe options).1.events.count Event.collect
            = e.events.count Event.collect)
      ∧ (∀ filename fe ne,
          (rosie_execute_rcfile R e filename fe ne).1.events.count Event.collect
            = e.events.count Event.collect)
      ∧ (rosie_finalize e).events.count Event.collect = e.events.count Event.collect := by
  refine ⟨?_, ?_, ?_, collect_if_needed_events_eq R e, rosie_alloc_limit_events K R e,
    rosie_config_count R e _ (by simp) (by simp),
    fun newpath => rosie_libpath_count R e newpath _ (by simp) (by simp),
    fun pat => by rw [rosie_free_rplx_events],
    fun x p m => rosie_compile_count R e x p m _ (by simp) (by simp),
    fun ok src pkgname => rosie_load_count R e ok src pkgname _ (by simp) (by simp),
    fun ok fn pkgname m =>
      rosie_loadfile_count R e ok fn pkgname m _ (by simp) (by simp) (by simp),
    fun ok pkgname as actual m =>
      rosie_import_count R e ok pkgname as actual m _ (by simp) (by simp) (by simp),
    fun filename fe options =>
      rosie_read_rcfile_count R e filename fe options _ (by simp) (by simp),
    fun filename fe ne => rosie_execute_rcfile_count R e filename fe ne _ (by simp),
    rosie_finalize_count e _ (by simp)⟩
  · intro pat start enc input m r hr
    obtain ⟨new, hnew⟩ := rosie_match_suffix K R e pat start enc input m r hr
    refine ⟨new, hnew.symm, not_mem_of_count_append Event.collect new (collect_if_needed R e).events ?_⟩
    rw [hnew]
    exact rosie_match_count K R e pat start enc input m r hr _ (by simp) (by simp) (by simp)
      (by simp)
  · intro pat enc flag f1 f2 f3 cin cout cerr
    obtain ⟨new, hnew⟩ := rosie_matchfile_suffix K R e pat enc flag f1 f2 f3 cin cout cerr
    refine ⟨new, hnew.symm, not_mem_of_count_append Event.collect new (collect_if_needed R e).events ?_⟩
    rw [hnew]
    exact rosie_matchfile_count K R e pat enc flag f1 f2 f3 cin cout cerr _ (by simp)
  · intro pat start style input matched out r hr
    obtain ⟨new, hnew⟩ := rosie_trace_suffix K R e pat start style input matched out r hr
    refine ⟨new, hnew.symm, not_mem_of_count_append Event.collect new (collect_if_needed R e).events ?_⟩
    rw [hnew]
    exact rosie_trace_count K R e pat start style input matched out r hr _ (by simp) (by simp)

/-- Failing run for C12: `rosie_load` does not sanitize.  With a loader that
reports the diagnostics table 1, a sanitizer that returns the stripped table 2
and an encoder that gives "[17]" for table 1 and "[23]" for table 2,
`rosie_load` returns `SUCCESS` with the encoding "[17]" of the unsanitized
diagnostics and makes no call of the sanitizer, whereas `rosie_loadfile`
returns the encoding "[23]" of the sanitizer's result. -/
theorem rosie_load_skips_sanitizer :
    (rosie_load sanitizingRuntime exampleEngine 0 exampleSource ⟨none, 0⟩).2
        = ⟨Status.SUCCESS, 0, ⟨none, 0⟩, ⟨some "[17]", 4⟩⟩
      ∧ (rosie_load sanitizingRuntime exampleEngine 0 exampleSource ⟨none, 0⟩).1.events
        = [Event.call Cap.json_encode, Event.call Cap.load, Event.call Cap.engine_new]
      ∧ (rosie_loadfile sanitizingRuntime exampleEngine 0 exampleSource ⟨none, 0⟩ ⟨none, 0⟩).2
        = ⟨Status.SUCCESS, 0, ⟨none, 0⟩, ⟨some "[23]", 4⟩⟩ := by
  decide

/-- C12, what the code does: `rosie_loadfile` and `rosie_import`, when they
return `SUCCESS`, have applied the sanitizer `violation.strip_each` to the
diagnostics the engine returned (its third result), and `messages` is what
`to_json_string` makes of the sanitizer's result.  `rosie_load` and
`rosie_compile` make no call of the sanitizer: on `SUCCESS`, the messages of
`rosie_compile` are what `to_json_string` makes of the engine's diagnostics
(its second result), and the messages of `rosie_load` are what
`to_json_string` makes of the engine's diagnostics (its third result) or, when
that conversion fails, a fixed text. -/
theorem sanitizer_applied_by_loadfile_and_import (R : Runtime W) (e : Engine W) :
    (∀ ok fn pkgname m, (rosie_loadfile R e ok fn pkgname m).2.status = Status.SUCCESS →
        ∃ rs ss, (R.loadfile e.L fn.bytes).results = some rs
          ∧ (R.strip_each (R.loadfile e.L fn.bytes).state (nth rs 2)).results = some ss
          ∧ (to_json_string R
                { e with L := (R.strip_each (R.loadfile e.L fn.bytes).state (nth rs 2)).state }
                (nth ss 0)).2
            = (Status.SUCCESS, (rosie_loadfile R e ok fn pkgname m).2.messages))
      ∧ (∀ ok pkgname as actual m,
          (rosie_import R e ok pkgname as actual m).2.status = Status.SUCCESS →
          ∃ rs ss, (R.importpkg e.L pkgname.bytes (as.map str.bytes)).results = some rs
            ∧ (R.strip_each (R.importpkg e.L pkgname.bytes (as.map str.bytes)).state
                (nth rs 2)).results = some ss
            ∧ (to_json_string R
                  { e with L := (R.strip_each (R.importpkg e.L pkgname.bytes
                      (as.map str.bytes)).state (nth rs 2)).state }
                  (nth ss 0)).2
              = (Status.SUCCESS, (rosie_import R e ok pkgname as actual m).2.messages))
      ∧ (∀ ok src pkgname,
          (rosie_load R e ok src pkgname).1.events.count (Event.call Cap.strip_each)
              = e.events.count (Event.call Cap.strip_each)
            ∧ ((rosie_load R e ok src pkgname).2.status = Status.SUCCESS →
              ∃ rs, (R.load e.L src.bytes).results = some rs
                ∧ (rosie_load R e ok src pkgname).2.messages
                  = if (to_json_string R { e with L := (R.load e.L src.bytes).state }
                        (nth rs 2)).2.1 = Status.SUCCESS
                    then (to_json_string R { e with L := (R.load e.L src.bytes).state }
                        (nth rs 2)).2.2
                    else rosie_new_string_from_const
                      "in load(), could not convert error information to json"))
      ∧ (∀ x p m,
          (rosie_compile R e x p m).1.events.count (Event.call Cap.strip_each)
              = e.events.count (Event.call Cap.strip_each)
            ∧ ((rosie_compile R e x p m).2.status = Status.SUCCESS →
              ∃ xs rs, x = some xs ∧ (R.compile e.L xs.bytes).results = some rs
                ∧ (to_json_string R { e with L := (R.compile e.L xs.bytes).state }
                    (nth rs 1)).2
                  = (Status.SUCCESS, (rosie_compile R e x p m).2.messages))) := by
  refine ⟨rosie_loadfile_encodes R e, rosie_import_encodes R e, ?_, ?_⟩
  · intro ok src pkgname
    exact ⟨rosie_load_count R e ok src pkgname _ (by simp) (by simp),
      rosie_load_encodes R e ok src pkgname⟩
  · intro x p m
    exact ⟨rosie_compile_count R e x p m _ (by simp) (by simp),
      rosie_compile_encodes R e x p m⟩

/-- Failing run for C13: when the engine call raises an error, `rosie_loadfile`
and `rosie_import` return `ERR_ENGINE_CALL_FAILED` without writing `messages`:
a caller who passed `{NULL, 0}` finds `{NULL, 0}`, not a fallback text. -/
theorem loadfile_fault_leaves_messages :
    (rosie_loadfile inertRuntime exampleEngine 0 exampleSource ⟨none, 0⟩ ⟨none, 0⟩).2
        = ⟨Status.ERR_ENGINE_CALL_FAILED, 0, ⟨none, 0⟩, ⟨none, 0⟩⟩
      ∧ (rosie_import inertRuntime exampleEngine 0 exampleSource none ⟨none, 0⟩ ⟨none, 0⟩).2
        = ⟨Status.ERR_ENGINE_CALL_FAILED, 0, ⟨none, 0⟩, ⟨none, 0⟩⟩ := by
  decide

/-- C13, what the code does: when the call into the engine capability raises
an error, `rosie_load`, `rosie_loadfile` and `rosie_import` return
`ERR_ENGINE_CALL_FAILED` and leave `*ok` and the package name as they were;
`rosie_load` sets `messages` to a copy of the fixed text
"engine.load() failed" (non-null, the same for every fault), whereas
`rosie_loadfile` and `rosie_import` leave `messages` as the caller passed it. -/
theorem engine_fault_in_load_operations (R : Runtime W) (e : Engine W) :
    (∀ ok src pkgname, (R.load e.L src.bytes).results = none →
        (rosie_load R e ok src pkgname).2
          = ⟨Status.ERR_ENGINE_CALL_FAILED, ok, pkgname, ⟨some "engine.load() failed", 20⟩⟩)
      ∧ (∀ ok fn pkgname m, (R.loadfile e.L fn.bytes).results = none →
        (rosie_loadfile R e ok fn pkgname m).2
          = ⟨Status.ERR_ENGINE_CALL_FAILED, ok, pkgname, m⟩)
      ∧ (∀ ok pkgname as actual m,
        (R.importpkg e.L pkgname.bytes (as.map str.bytes)).results = none →
        (rosie_import R e ok pkgname as actual m).2
          = ⟨Status.ERR_ENGINE_CALL_FAILED, ok, actual, m⟩) := by
  refine ⟨?_, ?_, ?_⟩
  · intro ok src pkgname h
    simp only [rosie_load, get_registry_L, ACQUIRE_ENGINE_LOCK_L, h]
    rfl
  · intro ok fn pkgname m h
    simp only [rosie_loadfile, get_registry_L, ACQUIRE_ENGINE_LOCK_L, h]
  · intro ok pkgname as actual m h
    simp only [rosie_import, get_registry_L, ACQUIRE_ENGINE_LOCK_L, h]

/-- Counterexample to C14: on the example engine with one compiled pattern
(handle 1) and a matchfile capability that raises an error, `rosie_matchfile`
returns `ERR_ENGINE_CALL_FAILED`, not `SUCCESS`, and leaves `cin`, `cout` and
`cerr` as they were (7, 8, 9).  And with a null encoder name on a handle whose
slot holds no pattern (handle 2), `cout` is `ERR_NO_PATTERN`, not
`ERR_NO_ENCODER`: the handle is checked first. -/
theorem rosie_matchfile_engine_fault :
    (engineWithPattern.rplx_table.get 1).istable = true
      ∧ (rosie_matchfile exampleConsts exampleRuntime engineWithPattern 1 (some "json") 0
          (some "in.txt") (some "out.txt") (some "err.txt") 7 8 9).2
        = ⟨Status.ERR_ENGINE_CALL_FAILED, 7, 8, 9, ⟨none, 0⟩⟩
      ∧ (rosie_matchfile exampleConsts exampleRuntime engineWithPattern 1 (some "json") 0
          (some "in.txt") (some "out.txt") (some "err.txt") 7 8 9).1.events.head?
        = some (Event.call Cap.matchfile)
      ∧ (rosie_matchfile exampleConsts exampleRuntime engineWithPattern 2 none 0
          (some "in.txt") (some "out.txt") (some "err.txt") 7 8 9).2
        = ⟨Status.SUCCESS, -1, exampleConsts.ERR_NO_PATTERN, 9, ⟨none, 0⟩⟩ := by
  decide

/-- C14 (amended): `rosie_matchfile` returns `SUCCESS` with `cin = -1`, `cout =
ERR_NO_PATTERN` when the slot of the handle holds no table, and with `cin = -1`,
`cout = ERR_NO_ENCODER` when it does and the encoder name is null; in both
cases `err = {NULL, 0}` and the only event logged is a possible collection by
the governor, so the engine's matchfile capability is not invoked.  When the
engine call returns with a `nil` third result, it returns `SUCCESS` with
`cin = -1`, `cout = 3` and `err` a copy of the engine's second result (the
message); when it returns with another third result, `cin`, `cout`, `cerr` are
the three results in order, converted by `lua_tointeger`, and
`err = {NULL, 0}`.  When the engine call raises an error, it returns
`ERR_ENGINE_CALL_FAILED` with `cin`, `cout`, `cerr` untouched and
`err = {NULL, 0}`. -/
theorem rosie_matchfile_outcomes (K : Consts) (R : Runtime W) (e : Engine W) (pat : Int)
    (encoder : Option String) (flag : Int) (f1 f2 f3 : Option String) (cin cout cerr : Int) :
    ((e.rplx_table.get pat).istable = false →
        (rosie_matchfile K R e pat encoder flag f1 f2 f3 cin cout cerr).2
            = ⟨Status.SUCCESS, -1, K.ERR_NO_PATTERN, cerr, ⟨none, 0⟩⟩
          ∧ ((rosie_matchfile K R e pat encoder flag f1 f2 f3 cin cout cerr).1.events = e.events
            ∨ (rosie_matchfile K R e pat encoder flag f1 f2 f3 cin cout cerr).1.events
              = Event.collect :: e.events))
      ∧ ((e.rplx_table.get pat).istable = true → encoder = none →
        (rosie_matchfile K R e pat encoder flag f1 f2 f3 cin cout cerr).2
            = ⟨Status.SUCCESS, -1, K.ERR_NO_ENCODER, cerr, ⟨none, 0⟩⟩
          ∧ ((rosie_matchfile K R e pat encoder flag f1 f2 f3 cin cout cerr).1.events = e.events
            ∨ (rosie_matchfile K R e pat encoder flag f1 f2 f3 cin cout cerr).1.events
              = Event.collect :: e.events))
      ∧ (∀ enc rs, (e.rplx_table.get pat).istable = true → encoder = some enc →
          (R.matchfile (collect_if_needed R e).L (e.rplx_table.get pat) f1 f2 f3 enc
            (decide (flag ≠ 0))).results = some rs →
          (nth rs 2 = LuaValue.nil →
            (rosie_matchfile K R e pat encoder flag f1 f2 f3 cin cout cerr).2
              = ⟨Status.SUCCESS, -1, 3, cerr, rosie_new_string (nth rs 1).tolstring⟩
            ∧ ∀ msg, nth rs 1 = LuaValue.string msg →
              (rosie_matchfile K R e pat encoder flag f1 f2 f3 cin cout cerr).2.err
                = ⟨some msg, msg.length⟩)
          ∧ (nth rs 2 ≠ LuaValue.nil →
            (rosie_matchfile K R e pat encoder flag f1 f2 f3 cin cout cerr).2
              = ⟨Status.SUCCESS, toInt32 (lua_tointeger R (nth rs 0)),
                  toInt32 (lua_tointeger R (nth rs 1)), toInt32 (lua_tointeger R (nth rs 2)),
                  ⟨none, 0⟩⟩
            ∧ ∀ a b c, isInt32 a → isInt32 b → isInt32 c →
              rs = [LuaValue.number a, LuaValue.number b, LuaValue.number c] →
              (rosie_matchfile K R e pat encoder flag f1 f2 f3 cin cout cerr).2
                = ⟨Status.SUCCESS, a, b, c, ⟨none, 0⟩⟩))
      ∧ (∀ enc, (e.rplx_table.get pat).istable = true → encoder = some enc →
          (R.matchfile (collect_if_needed R e).L (e.rplx_table.get pat) f1 f2 f3 enc
            (decide (flag ≠ 0))).results = none →
          (rosie_matchfile K R e pat encoder flag f1 f2 f3 cin cout cerr).2
            = ⟨Status.ERR_ENGINE_CALL_FAILED, cin, cout, cerr, ⟨none, 0⟩⟩) := by
  have hev := collect_if_needed_events R e
  have htab : (get_registry (get_registry (get_registry
      (collect_if_needed R (ACQUIRE_ENGINE_LOCK e))))).api.rplx_table.get pat
      = e.rplx_table.get pat := by
    simp only [api_rplx_table, get_registry_rplx_table, collect_if_needed_rplx_table,
      ACQUIRE_ENGINE_LOCK_rplx_table]
  refine ⟨?_, ?_, ?_, ?_⟩
  · intro h
    refine ⟨?_, ?_⟩
    · unfold rosie_matchfile
      dsimp only
      split
      · rfl
      · rename_i h1
        rw [htab, h] at h1
        exact absurd rfl h1
    · rw [rosie_matchfile_unresolved K R e pat encoder flag f1 f2 f3 cin cout cerr (Or.inl h)]
      exact hev
  · intro h henc
    refine ⟨?_, ?_⟩
    · subst henc
      unfold rosie_matchfile
      dsimp only
      split
      · rename_i h1
        rw [htab, h] at h1
        cases h1
      · rfl
    · rw [rosie_matchfile_unresolved K R e pat encoder flag f1 f2 f3 cin cout cerr (Or.inr henc)]
      exact hev
  · intro enc rs h henc hcall
    subst henc
    have hres : (rosie_matchfile K R e pat (some enc) flag f1 f2 f3 cin cout cerr).2
        = if (nth rs 2).isnil then
            ⟨Status.SUCCESS, -1, 3, cerr, rosie_new_string (nth rs 1).tolstring⟩
          else ⟨Status.SUCCESS, toInt32 (lua_tointeger R (nth rs 0)),
            toInt32 (lua_tointeger R (nth rs 1)), toInt32 (lua_tointeger R (nth rs 2)),
            ⟨none, 0⟩⟩ := by
      have hL : (get_registry (get_registry (get_registry
          (collect_if_needed R (ACQUIRE_ENGINE_LOCK e))))).api.L
          = (collect_if_needed R e).L := collect_if_needed_acquire_L R e
      rw [← hL, ← htab] at hcall
      unfold rosie_matchfile
      dsimp only
      split
      · rename_i h1
        rw [htab, h] at h1
        cases h1
      · split
        · rename_i h2
          exact Option.noConfusion (h2.symm.trans hcall)
        · rename_i rs' h2
          have hrs : rs' = rs := Option.some.inj (h2.symm.trans hcall)
          rw [hrs]
          split <;> rfl
    clear htab hev hcall
    refine ⟨?_, ?_⟩
    · intro hnil
      rw [hres]
      simp only [hnil, LuaValue.isnil, if_true, true_and]
      intro msg hmsg
      simp [hmsg, LuaValue.tolstring, rosie_new_string]
    · intro hnn
      have hnot : (nth rs 2).isnil = false := by
        cases hv : nth rs 2 <;> simp_all [LuaValue.isnil]
      rw [hres]
      simp only [hnot, Bool.false_eq_true, if_false, true_and]
      intro a b c ha hb hc hrs
      subst hrs
      simp [nth, lua_tointeger, toInt32_of_isInt32, ha, hb, hc]
  · intro enc h henc hcall
    subst henc
    have hL : (get_registry (get_registry (get_registry
        (collect_if_needed R (ACQUIRE_ENGINE_LOCK e))))).api.L
        = (collect_if_needed R e).L := collect_if_needed_acquire_L R e
    rw [← hL, ← htab] at hcall
    unfold rosie_matchfile
    dsimp only
    split
    · rename_i h1
      rw [htab, h] at h1
      cases h1
    · split
      · rfl
      · rename_i rs h2
        exact Option.noConfusion (hcall.symm.trans h2)

/-- C15: `rosie_trace` called with handle 0, or with a handle whose slot holds
no table, returns `SUCCESS` with `trace = {NULL, ERR_NO_PATTERN}`, whatever the
trace style (null included: the pattern check comes first); called with a
handle whose slot holds a table and a null trace style, it returns `SUCCESS`
with `trace = {NULL, ERR_NO_ENCODER}`.  In both cases `*matched` keeps its
value and the only event logged is a possible collection by the governor, so
the engine's trace capability is not invoked. -/
theorem rosie_trace_unresolved (K : Consts) (R : Runtime W) (e : Engine W) (pat start : Int)
    (trace_style : Option String) (input : str) (matched : Int) (trace : str) :
    ((pat = 0 ∨ (e.rplx_table.get pat).istable = false) →
        ∃ e', rosie_trace K R e pat start trace_style input matched trace
            = some (e', ⟨Status.SUCCESS, matched, ⟨none, K.ERR_NO_PATTERN⟩⟩)
          ∧ (e'.events = e.events ∨ e'.events = Event.collect :: e.events))
      ∧ (pat ≠ 0 → (e.rplx_table.get pat).istable = true → trace_style = none →
        ∃ e', rosie_trace K R e pat start trace_style input matched trace
            = some (e', ⟨Status.SUCCESS, matched, ⟨none, K.ERR_NO_ENCODER⟩⟩)
          ∧ (e'.events = e.events ∨ e'.events = Event.collect :: e.events)) := by
  have hev := collect_if_needed_events R (ACQUIRE_ENGINE_LOCK e)
  refine ⟨?_, ?_⟩
  · intro h
    refine ⟨_, rosie_trace_no_pattern_eq K R e pat start trace_style input matched trace h, ?_⟩
    split
    · simpa [RELEASE_ENGINE_LOCK, lua_settop0, Engine.api, get_registry] using hev
    · simpa [RELEASE_ENGINE_LOCK, lua_settop0, Engine.api, get_registry] using hev
  · intro hp ht hs
    subst hs
    refine ⟨_, rosie_trace_no_style_eq K R e pat start input matched trace hp ht, ?_⟩
    simpa [RELEASE_ENGINE_LOCK, lua_settop0, Engine.api, get_registry] using hev

/-- C16: when the handle resolves to a pattern and the engine's match call
returns (on either path: `Cmatch` for encoder code 0; otherwise `r_match_C` on
the peg found by the lookups of the pattern object), `rosie_match` returns with
`tmatch`, `ttotal`, `abend` and `leftover` taken from the fifth, fourth, third
and second result.  The first result decides the outcome: a full userdata (an
`rBuffer`) gives `SUCCESS` with `data = (buf->data, buf->n)`; a number gives
`SUCCESS` with `data = {NULL, n}` for its integer value `n`; a string gives
`ERR_ENGINE_CALL_FAILED` on the built-in encoder path (and `SUCCESS` with a copy
of the string on the `Cmatch` path); a value of any other type gives
`ERR_ENGINE_CALL_FAILED` on either path. -/
theorem rosie_match_interprets_results (K : Consts) (R : Runtime W) (e : Engine W)
    (pat start : Int) (encoder_name : Option String) (input : str) (m : Match) (code : Int)
    (o : Outcome W) (rs : List LuaValue)
    (hp : pat ≠ 0) (ht : (e.rplx_table.get pat).istable = true)
    (henc : encoder_name_to_code K encoder_name = some code)
    (hcall : match_call R (collect_if_needed R e).L (e.rplx_table.get pat) input start
      encoder_name code = some o)
    (hres : o.results = some rs) :
    ∃ e' status m', rosie_match K R e pat start encoder_name input m = some (e', status, m')
      ∧ m'.tmatch = toInt32 (lua_tointeger R (nth rs 4))
      ∧ m'.ttotal = toInt32 (lua_tointeger R (nth rs 3))
      ∧ m'.abend = (nth rs 2).toboolean
      ∧ m'.leftover = toInt32 (lua_tointeger R (nth rs 1))
      ∧ (∀ data n, nth rs 0 = LuaValue.userdata data n →
          status = Status.SUCCESS ∧ m'.data = ⟨some data, n⟩)
      ∧ (∀ n, nth rs 0 = LuaValue.number n →
          status = Status.SUCCESS ∧ m'.data = ⟨none, toInt32 n⟩ ∧ (isInt32 n → m'.data.len = n))
      ∧ (∀ n text, nth rs 0 = LuaValue.float n text →
          status = Status.SUCCESS ∧ m'.data = ⟨none, toInt32 (n.getD 0)⟩)
      ∧ (∀ s, nth rs 0 = LuaValue.string s →
          (code ≠ 0 → status = Status.ERR_ENGINE_CALL_FAILED)
            ∧ (code = 0 → status = Status.SUCCESS ∧ m'.data = ⟨some s, s.length⟩))
      ∧ ((nth rs 0 = LuaValue.nil ∨ (∃ b, nth rs 0 = LuaValue.boolean b)
            ∨ (∃ id, nth rs 0 = LuaValue.table id) ∨ (∃ id, nth rs 0 = LuaValue.function id)
            ∨ (∃ addr, nth rs 0 = LuaValue.lightuserdata addr)) →
          status = Status.ERR_ENGINE_CALL_FAILED) := by
  rw [rosie_match_returned K R e pat start encoder_name input m code o hp ht henc hcall, hres]
  dsimp only
  generalize pcall _ _ _ = e1
  refine ⟨(match_results R e1 code rs m).1, (match_results R e1 code rs m).2.1,
    (match_results R e1 code rs m).2.2, rfl, ?_⟩
  unfold match_results
  cases h0 : nth rs 0 <;> simp [set_match_error, rosie_new_string]
  · intro hn
    exact toInt32_of_isInt32 hn
  · split_ifs <;> simp_all

/-- Witness of C16: on the example engine with one compiled pattern, a match
with the built-in encoder "json" (code 1): the lookups find the peg, and the
matcher returns a buffer. -/
theorem rosie_match_interprets_results_witness :
    ∃ e' m', rosie_match exampleConsts exampleRuntime engineWithPattern 1 1 (some "json")
          exampleInput exampleMatch = some (e', Status.SUCCESS, m')
      ∧ m'.data = ⟨some "[1,2]", 5⟩ ∧ m'.leftover = 0 ∧ m'.abend = false ∧ m'.ttotal = 7
      ∧ m'.tmatch = 3 := by
  obtain ⟨e', st, m', h, h1, h2, h3, h4, h5, -⟩ :=
    rosie_match_interprets_results exampleConsts exampleRuntime engineWithPattern 1 1
      (some "json") exampleInput exampleMatch 1
      (exampleRuntime.r_match_C 1001 (LuaValue.userdata "peg" 0) exampleInput 1 1)
      [LuaValue.userdata "[1,2]" 5, LuaValue.number 0, LuaValue.boolean false,
        LuaValue.number 7, LuaValue.number 3]
      (by decide) (by decide) (by decide) rfl (by decide)
  obtain ⟨hs, hd⟩ := h5 "[1,2]" 5 rfl
  subst hs
  exact ⟨e', m', h, hd, h4.trans (by decide), h3, h2.trans (by decide), h1.trans (by decide)⟩

/-- C17: on an engine reached from `rosie_new` by any sequence of exported
operations (`rosie_match` calls among them), the C heap of string copies made
for string-typed match results holds at most one entry.  No address is
allocated twice.  The copy that is currently cached is the one entry of the
heap and has not been released; every other copy allocated so far has been
released exactly once.  A further operation releases a copy only if it is a
`rosie_match` that caches a new copy: it then releases the previously cached
copy, and no other, before it logs the allocation of the new one.  After
`rosie_finalize` the heap is empty and every copy ever allocated has been
released exactly once. -/
theorem string_cache_single_entry (K : Consts) (R : Runtime W) (B : Startup W) (S : Statics)
    (newstate : Option W) (m0 m1 : str) (e0 : Engine W)
    (hnew : rosie_new R B S newstate m0 = some (some e0, m1))
    (ops : List Op) (e : Engine W) (hrun : Op.runAll K R e0 ops = some e) :
    e.heap.length ≤ 1
      ∧ (∀ a, e.events.count (Event.str_alloc a) ≤ 1)
      ∧ (∀ c, e.prev_string_result = LuaValue.lightuserdata c →
          e.heap.map Prod.fst = [c] ∧ e.events.count (Event.str_alloc c) = 1
            ∧ e.events.count (Event.str_free c) = 0)
      ∧ (∀ a, e.prev_string_result ≠ LuaValue.lightuserdata a →
          e.events.count (Event.str_free a) = e.events.count (Event.str_alloc a))
      ∧ (∀ op e', op.run K R e = some e' →
          (e'.prev_string_result = e.prev_string_result
              ∧ ∀ a, e'.events.count (Event.str_free a) = e.events.count (Event.str_free a))
            ∨ ((∃ pat start enc input m, op = Op.rmatch pat start enc input m)
              ∧ ∃ tail, e'.events = Event.str_alloc (e.next_addr + 1) :: tail
                ∧ e'.prev_string_result = LuaValue.lightuserdata (e.next_addr + 1)
                ∧ ∀ a, tail.count (Event.str_free a) = e.events.count (Event.str_free a)
                    + if e.prev_string_result = LuaValue.lightuserdata a then 1 else 0))
      ∧ (rosie_finalize e).heap = []
      ∧ (∀ a, (rosie_finalize e).events.count (Event.str_alloc a)
          = e.events.count (Event.str_alloc a))
      ∧ (∀ a, (rosie_finalize e).events.count (Event.str_free a)
          = e.events.count (Event.str_alloc a)) := by
  obtain ⟨w0, rfl⟩ := rosie_new_init R B S newstate m0 m1 e0 hnew
  have hinv : e.CacheInv :=
    Op.runAll_cacheInv K R ops (Engine.init w0) e (Engine.CacheInv.fresh w0) hrun
  refine ⟨?_, hinv.2.1, ?_, ?_, fun op e' h => Op.run_cache_step K R e e' op hinv h,
    rosie_finalize_cache e hinv⟩
  · rcases hinv.2.2 with ⟨-, hheap, -⟩ | ⟨c, s0, -, -, hheap, -⟩ <;> simp [hheap]
  · intro c hc
    rcases hinv.2.2 with ⟨hnil, -, -⟩ | ⟨c', s0, hprev, -, hheap, -, hac, hfc, -⟩
    · rw [hnil] at hc
      cases hc
    · rw [hprev] at hc
      cases hc
      exact ⟨by simp [hheap], hac, hfc⟩
  · intro a ha
    rcases hinv.2.2 with ⟨-, -, hfree⟩ | ⟨c', s0, hprev, -, -, -, -, -, hrest⟩
    · exact hfree a
    · exact hrest a (fun hx => ha (hx ▸ hprev))

/-- Witness of C17: on the runtime whose `Cmatch` returns strings, after a
compilation and two matches the second copy (address 2) is cached and the first
(address 1) has been released; `rosie_finalize` releases the second. -/
theorem string_cache_single_entry_witness :
    engineAfterMatches.prev_string_result = LuaValue.lightuserdata 2
      ∧ engineAfterMatches.heap.map Prod.fst = [2]
      ∧ engineAfterMatches.events.count (Event.str_free 1) = 1
      ∧ engineAfterMatches.events.count (Event.str_free 2) = 0
      ∧ (rosie_finalize engineAfterMatches).heap = []
      ∧ (rosie_finalize engineAfterMatches).events.count (Event.str_free 2) = 1 :=
  have h := string_cache_single_entry exampleConsts stringMatchRuntime exampleStartup
    exampleStatics (some 1000) ⟨none, 0⟩ ⟨none, 0⟩ exampleEngine (by decide) exampleMatches
    engineAfterMatches (by decide)
  have hp : engineAfterMatches.prev_string_result = LuaValue.lightuserdata 2 := by decide
  ⟨hp, (h.2.2.1 2 hp).1, (h.2.2.2.1 1 (by decide)).trans (by decide), (h.2.2.1 2 hp).2.2,
    h.2.2.2.2.2.1, (h.2.2.2.2.2.2.2 2).trans (h.2.2.1 2 hp).2.1⟩

/-- C18: for a table of encoders whose names are shorter than
`MAX_ENCODER_NAME_LENGTH` and whose codes are nonzero, `encoder_name_to_code`
on a (non-null) name returns the code of the first entry whose name is that
name, as C strings, or 0 if there is none, and it returns 0 exactly when no
entry has that name.  On a handle that resolves to a pattern, `rosie_match`
with code 0 makes the call `rplx.Cmatch` and returns, having made exactly one
call of `Cmatch` and none of the native matcher `r_match_C`.  With a nonzero
code it takes the path through C: it looks up the peg of the pattern object
and calls `r_match_C` on it, and it returns, having made exactly one call of
`r_match_C` and none of `Cmatch`, unless one of the two lookups raises an
error, in which case it does not return. -/
theorem encoder_code_selects_path (K : Consts) (R : Runtime W) (e : Engine W) (name : String)
    (hlen : ∀ p ∈ K.r_encoders, strlen p.1 < K.MAX_ENCODER_NAME_LENGTH)
    (hcode : ∀ p ∈ K.r_encoders, p.2 ≠ 0) :
    encoder_name_to_code K (some name)
        = some (((K.r_encoders.find? (fun p => decide (cstring p.1 = cstring name))).map
            Prod.snd).getD 0)
      ∧ (encoder_name_to_code K (some name) = some 0
          ↔ ∀ p ∈ K.r_encoders, cstring p.1 ≠ cstring name)
      ∧ (∀ pat start input m, pat ≠ 0 → (e.rplx_table.get pat).istable = true →
          encoder_name_to_code K (some name) = some 0 →
          match_call R (collect_if_needed R e).L (e.rplx_table.get pat) input start (some name) 0
              = some (R.Cmatch (collect_if_needed R e).L (e.rplx_table.get pat) input start
                  (some name))
            ∧ ∃ r, rosie_match K R e pat start (some name) input m = some r
              ∧ r.1.events.count (Event.call Cap.Cmatch)
                = e.events.count (Event.call Cap.Cmatch) + 1
              ∧ r.1.events.count (Event.call Cap.r_match_C)
                = e.events.count (Event.call Cap.r_match_C))
      ∧ (∀ pat start input m code, pat ≠ 0 → (e.rplx_table.get pat).istable = true →
          encoder_name_to_code K (some name) = some code → code ≠ 0 →
          match_call R (collect_if_needed R e).L (e.rplx_table.get pat) input start (some name)
              code
            = ((R.getfield (collect_if_needed R e).L (e.rplx_table.get pat) "pattern").bind
                (fun pattern => R.getfield (collect_if_needed R e).L pattern "peg")).map
                (fun peg => R.r_match_C (collect_if_needed R e).L peg input start code)
            ∧ (rosie_match K R e pat start (some name) input m = none
              ↔ (R.getfield (collect_if_needed R e).L (e.rplx_table.get pat) "pattern").bind
                  (fun pattern => R.getfield (collect_if_needed R e).L pattern "peg") = none)
            ∧ ∀ r, rosie_match K R e pat start (some name) input m = some r →
              r.1.events.count (Event.call Cap.r_match_C)
                = e.events.count (Event.call Cap.r_match_C) + 1
              ∧ r.1.events.count (Event.call Cap.Cmatch)
                = e.events.count (Event.call Cap.Cmatch)) := by
  have h1 : encoder_name_to_code K (some name)
      = some (((K.r_encoders.find? (fun p => decide (cstring p.1 = cstring name))).map
          Prod.snd).getD 0) := by
    simp only [encoder_name_to_code]
    rw [encoder_lookup_eq K.MAX_ENCODER_NAME_LENGTH name K.r_encoders hlen]
  refine ⟨h1, ?_, ?_, ?_⟩
  · rw [h1]
    cases hf : K.r_encoders.find? (fun p => decide (cstring p.1 = cstring name)) with
    | none =>
      simp only [Option.map_none', Option.getD_none, true_iff]
      intro p hp
      have := List.find?_eq_none.mp hf p hp
      simpa using this
    | some q =>
      have hq := List.mem_of_find?_eq_some hf
      have hqn := List.find?_some hf
      simp only [Option.map_some', Option.getD_some, Option.some.injEq]
      constructor
      · intro hz
        exact absurd hz (hcode q hq)
      · intro hall
        exact absurd (by simpa using hqn) (hall q hq)
  · intro pat start input m hp ht henc
    have hcall := match_call_interpreted R (collect_if_needed R e).L (e.rplx_table.get pat)
      input start (some name)
    obtain ⟨hnone, hcount⟩ := rosie_match_path K R e pat start (some name) input m 0 hp ht henc
    refine ⟨hcall, ?_⟩
    cases hr : rosie_match K R e pat start (some name) input m with
    | none =>
      rw [hnone.mp hr] at hcall
      cases hcall
    | some r =>
      have hc := hcount r hr
      exact ⟨r, rfl, by simpa using hc.2, by simpa using hc.1⟩
  · intro pat start input m code hp ht henc hc
    have hcall := match_call_native R (collect_if_needed R e).L (e.rplx_table.get pat)
      input start (some name) code hc
    obtain ⟨hnone, hcount⟩ :=
      rosie_match_path K R e pat start (some name) input m code hp ht henc
    refine ⟨hcall, ?_, ?_⟩
    · rw [hnone, hcall, Option.map_eq_none']
    · intro r hr
      have hcr := hcount r hr
      exact ⟨by simpa [hc] using hcr.1, by simpa [hc] using hcr.2⟩

/-- Witness of C18: the example table ("json" with code 1, "line" with code 2).
The name "json", also when other bytes follow its terminating NUL, has code 1,
and the match on handle 1 calls `r_match_C` once and `Cmatch` not at all; on a
runtime whose pattern objects have no field `pattern` the same match does not
return. -/
theorem encoder_code_selects_path_witness :
    encoder_name_to_code exampleConsts (some "json") = some 1
      ∧ encoder_name_to_code exampleConsts (some "json\x00x") = some 1
      ∧ (∃ r, rosie_match exampleConsts exampleRuntime engineWithPattern 1 1 (some "json")
            exampleInput exampleMatch = some r
        ∧ r.1.events.count (Event.call Cap.r_match_C)
          = engineWithPattern.events.count (Event.call Cap.r_match_C) + 1
        ∧ r.1.events.count (Event.call Cap.Cmatch)
          = engineWithPattern.events.count (Event.call Cap.Cmatch))
      ∧ rosie_match exampleConsts inertRuntime engineWithPattern 1 1 (some "json")
            exampleInput exampleMatch = none :=
  have h := encoder_code_selects_path exampleConsts exampleRuntime engineWithPattern "json"
    (by decide) (by decide)
  have h' := encoder_code_selects_path exampleConsts inertRuntime engineWithPattern "json"
    (by decide) (by decide)
  have hw := h.2.2.2 1 1 exampleInput exampleMatch 1 (by decide) (by decide) (by decide)
    (by decide)
  have hr : ∃ r, rosie_match exampleConsts exampleRuntime engineWithPattern 1 1 (some "json")
      exampleInput exampleMatch = some r :=
    Option.ne_none_iff_exists'.mp (fun hn => absurd (hw.2.1.mp hn) (by decide))
  ⟨h.1.trans (by decide), by decide,
    hr.elim (fun r hr => ⟨r, hr, hw.2.2 r hr⟩),
    (h'.2.2.2 1 1 exampleInput exampleMatch 1 (by decide) (by decide) (by decide)
      (by decide)).2.1.mpr (by decide)⟩

/-- C19: every exported operation that returns a status returns `SUCCESS` or
`ERR_ENGINE_CALL_FAILED` on every path on which it returns; in particular the
status `ERR_SYSCALL_FAILED` of `to_json_string` never reaches the caller
(`rosie_free_rplx` always returns `SUCCESS`).  The codes `ERR_NO_PATTERN` and
`ERR_NO_ENCODER` are never a status: they are written to result fields only. -/
theorem status_is_success_or_engine_call_failed (K : Consts) (R : Runtime W) (e : Engine W) :
    (∀ newlimit usage,
        (rosie_alloc_limit K R e newlimit usage).2.status = Status.SUCCESS
          ∨ (rosie_alloc_limit K R e newlimit usage).2.status = Status.ERR_ENGINE_CALL_FAILED)
      ∧ ((rosie_config R e).2.1 = Status.SUCCESS
          ∨ (rosie_config R e).2.1 = Status.ERR_ENGINE_CALL_FAILED)
      ∧ (∀ newpath, (rosie_libpath R e newpath).2.1 = Status.SUCCESS
          ∨ (rosie_libpath R e newpath).2.1 = Status.ERR_ENGINE_CALL_FAILED)
      ∧ (∀ pat, (rosie_free_rplx e pat).2 = Status.SUCCESS)
      ∧ (∀ x p m, (rosie_compile R e x p m).2.status = Status.SUCCESS
          ∨ (rosie_compile R e x p m).2.status = Status.ERR_ENGINE_CALL_FAILED)
      ∧ (∀ pat start enc input m r, rosie_match K R e pat start enc input m = some r →
          r.2.1 = Status.SUCCESS ∨ r.2.1 = Status.ERR_ENGINE_CALL_FAILED)
      ∧ (∀ pat start style input matched out r,
          rosie_trace K R e pat start style input matched out = some r →
          r.2.status = Status.SUCCESS ∨ r.2.status = Status.ERR_ENGINE_CALL_FAILED)
      ∧ (∀ ok src pkgname, (rosie_load R e ok src pkgname).2.status = Status.SUCCESS
          ∨ (rosie_load R e ok src pkgname).2.status = Status.ERR_ENGINE_CALL_FAILED)
      ∧ (∀ ok fn pkgname m, (rosie_loadfile R e ok fn pkgname m).2.status = Status.SUCCESS
          ∨ (rosie_loadfile R e ok fn pkgname m).2.status = Status.ERR_ENGINE_CALL_FAILED)
      ∧ (∀ ok pkgname as actual m,
          (rosie_import R e ok pkgname as actual m).2.status = Status.SUCCESS
            ∨ (rosie_import R e ok pkgname as actual m).2.status
              = Status.ERR_ENGINE_CALL_FAILED)
      ∧ (∀ pat enc flag f1 f2 f3 cin cout cerr,
          (rosie_matchfile K R e pat enc flag f1 f2 f3 cin cout cerr).2.status = Status.SUCCESS
            ∨ (rosie_matchfile K R e pat enc flag f1 f2 f3 cin cout cerr).2.status
              = Status.ERR_ENGINE_CALL_FAILED)
      ∧ (∀ filename fe options,
          (rosie_read_rcfile R e filename fe options).2.status = Status.SUCCESS
            ∨ (rosie_read_rcfile R e filename fe options).2.status
              = Status.ERR_ENGINE_CALL_FAILED)
      ∧ (∀ filename fe ne,
          (rosie_execute_rcfile R e filename fe ne).2.status = Status.SUCCESS
            ∨ (rosie_execute_rcfile R e filename fe ne).2.status
              = Status.ERR_ENGINE_CALL_FAILED) := by
  refine ⟨rosie_alloc_limit_status K R e, rosie_config_status R e, rosie_libpath_status R e,
    fun pat => rfl, rosie_compile_status R e, rosie_match_status K R e,
    rosie_trace_status K R e, rosie_load_status R e, rosie_loadfile_status R e,
    rosie_import_status R e, ?_, rosie_read_rcfile_status R e,
    rosie_execute_rcfile_status R e⟩
  intro pat enc flag f1 f2 f3 cin cout cerr
  exact rosie_matchfile_status K R e pat enc flag f1 f2 f3 cin cout cerr

/-- Counterexample to C20: the compiler accepts the expression with one
warning and the JSON encoder raises an error.  `rosie_compile` returns
`ERR_ENGINE_CALL_FAILED`, yet `*pat` is 1 and slot 1 of the pattern table,
empty before the call, holds the compiled pattern. -/
theorem rosie_compile_fault_keeps_pattern :
    exampleEngine.rplx_table.get 1 = LuaValue.nil
      ∧ (exampleCompile failingEncoderRuntime exampleEngine).2.status
        = Status.ERR_ENGINE_CALL_FAILED
      ∧ (exampleCompile failingEncoderRuntime exampleEngine).2.pat = some 1
      ∧ (exampleCompile failingEncoderRuntime exampleEngine).1.rplx_table.get 1
        = LuaValue.table 1002 := by
  decide

/-- C20 (amended): when `rosie_compile` returns a non-zero status and the
compiler capability has not reported success (a null argument, a fault of the
engine call, or a rejected expression), `*pat` (when the pointer is non-null) is
0 and the pattern table is unchanged.  When it returns a non-zero status after
the compiler reported success (the reference is `LUA_REFNIL`, or the warnings
could not be converted to JSON), the compiled object has been stored: `*pat` is
the nonzero index `luaL_ref` returned and the table holds the object there. -/
theorem rosie_compile_failure (R : Runtime W) (e : Engine W) (x : Option str) (p : Option Int)
    (m : str) (hs : (rosie_compile R e x p m).2.status ≠ Status.SUCCESS) :
    ((¬ ∃ p0 xs rs, p = some p0 ∧ x = some xs ∧ (R.compile e.L xs.bytes).results = some rs
          ∧ (nth rs 0).toboolean = true) →
        (rosie_compile R e x p m).2.pat = p.map (fun _ => 0)
          ∧ (rosie_compile R e x p m).1.rplx_table = e.rplx_table)
      ∧ (∀ p0 xs rs, p = some p0 → x = some xs → (R.compile e.L xs.bytes).results = some rs →
          (nth rs 0).toboolean = true →
          (rosie_compile R e x p m).2.pat = some (luaL_ref R e.rplx_table (nth rs 0)).2
            ∧ (luaL_ref R e.rplx_table (nth rs 0)).2 ≠ 0
            ∧ (rosie_compile R e x p m).1.rplx_table = (luaL_ref R e.rplx_table (nth rs 0)).1
            ∧ (rosie_compile R e x p m).1.rplx_table.get (luaL_ref R e.rplx_table (nth rs 0)).2
              = nth rs 0
            ∧ ((luaL_ref R e.rplx_table (nth rs 0)).2 = LUA_REFNIL
              ∨ (to_json_string R { e with L := (R.compile e.L xs.bytes).state }
                  (nth rs 1)).2.1 ≠ Status.SUCCESS)) := by
  refine ⟨rosie_compile_unaccepted R e x p m, ?_⟩
  intro p0 xs rs hp hx hc hb
  subst hp hx
  obtain ⟨h1, h2, h3⟩ := rosie_compile_accepted_failure R e xs p0 m rs hc hb hs
  obtain ⟨h4, h5⟩ := luaL_ref_ne_zero R e.rplx_table (nth rs 0) (toboolean_ne_nil hb)
  exact ⟨h1, h4, h2, by rw [h2]; exact h5, h3⟩

/-- Witness of C20: the compiler rejects the expression and the JSON encoder
raises an error; `rosie_compile` returns `ERR_ENGINE_CALL_FAILED` with
`*pat = 0` and the pattern table as it was. -/
theorem rosie_compile_failure_witness :
    (exampleCompile rejectingRuntime exampleEngine).2.status ≠ Status.SUCCESS
      ∧ (exampleCompile rejectingRuntime exampleEngine).2.pat = some 0
      ∧ (exampleCompile rejectingRuntime exampleEngine).1.rplx_table
        = exampleEngine.rplx_table :=
  have hs : (exampleCompile rejectingRuntime exampleEngine).2.status ≠ Status.SUCCESS := by
    decide
  have h := (rosie_compile_failure rejectingRuntime exampleEngine (some exampleExpression)
    (some 0) ⟨none, 0⟩ hs).1 (by
      rintro ⟨p0, xs, rs, -, hx, hc, hb⟩
      cases hx
      cases hc
      exact absurd hb (by decide))
  ⟨hs, h.1, h.2⟩

/-- C21 (evaluation): in the branch of `boot` taken when the boot function
raises a string `text`, the block is allocated with
`strlen(intro) + min(strlen(text), 1000) + 1` bytes, but `stpcpy` followed by
`stpncpy(last, lua_msg, 1000 - strlen(intro))` always writes the 1000 bytes at
offsets 0 to 999: `intro`, at most 961 chars of the message, and `NUL`s up to
offset 999.  The writes stay inside the block only for messages of at least
960 chars.  The length returned in `*messages` is the full length of the
message plus `strlen(intro)`; it is the number of message bytes stored only
when the message has at most 961 chars, and it exceeds the size of the block
for messages of 1002 chars or more.  A message without `NUL` of fewer than 961
chars is stored in full after `intro`.  `boot` returns what this branch returns
whenever the boot function raises an error; when it raises "boom", `boot`
returns `FALSE` with the message `intro` followed by "boom", from a block of 44
bytes over which it wrote 1000. -/
theorem boot_failure_overruns_block :
    (∀ text : String, ∃ b s, boot_failure_message (LuaValue.string text) = some (b, s)
        ∧ b.size = 39 + min (strlen text) 1000 + 1
        ∧ b.cells = (("execution of rosie boot loader failed:\n".data
              ++ (cstring text).take 961) ++ List.replicate (961 - strlen text) NUL).map some
        ∧ b.cells.length = 1000
        ∧ (b.in_bounds ↔ 960 ≤ strlen text)
        ∧ s.len = (text.length : Int) + 39
        ∧ (s.len = ((39 + min (strlen text) 961 : Nat) : Int)
            ↔ text.length = min (strlen text) 961)
        ∧ (1002 ≤ strlen text → (b.size : Int) < s.len)
        ∧ (cstring text = text.data → text.length < 961 →
            s.ptr = some ("execution of rosie boot loader failed:\n" ++ text)))
      ∧ (∀ (W : Type) (B : Startup W) (S : Statics) (w w1 w2 : W) (messages : str)
          (rs : List LuaValue) (lua_msg : LuaValue),
          S.bootscript ≠ "" → B.loadfile_ok w S.bootscript = true →
          B.run_bootscript w = Outcome.ok w1 rs →
          B.run_boot_function w1 S.rosiehome = Outcome.error w2 lua_msg →
          boot B S w messages
            = (boot_failure_message lua_msg).map (fun r => (w2, false, r.2)))
      ∧ (∃ b, boot_failure_message (LuaValue.string "boom")
            = some (b, ⟨some "execution of rosie boot loader failed:\nboom", 43⟩)
        ∧ b.size = 44 ∧ b.cells.length = 1000 ∧ ¬ b.in_bounds
        ∧ boot faultingStartup exampleStatics 1000 ⟨none, 0⟩
          = some (1000, false, ⟨some "execution of rosie boot loader failed:\nboom", 43⟩)) := by
  have hgen : ∀ text : String, ∃ b s, boot_failure_message (LuaValue.string text) = some (b, s)
      ∧ b.size = 39 + min (strlen text) 1000 + 1
      ∧ b.cells = (("execution of rosie boot loader failed:\n".data
            ++ (cstring text).take 961) ++ List.replicate (961 - strlen text) NUL).map some
      ∧ b.cells.length = 1000
      ∧ (b.in_bounds ↔ 960 ≤ strlen text)
      ∧ s.len = (text.length : Int) + 39
      ∧ (s.len = ((39 + min (strlen text) 961 : Nat) : Int)
          ↔ text.length = min (strlen text) 961)
      ∧ (1002 ≤ strlen text → (b.size : Int) < s.len)
      ∧ (cstring text = text.data → text.length < 961 →
          s.ptr = some ("execution of rosie boot loader failed:\n" ++ text)) := by
    intro text
    have h39 : "execution of rosie boot loader failed:\n".data.length = 39 := by decide
    have hle : strlen text ≤ text.length := by
      unfold strlen cstring
      exact (List.takeWhile_sublist _).length_le
    have hlen : ((("execution of rosie boot loader failed:\n".data
          ++ (cstring text).take 961) ++ List.replicate (961 - strlen text) NUL).map
          some).length = 1000 := by
      simp only [List.length_map, List.length_append, List.length_take, List.length_replicate,
        h39, strlen]
      omega
    refine ⟨_, _, boot_failure_message_string text, ?_, rfl, hlen, ?_, rfl, ?_, ?_, ?_⟩
    · show 40 + min (strlen text) 1000 = 39 + min (strlen text) 1000 + 1
      omega
    · unfold Block.in_bounds
      rw [hlen]
      show 1000 ≤ 40 + min (strlen text) 1000 ↔ _
      omega
    · show (text.length : Int) + 39 = _ ↔ _
      omega
    · intro h
      show ((40 + min (strlen text) 1000 : Nat) : Int) < (text.length : Int) + 39
      omega
    · intro hnul hshort
      have hs : strlen text = text.length := by
        unfold strlen
        rw [hnul]
        rfl
      have htake : (cstring text).take 961 = text.data := by
        rw [hnul]
        exact List.take_of_length_le (Nat.le_of_lt hshort)
      have hintro : ∀ c ∈ "execution of rosie boot loader failed:\n".data, c ≠ NUL := by
        decide
      show some (String.mk (Block.cstring _)) = _
      rw [htake, Block.cstring_padded _ _ _ (fun c hc => by
        rcases List.mem_append.mp hc with h | h
        · exact hintro c h
        · exact (cstring_eq_data_iff text).mp hnul c h) (by omega)]
      rfl
  have hlink : ∀ (W : Type) (B : Startup W) (S : Statics) (w w1 w2 : W) (messages : str)
      (rs : List LuaValue) (lua_msg : LuaValue),
      S.bootscript ≠ "" → B.loadfile_ok w S.bootscript = true →
      B.run_bootscript w = Outcome.ok w1 rs →
      B.run_boot_function w1 S.rosiehome = Outcome.error w2 lua_msg →
      boot B S w messages
        = (boot_failure_message lua_msg).map (fun r => (w2, false, r.2)) := by
    intro W B S w w1 w2 messages rs lua_msg h1 h2 h3 h4
    simp only [boot, h1, h2, h3, h4, if_false, Bool.not_true, Bool.false_eq_true]
  refine ⟨hgen, hlink, ?_⟩
  obtain ⟨b, s, h, hsize, -, hlen, hin, hs, -, -, hptr⟩ := hgen "boom"
  have h4 : strlen "boom" = 4 := by decide
  have hsv : s = ⟨some "execution of rosie boot loader failed:\nboom", 43⟩ := by
    obtain ⟨p, l⟩ := s
    have hp := hptr (by decide) (by decide)
    simp only at hp hs
    rw [hp, hs]
    rfl
  subst hsv
  refine ⟨b, h, ?_, hlen, ?_, ?_⟩
  · rw [hsize, h4]
    rfl
  · rw [hin, h4]
    omega
  · rw [hlink Nat faultingStartup exampleStatics 1000 1000 1000 ⟨none, 0⟩ [LuaValue.function 0]
      (LuaValue.string "boom") (by decide) rfl rfl rfl, h]
    rfl

end Theorems

end Rosie
